import Mathlib

/-!
# Terraform AWS provider: resource handlers for `aws_api_gateway_domain_name`
and `aws_s3_bucket_website_configuration`

A shallow embedding of `internal/service/apigateway/domain_name.go` and
`internal/service/s3/bucket_website_configuration.go`.

Conventions of the embedding:

* a Go `interface{}` value of the Terraform state is a `TfValue`;
* a Go `map[string]interface{}` is an association list kept sorted by key with
  unique keys (`TfMap.set` is map assignment), so that two maps are equal
  exactly when they bind the same keys to the same values;
* a Go pointer field (`*string`, `*types.Condition`) is an `Option`;
  `types.Protocol` is a plain string whose zero value is `""`;
* a Go slice is a `List`; a nil slice and an empty slice are both `[]`.
-/

set_option linter.dupNamespace false

namespace TerraformAWS

/-! ## Terraform state values -/

/-- A Go `interface{}` value as it occurs in Terraform resource state. -/
inductive TfValue where
  | null : TfValue
  | str : String → TfValue
  | list : List TfValue → TfValue
  | map : List (String × TfValue) → TfValue

/-- The Go test `v == nil` on an `interface{}` value. -/
def TfValue.isNil : TfValue → Bool
  | .null => true
  | _ => false

/-- Go `map[string]interface{}`: association list sorted by key, keys unique. -/
abbrev TfMap := List (String × TfValue)

/-- The order in which the keys of a map are kept: lexicographic on characters. -/
def keyLt (a b : String) : Bool := decide (a.data < b.data)

/-- Map assignment `m[k] = v`. -/
def TfMap.set : TfMap → String → TfValue → TfMap
  | [], k, v => [(k, v)]
  | (k', v') :: rest, k, v =>
    if k = k' then (k, v) :: rest
    else if keyLt k k' then (k, v) :: (k', v') :: rest
    else (k', v') :: TfMap.set rest k v

/-- Map index `m[k]`; `none` when the key is absent (Go yields a nil interface). -/
def TfMap.get? : TfMap → String → Option TfValue
  | [], _ => none
  | (k', v') :: rest, k => if k = k' then some v' else TfMap.get? rest k

/-- The guarded read `if v, ok := tfMap[k].(string); ok && v != ""` used by every
expander: the string under `k` when it is present, a string and non-empty. -/
def nonEmptyStringAt (tfMap : TfMap) (k : String) : Option String :=
  match TfMap.get? tfMap k with
  | some (.str v) => if v ≠ "" then some v else none
  | _ => none

/-- The Go condition `len(v) > 0 && v[0] != nil` on a `[]interface{}`. -/
def firstNotNil : List TfValue → Bool
  | [] => false
  | x :: _ => !x.isNil

/-! ## S3 API types (`github.com/aws/aws-sdk-go-v2/service/s3/types`) -/

structure ErrorDocument where
  Key : Option String
  deriving DecidableEq

structure IndexDocument where
  Suffix : Option String
  deriving DecidableEq

structure RedirectAllRequestsTo where
  HostName : Option String
  Protocol : String
  deriving DecidableEq

structure Condition where
  HttpErrorCodeReturnedEquals : Option String
  KeyPrefixEquals : Option String
  deriving DecidableEq

structure Redirect where
  HostName : Option String
  HttpRedirectCode : Option String
  Protocol : String
  ReplaceKeyPrefixWith : Option String
  ReplaceKeyWith : Option String
  deriving DecidableEq

structure RoutingRule where
  Condition : Option Condition
  Redirect : Option Redirect
  deriving DecidableEq

/-! ## S3 expanders (state → API) -/

def expandBucketWebsiteConfigurationErrorDocument (l : List TfValue) : Option ErrorDocument :=
  match l with
  | [] => none
  | .null :: _ => none
  | .map tfMap :: _ => some { Key := nonEmptyStringAt tfMap "key" }
  | _ :: _ => none

def expandBucketWebsiteConfigurationIndexDocument (l : List TfValue) : Option IndexDocument :=
  match l with
  | [] => none
  | .null :: _ => none
  | .map tfMap :: _ => some { Suffix := nonEmptyStringAt tfMap "suffix" }
  | _ :: _ => none

def expandBucketWebsiteConfigurationRedirectAllRequestsTo (l : List TfValue) :
    Option RedirectAllRequestsTo :=
  match l with
  | [] => none
  | .null :: _ => none
  | .map tfMap :: _ =>
    some { HostName := nonEmptyStringAt tfMap "host_name"
           Protocol := (nonEmptyStringAt tfMap "protocol").getD "" }
  | _ :: _ => none

def expandBucketWebsiteConfigurationRoutingRuleCondition (l : List TfValue) : Option Condition :=
  match l with
  | [] => none
  | .null :: _ => none
  | .map tfMap :: _ =>
    some { HttpErrorCodeReturnedEquals := nonEmptyStringAt tfMap "http_error_code_returned_equals"
           KeyPrefixEquals := nonEmptyStringAt tfMap "key_prefix_equals" }
  | _ :: _ => none

def expandBucketWebsiteConfigurationRoutingRuleRedirect (l : List TfValue) : Option Redirect :=
  match l with
  | [] => none
  | .null :: _ => none
  | .map tfMap :: _ =>
    some { HostName := nonEmptyStringAt tfMap "host_name"
           HttpRedirectCode := nonEmptyStringAt tfMap "http_redirect_code"
           Protocol := (nonEmptyStringAt tfMap "protocol").getD ""
           ReplaceKeyPrefixWith := nonEmptyStringAt tfMap "replace_key_prefix_with"
           ReplaceKeyWith := nonEmptyStringAt tfMap "replace_key_with" }
  | _ :: _ => none

/-- The body of the loop of `expandBucketWebsiteConfigurationRoutingRules` for a
list element that is a map. -/
def expandRoutingRuleElement (tfMap : TfMap) : RoutingRule :=
  let condition : Option Condition :=
    match TfMap.get? tfMap "condition" with
    | some (.list v) =>
      if firstNotNil v then expandBucketWebsiteConfigurationRoutingRuleCondition v else none
    | _ => none
  let redirect : Option Redirect :=
    match TfMap.get? tfMap "redirect" with
    | some (.list v) =>
      if firstNotNil v then expandBucketWebsiteConfigurationRoutingRuleRedirect v else none
    | _ => none
  { Condition := condition, Redirect := redirect }

def expandBucketWebsiteConfigurationRoutingRules : List TfValue → List RoutingRule
  | [] => []
  | .map tfMap :: rest =>
    expandRoutingRuleElement tfMap :: expandBucketWebsiteConfigurationRoutingRules rest
  | _ :: rest => expandBucketWebsiteConfigurationRoutingRules rest

/-! ## S3 flatteners (API → state) -/

/-- The guarded write `if p != nil { m[k] = aws.ToString(p) }`. -/
def setIfPresent (m : TfMap) (k : String) (p : Option String) : TfMap :=
  match p with
  | some v => TfMap.set m k (.str v)
  | none => m

def flattenBucketWebsiteConfigurationIndexDocument (i : Option IndexDocument) : List TfValue :=
  match i with
  | none => []
  | some i => [.map (setIfPresent [] "suffix" i.Suffix)]

def flattenBucketWebsiteConfigurationErrorDocument (e : Option ErrorDocument) : List TfValue :=
  match e with
  | none => []
  | some e => [.map (setIfPresent [] "key" e.Key)]

def flattenBucketWebsiteConfigurationRedirectAllRequestsTo (r : Option RedirectAllRequestsTo) :
    List TfValue :=
  match r with
  | none => []
  | some r =>
    let m : TfMap := TfMap.set [] "protocol" (.str r.Protocol)
    [.map (setIfPresent m "host_name" r.HostName)]

def flattenBucketWebsiteConfigurationRoutingRuleCondition (c : Option Condition) : List TfValue :=
  match c with
  | none => []
  | some c =>
    let m : TfMap := setIfPresent [] "key_prefix_equals" c.KeyPrefixEquals
    [.map (setIfPresent m "http_error_code_returned_equals" c.HttpErrorCodeReturnedEquals)]

def flattenBucketWebsiteConfigurationRoutingRuleRedirect (r : Option Redirect) : List TfValue :=
  match r with
  | none => []
  | some r =>
    let m : TfMap := TfMap.set [] "protocol" (.str r.Protocol)
    let m := setIfPresent m "host_name" r.HostName
    let m := setIfPresent m "http_redirect_code" r.HttpRedirectCode
    let m := setIfPresent m "replace_key_with" r.ReplaceKeyWith
    [.map (setIfPresent m "replace_key_prefix_with" r.ReplaceKeyPrefixWith)]

/-- The body of the loop of `flattenBucketWebsiteConfigurationRoutingRules`. -/
def flattenRoutingRuleElement (rule : RoutingRule) : TfValue :=
  let m : TfMap := []
  let m := match rule.Condition with
    | some c => TfMap.set m "condition"
        (.list (flattenBucketWebsiteConfigurationRoutingRuleCondition (some c)))
    | none => m
  let m := match rule.Redirect with
    | some r => TfMap.set m "redirect"
        (.list (flattenBucketWebsiteConfigurationRoutingRuleRedirect (some r)))
    | none => m
  .map m

def flattenBucketWebsiteConfigurationRoutingRules : List RoutingRule → List TfValue
  | [] => []
  | rule :: rest => flattenRoutingRuleElement rule :: flattenBucketWebsiteConfigurationRoutingRules rest


/-- The function `removeNilOrEmptyProtocol`: drops keys bound to nil and an empty
`"Protocol"` string, recursively through nested objects. -/
def removeNilOrEmptyProtocol : TfMap → TfMap
  | [] => []
  | (k, v) :: rest =>
    match v with
    | .null => removeNilOrEmptyProtocol rest
    | .map m => (k, .map (removeNilOrEmptyProtocol m)) :: removeNilOrEmptyProtocol rest
    | .str s =>
      if k = "Protocol" ∧ s = "" then removeNilOrEmptyProtocol rest
      else (k, .str s) :: removeNilOrEmptyProtocol rest
    | other => (k, other) :: removeNilOrEmptyProtocol rest

/-! ## Go values: type assertions, errors, diagnostics -/

/-- The type assertion `v.(string)`; the schema guarantees the type, the model
yields `""` where Go would panic. -/
def TfValue.asString : TfValue → String
  | .str s => s
  | _ => ""

/-- The type assertion `v.([]interface{})`; `[]` where Go would panic. -/
def TfValue.asList : TfValue → List TfValue
  | .list l => l
  | _ => []

/-- The type assertion `v.(map[string]interface{})`; the empty map where Go would panic. -/
def TfValue.asMap : TfValue → TfMap
  | .map m => m
  | _ => []

/-- The zero-value test of `d.GetOk`. -/
def TfValue.isZero : TfValue → Bool
  | .null => true
  | .str s => s == ""
  | .list l => l.isEmpty
  | .map m => m.isEmpty

/-- A Go `*string` stored with `d.Set`: nil becomes the null value. -/
def TfValue.ofStringPtr : Option String → TfValue
  | some s => .str s
  | none => .null

/-- A Go `error`. `awserr` is an AWS API error with its error code; `notFound`
is `&resource.NotFoundError{LastError: err}` (`retry.NotFoundError`);
`emptyResult` is `tfresource.NewEmptyResultError(input)`; `wrapped` is
`fmt.Errorf("message: %w", err)`. -/
inductive GoError where
  | awserr (code : String) (message : String) : GoError
  | notFound (lastError : GoError) : GoError
  | emptyResult : GoError
  | other (message : String) : GoError
  | wrapped (message : String) (cause : GoError) : GoError
  deriving DecidableEq

/-- The method `err.Error()`. -/
def GoError.Error : GoError → String
  | .awserr code message => code ++ ": " ++ message
  | .notFound lastError => lastError.Error
  | .emptyResult => "empty result"
  | .other message => message
  | .wrapped message cause => message ++ ": " ++ cause.Error

/-- The error, or an error it wraps with `%w`, is an AWS error whose code is one
of `codes`. -/
def GoError.hasCode : GoError → List String → Bool
  | .awserr code _, codes => codes.contains code
  | .wrapped _ cause, codes => cause.hasCode codes
  | _, _ => false

/-- The function `tfawserr.ErrCodeEquals(err, codes...)`: `err` is an AWS error
whose code is one of `codes`. -/
def ErrCodeEquals (err : Option GoError) (codes : List String) : Bool :=
  match err with
  | some e => e.hasCode codes
  | none => false

inductive Severity where
  | Error : Severity
  | Warning : Severity
  deriving DecidableEq

structure Diagnostic where
  Severity : Severity
  Summary : String
  deriving DecidableEq

abbrev Diagnostics := List Diagnostic

/-- The method `diags.HasError()`. -/
def Diagnostics.HasError (diags : Diagnostics) : Bool :=
  diags.any fun x => x.Severity == Severity.Error

/-- The function `sdkdiag.AppendErrorf(diags, format, a...)` with the message already formatted. -/
def AppendErrorf (diags : Diagnostics) (message : String) : Diagnostics :=
  diags ++ [{ Severity := Severity.Error, Summary := message }]

/-- The function `diag.Errorf(format, a...)` with the message already formatted. -/
def Errorf (message : String) : Diagnostics :=
  [{ Severity := Severity.Error, Summary := message }]

/-- The function `diag.FromErr(err)`. -/
def FromErr (err : GoError) : Diagnostics :=
  [{ Severity := Severity.Error, Summary := err.Error }]

/-! ## `schema.ResourceData`

The Terraform SDK object handed to every handler. What the SDK answers to
`Get`, `HasChange`, ... is given by the fields; the handlers only write the ID
and the attributes. -/

structure ResourceData where
  /-- The value of `d.Id()`. -/
  Id : String
  /-- The value of `d.IsNewResource()`. -/
  IsNewResource : Bool
  /-- The value of `d.Get(key)`: the planned value, the zero value when unset. -/
  Get : String → TfValue
  /-- Whether the SDK holds a value for `key` that is not computed. -/
  isSet : String → Bool
  /-- The value of `d.HasChange(key)`. -/
  HasChange : String → Bool
  /-- The value of `d.HasChangesExcept(keys...)`. -/
  HasChangesExcept : List String → Bool
  /-- The value of `d.GetChange(key)`: old and new value. -/
  GetChange : String → TfValue × TfValue
  /-- The error `d.Set(key, value)` returns, if any (a value not fitting the schema). -/
  setError : String → TfValue → Option GoError
  /-- The attributes written with `d.Set` so far. -/
  written : TfMap

/-- The method `d.GetOk(key)`: the value and whether it is set to a non-zero value. -/
def ResourceData.GetOk (d : ResourceData) (key : String) : TfValue × Bool :=
  (d.Get key, d.isSet key && !(d.Get key).isZero)

/-- The method `d.SetId(id)`. -/
def ResourceData.SetId (d : ResourceData) (id : String) : ResourceData :=
  { d with Id := id }

/-- The method `d.Set(key, value)`: the resource data after the call and the
error the call returns. -/
def ResourceData.Set (d : ResourceData) (key : String) (value : TfValue) :
    ResourceData × Option GoError :=
  match d.setError key value with
  | some err => (d, some err)
  | none => ({ d with written := TfMap.set d.written key value }, none)

/-- A call `d.Set(key, value)` whose error is not looked at. -/
def ResourceData.SetUnchecked (d : ResourceData) (key : String) (value : TfValue) : ResourceData :=
  (d.Set key value).1


/-! ## API Gateway API types (`github.com/aws/aws-sdk-go/service/apigateway`) -/

structure EndpointConfiguration where
  Types : List String
  VpcEndpointIds : List String
  deriving DecidableEq

structure MutualTlsAuthenticationInput where
  TruststoreUri : Option String
  TruststoreVersion : Option String
  deriving DecidableEq

structure MutualTlsAuthentication where
  TruststoreUri : Option String
  TruststoreVersion : Option String
  TruststoreWarnings : List String
  deriving DecidableEq

/-- The type `apigateway.DomainName`, the output of `CreateDomainName` and
`GetDomainName`. `CertificateUploadDate` is a time in seconds. -/
structure DomainName where
  CertificateArn : Option String
  CertificateName : Option String
  CertificateUploadDate : Option Nat
  DistributionDomainName : Option String
  DomainName : Option String
  EndpointConfiguration : Option EndpointConfiguration
  MutualTlsAuthentication : Option MutualTlsAuthentication
  OwnershipVerificationCertificateArn : Option String
  RegionalCertificateArn : Option String
  RegionalCertificateName : Option String
  RegionalDomainName : Option String
  RegionalHostedZoneId : Option String
  SecurityPolicy : Option String
  Tags : List (String × String)
  deriving DecidableEq

structure CreateDomainNameInput where
  CertificateArn : Option String
  CertificateBody : Option String
  CertificateChain : Option String
  CertificateName : Option String
  CertificatePrivateKey : Option String
  DomainName : Option String
  EndpointConfiguration : Option EndpointConfiguration
  MutualTlsAuthentication : Option MutualTlsAuthenticationInput
  OwnershipVerificationCertificateArn : Option String
  RegionalCertificateArn : Option String
  RegionalCertificateName : Option String
  SecurityPolicy : Option String
  Tags : List (String × String)
  deriving DecidableEq

structure PatchOperation where
  Op : Option String
  Path : Option String
  Value : Option String
  deriving DecidableEq

structure UpdateDomainNameInput where
  DomainName : Option String
  PatchOperations : List PatchOperation
  deriving DecidableEq

/-- The constant `apigateway.OpReplace`. -/
def OpReplace : String := "replace"

/-- The constant `apigateway.ErrCodeNotFoundException`. -/
def ErrCodeNotFoundException : String := "NotFoundException"

/-! ## S3 request and response types -/

structure WebsiteConfiguration where
  ErrorDocument : Option ErrorDocument
  IndexDocument : Option IndexDocument
  RedirectAllRequestsTo : Option RedirectAllRequestsTo
  RoutingRules : List RoutingRule
  deriving DecidableEq

structure PutBucketWebsiteInput where
  Bucket : Option String
  ExpectedBucketOwner : Option String
  WebsiteConfiguration : WebsiteConfiguration
  deriving DecidableEq

/-- The type `s3.PutBucketWebsiteOutput`: it carries the result metadata of the
request and nothing else. -/
structure PutBucketWebsiteOutput where
  ResultMetadata : List (String × String)
  deriving DecidableEq

structure GetBucketWebsiteInput where
  Bucket : Option String
  ExpectedBucketOwner : Option String
  deriving DecidableEq

/-- The type `s3.GetBucketWebsiteOutput`; `RoutingRules` is `none` for a nil slice. -/
structure GetBucketWebsiteOutput where
  ErrorDocument : Option ErrorDocument
  IndexDocument : Option IndexDocument
  RedirectAllRequestsTo : Option RedirectAllRequestsTo
  RoutingRules : Option (List RoutingRule)
  deriving DecidableEq

structure GetBucketLocationInput where
  Bucket : Option String
  ExpectedBucketOwner : Option String
  deriving DecidableEq

structure GetBucketLocationOutput where
  LocationConstraint : String
  deriving DecidableEq

structure DeleteBucketWebsiteInput where
  Bucket : Option String
  ExpectedBucketOwner : Option String
  deriving DecidableEq

/-! ## The AWS services

A request sent to AWS. The services are deterministic functions of the
request and of the list of requests issued before it, which is the only state
the handlers share with them; every handler returns that list extended by the
requests it issued. -/

inductive ApiCall where
  | CreateDomainName (input : CreateDomainNameInput) : ApiCall
  | GetDomainName (domainName : String) : ApiCall
  | UpdateDomainName (input : UpdateDomainNameInput) : ApiCall
  | DeleteDomainName (domainName : String) : ApiCall
  | UpdateTags (identifier : String) (oldTags : TfValue) (newTags : TfValue) : ApiCall
  | PutBucketWebsite (input : PutBucketWebsiteInput) : ApiCall
  | GetBucketWebsite (input : GetBucketWebsiteInput) : ApiCall
  | GetBucketLocation (input : GetBucketLocationInput) : ApiCall
  | DeleteBucketWebsite (input : DeleteBucketWebsiteInput) : ApiCall

/-- The client `*apigateway.APIGateway`, together with `UpdateTags` of the
package's generated `tags_gen.go`, which sends the tagging requests. -/
structure APIGateway where
  CreateDomainNameWithContext : List ApiCall → CreateDomainNameInput → Except GoError DomainName
  GetDomainNameWithContext : List ApiCall → String → Except GoError (Option DomainName)
  UpdateDomainNameWithContext : List ApiCall → UpdateDomainNameInput → Option GoError
  DeleteDomainNameWithContext : List ApiCall → String → Option GoError
  UpdateTags : List ApiCall → String → TfValue → TfValue → Option GoError

/-- The client `*s3.Client`. -/
structure S3Client where
  PutBucketWebsite : List ApiCall → PutBucketWebsiteInput → Except GoError PutBucketWebsiteOutput
  GetBucketWebsite : List ApiCall → GetBucketWebsiteInput →
    Except GoError (Option GetBucketWebsiteOutput)
  GetBucketLocation : List ApiCall → GetBucketLocationInput →
    Except GoError (Option GetBucketLocationOutput)
  DeleteBucketWebsite : List ApiCall → DeleteBucketWebsiteInput → Option GoError

/-- A retried request: the closure handed to `tfresource.RetryWhenAWSErrCodeEquals`,
from the requests issued so far to its result and the requests issued after it. -/
abbrev Attempt (α : Type) := List ApiCall → Except GoError α × List ApiCall

/-- A polled lookup: the closure handed to `tfresource.RetryUntilNotFound`, from
the requests issued so far to the finder's result and the requests issued
after it. -/
abbrev Lookup (α : Type) := List ApiCall → (Option α × Option GoError) × List ApiCall

/-- The provider client `*conns.AWSClient` (the handlers' `meta`) and the
functions of the provider that the handlers call and that live outside the two
files: they are parameters of the development. -/
structure AWSClient where
  Partition : String
  Region : String
  CloudFrontDistributionHostedZoneID : String
  APIGatewayConn : APIGateway
  S3Client : S3Client
  /-- The function `tfresource.NotFound`. -/
  NotFound : GoError → Bool
  /-- The function `tfresource.RetryWhenAWSErrCodeEquals` at `s3BucketPropagationTimeout`. -/
  RetryWhenAWSErrCodeEquals : Attempt PutBucketWebsiteOutput → List String →
    Attempt PutBucketWebsiteOutput
  /-- The function `tfresource.RetryUntilNotFound` at `s3BucketPropagationTimeout`:
  the error it returns and the requests issued after it. -/
  RetryUntilNotFound : Lookup GetBucketWebsiteOutput → List ApiCall →
    Option GoError × List ApiCall
  /-- The call `defaultTagsConfig.MergeTags(tftags.New(ctx, v))`. -/
  MergeTags : TfValue → List (String × String)
  /-- The method `KeyValueTags.IgnoreAWS`. -/
  IgnoreAWS : List (String × String) → List (String × String)
  /-- The method `KeyValueTags.IgnoreConfig(ignoreTagsConfig)`. -/
  IgnoreConfig : List (String × String) → List (String × String)
  /-- The method `KeyValueTags.RemoveDefaultConfig(defaultTagsConfig)`. -/
  RemoveDefaultConfig : List (String × String) → List (String × String)
  /-- The method `KeyValueTags.Map` as a state value. -/
  TagsMap : List (String × String) → TfValue
  /-- The method `time.Time.Format(time.RFC3339)`. -/
  FormatRFC3339 : Nat → String
  /-- The function `expandEndpointConfiguration` of the apigateway package. -/
  expandEndpointConfiguration : List TfValue → Option EndpointConfiguration
  /-- The function `flattenEndpointConfiguration` of the apigateway package. -/
  flattenEndpointConfiguration : Option EndpointConfiguration → TfValue
  /-- The function `CreateResourceID` of the s3 package. -/
  CreateResourceID : String → String → String
  /-- The function `ParseResourceID` of the s3 package. -/
  ParseResourceID : String → Except GoError (String × String)
  /-- The call `json.Unmarshal([]byte(s), &rules)` into `[]types.RoutingRule`. -/
  UnmarshalRoutingRules : String → Except GoError (List RoutingRule)
  /-- The call `json.Marshal` on the cleaned routing rules. -/
  MarshalJSON : List TfValue → Except GoError String
  /-- The function `WebsiteEndpoint`: domain and endpoint of the bucket website. -/
  WebsiteEndpoint : String → String → String × String

/-- The call `tfresource.NotFound(err)` on a possibly nil error. -/
def AWSClient.IsNotFound (client : AWSClient) (err : Option GoError) : Bool :=
  match err with
  | some e => client.NotFound e
  | none => false

/-- What a handler leaves behind: the resource data, the diagnostics it
returns, and the requests issued so far. -/
structure Outcome where
  d : ResourceData
  diags : Diagnostics
  calls : List ApiCall


/-! ## `internal/service/apigateway/domain_name.go` -/

def expandMutualTLSAuthentication (tfList : List TfValue) : Option MutualTlsAuthenticationInput :=
  match tfList with
  | [] => none
  | .null :: _ => none
  | first :: _ =>
    let tfMap := first.asMap
    some { TruststoreUri := nonEmptyStringAt tfMap "truststore_uri"
           TruststoreVersion := nonEmptyStringAt tfMap "truststore_version" }

def flattenMutualTLSAuthentication (apiObject : Option MutualTlsAuthentication) : List TfValue :=
  match apiObject with
  | none => []
  | some apiObject =>
    let tfMap : TfMap := setIfPresent [] "truststore_uri" apiObject.TruststoreUri
    [.map (setIfPresent tfMap "truststore_version" apiObject.TruststoreVersion)]

def FindDomainName (conn : APIGateway) (calls : List ApiCall) (domainName : String) :
    Option DomainName × Option GoError :=
  match conn.GetDomainNameWithContext calls domainName with
  | .error err =>
    if ErrCodeEquals (some err) [ErrCodeNotFoundException] then (none, some (.notFound err))
    else (none, some err)
  | .ok none => (none, some .emptyResult)
  | .ok (some output) => (some output, none)

/-- The string `arn.ARN{Partition, Service: "apigateway", Region, Resource}.String()`. -/
def domainNameARN (client : AWSClient) (id : String) : String :=
  "arn:" ++ client.Partition ++ ":apigateway:" ++ client.Region ++ "::" ++ "/domainnames/" ++ id

/-- The part of `resourceDomainNameRead` after the finder succeeded: the
attributes written from the domain name. -/
def setDomainNameAttributes (client : AWSClient) (d : ResourceData) (domainName : DomainName)
    (calls : List ApiCall) : Outcome :=
  let diags : Diagnostics := []
  let d := d.SetUnchecked "arn" (.str (domainNameARN client d.Id))
  let d := d.SetUnchecked "certificate_arn" (.ofStringPtr domainName.CertificateArn)
  let d := d.SetUnchecked "certificate_name" (.ofStringPtr domainName.CertificateName)
  let d := match domainName.CertificateUploadDate with
    | some t => d.SetUnchecked "certificate_upload_date" (.str (client.FormatRFC3339 t))
    | none => d.SetUnchecked "certificate_upload_date" .null
  let d := d.SetUnchecked "cloudfront_domain_name" (.ofStringPtr domainName.DistributionDomainName)
  let d := d.SetUnchecked "cloudfront_zone_id" (.str client.CloudFrontDistributionHostedZoneID)
  let d := d.SetUnchecked "domain_name" (.ofStringPtr domainName.DomainName)
  let set := d.Set "endpoint_configuration"
    (client.flattenEndpointConfiguration domainName.EndpointConfiguration)
  match set.2 with
  | some err =>
    ⟨set.1, AppendErrorf diags ("setting endpoint_configuration: " ++ err.Error), calls⟩
  | none =>
  let set := set.1.Set "mutual_tls_authentication"
    (.list (flattenMutualTLSAuthentication domainName.MutualTlsAuthentication))
  match set.2 with
  | some err =>
    ⟨set.1, AppendErrorf diags ("setting mutual_tls_authentication: " ++ err.Error), calls⟩
  | none =>
  let d := set.1.SetUnchecked "ownership_verification_certificate_arn"
    (.ofStringPtr domainName.OwnershipVerificationCertificateArn)
  let d := d.SetUnchecked "regional_certificate_arn" (.ofStringPtr domainName.RegionalCertificateArn)
  let d := d.SetUnchecked "regional_certificate_name"
    (.ofStringPtr domainName.RegionalCertificateName)
  let d := d.SetUnchecked "regional_domain_name" (.ofStringPtr domainName.RegionalDomainName)
  let d := d.SetUnchecked "regional_zone_id" (.ofStringPtr domainName.RegionalHostedZoneId)
  let d := d.SetUnchecked "security_policy" (.ofStringPtr domainName.SecurityPolicy)
  let tags := client.IgnoreConfig (client.IgnoreAWS domainName.Tags)
  let set := d.Set "tags" (client.TagsMap (client.RemoveDefaultConfig tags))
  match set.2 with
  | some err => ⟨set.1, AppendErrorf diags ("setting tags: " ++ err.Error), calls⟩
  | none =>
  let set := set.1.Set "tags_all" (client.TagsMap tags)
  match set.2 with
  | some err => ⟨set.1, AppendErrorf diags ("setting tags_all: " ++ err.Error), calls⟩
  | none => ⟨set.1, diags, calls⟩

def resourceDomainNameRead (client : AWSClient) (d : ResourceData) (calls : List ApiCall) :
    Outcome :=
  let diags : Diagnostics := []
  let conn := client.APIGatewayConn
  let found := FindDomainName conn calls d.Id
  let calls := calls ++ [ApiCall.GetDomainName d.Id]
  if !d.IsNewResource && client.IsNotFound found.2 then
    ⟨d.SetId "", diags, calls⟩
  else
    match found with
    | (_, some err) =>
      ⟨d, AppendErrorf diags
        ("reading API Gateway Domain Name (" ++ d.Id ++ "): " ++ err.Error), calls⟩
    | (some domainName, none) => setDomainNameAttributes client d domainName calls
    | (none, none) =>
      -- not reached: `FindDomainName` never returns a nil domain name with a nil error
      ⟨d, AppendErrorf diags "invalid memory address or nil pointer dereference", calls⟩

/-- The request built by `resourceDomainNameCreate`. -/
def createDomainNameInput (client : AWSClient) (d : ResourceData) : CreateDomainNameInput :=
  let tags := client.MergeTags (d.Get "tags")
  let domainName := (d.Get "domain_name").asString
  let optional (key : String) : Option String :=
    if (d.GetOk key).2 then some (d.GetOk key).1.asString else none
  { DomainName := some domainName
    MutualTlsAuthentication :=
      expandMutualTLSAuthentication (d.Get "mutual_tls_authentication").asList
    CertificateArn := optional "certificate_arn"
    CertificateBody := optional "certificate_body"
    CertificateChain := optional "certificate_chain"
    CertificateName := optional "certificate_name"
    CertificatePrivateKey := optional "certificate_private_key"
    EndpointConfiguration :=
      if (d.GetOk "endpoint_configuration").2 then
        client.expandEndpointConfiguration (d.GetOk "endpoint_configuration").1.asList
      else none
    OwnershipVerificationCertificateArn := optional "ownership_verification_certificate_arn"
    RegionalCertificateArn := optional "regional_certificate_arn"
    RegionalCertificateName := optional "regional_certificate_name"
    SecurityPolicy := optional "security_policy"
    Tags := if tags.length > 0 then client.IgnoreAWS tags else [] }

def resourceDomainNameCreate (client : AWSClient) (d : ResourceData) (calls : List ApiCall) :
    Outcome :=
  let diags : Diagnostics := []
  let conn := client.APIGatewayConn
  let domainName := (d.Get "domain_name").asString
  let input := createDomainNameInput client d
  match conn.CreateDomainNameWithContext calls input with
  | .error err =>
    ⟨d, AppendErrorf diags
      ("creating API Gateway Domain Name (" ++ domainName ++ "): " ++ err.Error),
      calls ++ [ApiCall.CreateDomainName input]⟩
  | .ok output =>
    let d := d.SetId (output.DomainName.getD "")
    let read := resourceDomainNameRead client d (calls ++ [ApiCall.CreateDomainName input])
    { read with diags := diags ++ read.diags }

/-- A patch operation `{Op: "replace", Path: path, Value: value}`. -/
def replaceOperation (path : String) (value : String) : PatchOperation :=
  { Op := some OpReplace, Path := some path, Value := some value }

/-- The `operations` slice built by `resourceDomainNameUpdate`. -/
def domainNamePatchOperations (d : ResourceData) : List PatchOperation :=
  let operations : List PatchOperation := []
  let operations :=
    if d.HasChange "certificate_arn" then
      operations ++ [replaceOperation "/certificateArn" (d.Get "certificate_arn").asString]
    else operations
  let operations :=
    if d.HasChange "certificate_name" then
      operations ++ [replaceOperation "/certificateName" (d.Get "certificate_name").asString]
    else operations
  let operations :=
    if d.HasChange "endpoint_configuration.0.types" then
      -- The domain name must have an endpoint type.
      -- If attempting to remove the configuration, do nothing.
      if (d.GetOk "endpoint_configuration").2
          && (d.GetOk "endpoint_configuration").1.asList.length > 0 then
        let m := ((d.GetOk "endpoint_configuration").1.asList.headD .null).asMap
        operations ++ [replaceOperation "/endpointConfiguration/types/0"
          ((((TfMap.get? m "types").getD .null).asList.headD .null).asString)]
      else operations
    else operations
  let operations :=
    if d.HasChange "mutual_tls_authentication" then
      let mutTLSAuth := (d.Get "mutual_tls_authentication").asList
      if !firstNotNil mutTLSAuth then
        -- To disable mutual TLS for a custom domain name, remove the truststore.
        operations ++ [replaceOperation "/mutualTlsAuthentication/truststoreUri" ""]
      else
        operations ++ [replaceOperation "/mutualTlsAuthentication/truststoreVersion"
          (((TfMap.get? (mutTLSAuth.headD .null).asMap "truststore_version").getD .null).asString)]
    else operations
  let operations :=
    if d.HasChange "regional_certificate_arn" then
      operations ++ [replaceOperation "/regionalCertificateArn"
        (d.Get "regional_certificate_arn").asString]
    else operations
  let operations :=
    if d.HasChange "regional_certificate_name" then
      operations ++ [replaceOperation "/regionalCertificateName"
        (d.Get "regional_certificate_name").asString]
    else operations
  let operations :=
    if d.HasChange "security_policy" then
      operations ++ [replaceOperation "/securityPolicy" (d.Get "security_policy").asString]
    else operations
  operations

def resourceDomainNameUpdate (client : AWSClient) (d : ResourceData) (calls : List ApiCall) :
    Outcome :=
  let diags : Diagnostics := []
  let conn := client.APIGatewayConn
  let updateInput : UpdateDomainNameInput :=
    { DomainName := some d.Id, PatchOperations := domainNamePatchOperations d }
  let updated : Option GoError × List ApiCall :=
    if d.HasChangesExcept ["tags", "tags_all"] then
      (conn.UpdateDomainNameWithContext calls updateInput,
        calls ++ [ApiCall.UpdateDomainName updateInput])
    else (none, calls)
  match updated with
  | (some err, calls) =>
    ⟨d, AppendErrorf diags
      ("updating API Gateway Domain Name (" ++ d.Id ++ "): " ++ err.Error), calls⟩
  | (none, calls) =>
    let arn := (d.Get "arn").asString
    let tagged : Option GoError × List ApiCall :=
      if d.HasChange "tags_all" then
        (conn.UpdateTags calls arn (d.GetChange "tags_all").1 (d.GetChange "tags_all").2,
          calls ++ [ApiCall.UpdateTags arn (d.GetChange "tags_all").1 (d.GetChange "tags_all").2])
      else (none, calls)
    match tagged with
    | (some err, calls) =>
      ⟨d, AppendErrorf diags
        ("updating API Gateway Domain Name (" ++ d.Id ++ ") tags: " ++ err.Error), calls⟩
    | (none, calls) =>
      let read := resourceDomainNameRead client d calls
      { read with diags := diags ++ read.diags }


/-! ## `internal/service/s3/bucket_website_configuration.go` -/

/-- Modelled from the spec: the constant `errCodeNoSuchBucket` of the s3 package,
declared outside the given sources. -/
def errCodeNoSuchBucket : String := "NoSuchBucket"

/-- Modelled from the spec: the constant `errCodeNoSuchWebsiteConfiguration` of the
s3 package, declared outside the given sources. -/
def errCodeNoSuchWebsiteConfiguration : String := "NoSuchWebsiteConfiguration"

def findBucketWebsite (conn : S3Client) (calls : List ApiCall) (bucket : String)
    (expectedBucketOwner : String) : Option GetBucketWebsiteOutput × Option GoError :=
  let input : GetBucketWebsiteInput :=
    { Bucket := some bucket
      ExpectedBucketOwner := if expectedBucketOwner ≠ "" then some expectedBucketOwner else none }
  match conn.GetBucketWebsite calls input with
  | .error err =>
    if ErrCodeEquals (some err) [errCodeNoSuchBucket, errCodeNoSuchWebsiteConfiguration] then
      (none, some (.notFound err))
    else (none, some err)
  | .ok none => (none, some .emptyResult)
  | .ok (some output) => (some output, none)

def findBucketLocation (conn : S3Client) (calls : List ApiCall) (bucket : String)
    (expectedBucketOwner : String) : Option GetBucketLocationOutput × Option GoError :=
  let input : GetBucketLocationInput :=
    { Bucket := some bucket
      ExpectedBucketOwner := if expectedBucketOwner ≠ "" then some expectedBucketOwner else none }
  match conn.GetBucketLocation calls input with
  | .error err =>
    if ErrCodeEquals (some err) [errCodeNoSuchBucket] then (none, some (.notFound err))
    else (none, some err)
  | .ok none => (none, some .emptyResult)
  | .ok (some output) => (some output, none)

/-- The JSON object `json.Marshal` makes of a `types.Condition`. -/
def conditionJSON (c : Condition) : TfValue :=
  .map [("HttpErrorCodeReturnedEquals", .ofStringPtr c.HttpErrorCodeReturnedEquals),
        ("KeyPrefixEquals", .ofStringPtr c.KeyPrefixEquals)]

/-- The JSON object `json.Marshal` makes of a `types.Redirect`. -/
def redirectJSON (r : Redirect) : TfValue :=
  .map [("HostName", .ofStringPtr r.HostName),
        ("HttpRedirectCode", .ofStringPtr r.HttpRedirectCode),
        ("Protocol", .str r.Protocol),
        ("ReplaceKeyPrefixWith", .ofStringPtr r.ReplaceKeyPrefixWith),
        ("ReplaceKeyWith", .ofStringPtr r.ReplaceKeyWith)]

/-- The JSON object `json.Marshal` makes of a `types.RoutingRule`, as
`json.Unmarshal` reads it back into a `map[string]interface{}`. -/
def routingRuleJSON (rule : RoutingRule) : TfMap :=
  [("Condition", match rule.Condition with | some c => conditionJSON c | none => .null),
   ("Redirect", match rule.Redirect with | some r => redirectJSON r | none => .null)]

def normalizeRoutingRulesV2 (client : AWSClient) (w : List RoutingRule) : Except GoError String :=
  let rules : List TfMap := w.map routingRuleJSON
  let cleanRules : List TfValue := rules.map fun rule => .map (removeNilOrEmptyProtocol rule)
  client.MarshalJSON cleanRules

/-- The end of `resourceBucketWebsiteConfigurationRead`: the bucket location is
looked up and the website domain and endpoint are written. -/
def setBucketWebsiteEndpoint (client : AWSClient) (d : ResourceData) (bucket : String)
    (expectedBucketOwner : String) (calls : List ApiCall) : Outcome :=
  let conn := client.S3Client
  let location := findBucketLocation conn calls bucket expectedBucketOwner
  let calls := calls ++ [ApiCall.GetBucketLocation
    { Bucket := some bucket
      ExpectedBucketOwner := if expectedBucketOwner ≠ "" then some expectedBucketOwner else none }]
  match location with
  | (_, some err) =>
    ⟨d, Errorf ("reading S3 Bucket (" ++ d.Id ++ ") Location: " ++ err.Error), calls⟩
  | (some output, none) =>
    let website := client.WebsiteEndpoint bucket output.LocationConstraint
    let d := d.SetUnchecked "website_domain" (.str website.1)
    let d := d.SetUnchecked "website_endpoint" (.str website.2)
    ⟨d, [], calls⟩
  | (none, none) =>
    -- not reached: `findBucketLocation` never returns a nil output with a nil error
    ⟨d, Errorf "invalid memory address or nil pointer dereference", calls⟩

/-- The part of `resourceBucketWebsiteConfigurationRead` after the finder
succeeded: the attributes written from the website configuration. -/
def setBucketWebsiteAttributes (client : AWSClient) (d : ResourceData) (bucket : String)
    (expectedBucketOwner : String) (output : GetBucketWebsiteOutput) (calls : List ApiCall) :
    Outcome :=
  let d := d.SetUnchecked "bucket" (.str bucket)
  let set := d.Set "error_document"
    (.list (flattenBucketWebsiteConfigurationErrorDocument output.ErrorDocument))
  match set.2 with
  | some err => ⟨set.1, Errorf ("setting error_document: " ++ err.Error), calls⟩
  | none =>
  let d := set.1.SetUnchecked "expected_bucket_owner" (.str expectedBucketOwner)
  let set := d.Set "index_document"
    (.list (flattenBucketWebsiteConfigurationIndexDocument output.IndexDocument))
  match set.2 with
  | some err => ⟨set.1, Errorf ("setting index_document: " ++ err.Error), calls⟩
  | none =>
  let set := set.1.Set "redirect_all_requests_to"
    (.list (flattenBucketWebsiteConfigurationRedirectAllRequestsTo output.RedirectAllRequestsTo))
  match set.2 with
  | some err => ⟨set.1, Errorf ("setting redirect_all_requests_to: " ++ err.Error), calls⟩
  | none =>
  let set := set.1.Set "routing_rule"
    (.list (flattenBucketWebsiteConfigurationRoutingRules (output.RoutingRules.getD [])))
  match set.2 with
  | some err => ⟨set.1, Errorf ("setting routing_rule: " ++ err.Error), calls⟩
  | none =>
  let d := set.1
  match output.RoutingRules with
  | some rules =>
    match normalizeRoutingRulesV2 client rules with
    | .error err => ⟨d, FromErr err, calls⟩
    | .ok rr =>
      setBucketWebsiteEndpoint client (d.SetUnchecked "routing_rules" (.str rr)) bucket
        expectedBucketOwner calls
  | none =>
    setBucketWebsiteEndpoint client (d.SetUnchecked "routing_rules" .null) bucket
      expectedBucketOwner calls

def resourceBucketWebsiteConfigurationRead (client : AWSClient) (d : ResourceData)
    (calls : List ApiCall) : Outcome :=
  let conn := client.S3Client
  match client.ParseResourceID d.Id with
  | .error err => ⟨d, FromErr err, calls⟩
  | .ok (bucket, expectedBucketOwner) =>
    let found := findBucketWebsite conn calls bucket expectedBucketOwner
    let calls := calls ++ [ApiCall.GetBucketWebsite
      { Bucket := some bucket
        ExpectedBucketOwner :=
          if expectedBucketOwner ≠ "" then some expectedBucketOwner else none }]
    if !d.IsNewResource && client.IsNotFound found.2 then
      ⟨d.SetId "", [], calls⟩
    else
      match found with
      | (_, some err) =>
        ⟨d, Errorf
          ("reading S3 Bucket Website Configuration (" ++ d.Id ++ "): " ++ err.Error), calls⟩
      | (some output, none) =>
        setBucketWebsiteAttributes client d bucket expectedBucketOwner output calls
      | (none, none) =>
        -- not reached: `findBucketWebsite` never returns a nil output with a nil error
        ⟨d, Errorf "invalid memory address or nil pointer dereference", calls⟩

/-- The guard `if v, ok := d.GetOk(key); ok && len(v) > 0 && v[0] != nil` of the
create and update handlers: the list under `key` when the guard holds. -/
def blockAt (d : ResourceData) (key : String) : Option (List TfValue) :=
  if (d.GetOk key).2 && firstNotNil (d.GetOk key).1.asList then some (d.GetOk key).1.asList
  else none

/-- The first three assignments to `websiteConfig`, the same in the create and
update handlers. -/
def websiteConfigDocuments (d : ResourceData) : WebsiteConfiguration :=
  { ErrorDocument :=
      match blockAt d "error_document" with
      | some v => expandBucketWebsiteConfigurationErrorDocument v
      | none => none
    IndexDocument :=
      match blockAt d "index_document" with
      | some v => expandBucketWebsiteConfigurationIndexDocument v
      | none => none
    RedirectAllRequestsTo :=
      match blockAt d "redirect_all_requests_to" with
      | some v => expandBucketWebsiteConfigurationRedirectAllRequestsTo v
      | none => none
    RoutingRules := [] }

/-- The `websiteConfig` built by `resourceBucketWebsiteConfigurationCreate`, or
the error of decoding `routing_rules`. -/
def createWebsiteConfiguration (client : AWSClient) (d : ResourceData) :
    Except GoError WebsiteConfiguration :=
  let websiteConfig := websiteConfigDocuments d
  let websiteConfig :=
    match blockAt d "routing_rule" with
    | some v =>
      { websiteConfig with RoutingRules := expandBucketWebsiteConfigurationRoutingRules v }
    | none => websiteConfig
  if (d.GetOk "routing_rules").2 then
    match client.UnmarshalRoutingRules (d.GetOk "routing_rules").1.asString with
    | .error err => .error err
    | .ok unmarshalledRules => .ok { websiteConfig with RoutingRules := unmarshalledRules }
  else .ok websiteConfig

/-- The request `s3.PutBucketWebsiteInput` of the create and update handlers. -/
def putBucketWebsiteInput (bucket : String) (expectedBucketOwner : String)
    (websiteConfig : WebsiteConfiguration) : PutBucketWebsiteInput :=
  { Bucket := some bucket
    ExpectedBucketOwner := if expectedBucketOwner ≠ "" then some expectedBucketOwner else none
    WebsiteConfiguration := websiteConfig }

/-- One attempt of `conn.PutBucketWebsite(ctx, input)`. -/
def putBucketWebsiteAttempt (conn : S3Client) (input : PutBucketWebsiteInput) :
    Attempt PutBucketWebsiteOutput :=
  fun calls => (conn.PutBucketWebsite calls input, calls ++ [ApiCall.PutBucketWebsite input])

def resourceBucketWebsiteConfigurationCreate (client : AWSClient) (d : ResourceData)
    (calls : List ApiCall) : Outcome :=
  let conn := client.S3Client
  match createWebsiteConfiguration client d with
  | .error err => ⟨d, FromErr err, calls⟩
  | .ok websiteConfig =>
    let bucket := (d.Get "bucket").asString
    let expectedBucketOwner := (d.Get "expected_bucket_owner").asString
    let input := putBucketWebsiteInput bucket expectedBucketOwner websiteConfig
    match client.RetryWhenAWSErrCodeEquals (putBucketWebsiteAttempt conn input)
        [errCodeNoSuchBucket] calls with
    | (.error err, calls) =>
      ⟨d, Errorf
        ("creating S3 Bucket (" ++ bucket ++ ") Website Configuration: " ++ err.Error), calls⟩
    | (.ok _, calls) =>
      let d := d.SetId (client.CreateResourceID bucket expectedBucketOwner)
      resourceBucketWebsiteConfigurationRead client d calls

/-- The `websiteConfig` built by `resourceBucketWebsiteConfigurationUpdate`, or
the error of decoding `routing_rules`. -/
def updateWebsiteConfiguration (client : AWSClient) (d : ResourceData) :
    Except GoError WebsiteConfiguration :=
  let websiteConfig := websiteConfigDocuments d
  if d.HasChange "routing_rule" || d.HasChange "routing_rules" then
    if d.HasChange "routing_rule" then
      .ok { websiteConfig with
            RoutingRules :=
              expandBucketWebsiteConfigurationRoutingRules (d.Get "routing_rule").asList }
    else
      match client.UnmarshalRoutingRules (d.Get "routing_rules").asString with
      | .error err => .error err
      | .ok unmarshalledRules => .ok { websiteConfig with RoutingRules := unmarshalledRules }
  else
    -- Still send the current RoutingRules configuration
    let websiteConfig :=
      match blockAt d "routing_rule" with
      | some v =>
        { websiteConfig with RoutingRules := expandBucketWebsiteConfigurationRoutingRules v }
      | none => websiteConfig
    if (d.GetOk "routing_rules").2 then
      match client.UnmarshalRoutingRules (d.GetOk "routing_rules").1.asString with
      | .error err => .error err
      | .ok unmarshalledRules => .ok { websiteConfig with RoutingRules := unmarshalledRules }
    else .ok websiteConfig

def resourceBucketWebsiteConfigurationUpdate (client : AWSClient) (d : ResourceData)
    (calls : List ApiCall) : Outcome :=
  let conn := client.S3Client
  match client.ParseResourceID d.Id with
  | .error err => ⟨d, FromErr err, calls⟩
  | .ok (bucket, expectedBucketOwner) =>
    match updateWebsiteConfiguration client d with
    | .error err => ⟨d, FromErr err, calls⟩
    | .ok websiteConfig =>
      let input := putBucketWebsiteInput bucket expectedBucketOwner websiteConfig
      match conn.PutBucketWebsite calls input with
      | .error err =>
        ⟨d, Errorf
          ("updating S3 Bucket Website Configuration (" ++ d.Id ++ "): " ++ err.Error),
          calls ++ [ApiCall.PutBucketWebsite input]⟩
      | .ok _ =>
        resourceBucketWebsiteConfigurationRead client d (calls ++ [ApiCall.PutBucketWebsite input])


/-! ## Predicates of the statements -/

/-- A present string field is non-empty. -/
def presentNonEmpty (p : Option String) : Prop := p ≠ some ""

def Condition.stringsNonEmpty (c : Condition) : Prop :=
  presentNonEmpty c.HttpErrorCodeReturnedEquals ∧ presentNonEmpty c.KeyPrefixEquals

def Redirect.stringsNonEmpty (r : Redirect) : Prop :=
  presentNonEmpty r.HostName ∧ presentNonEmpty r.HttpRedirectCode ∧
  presentNonEmpty r.ReplaceKeyPrefixWith ∧ presentNonEmpty r.ReplaceKeyWith

/-- Every present string field of the rule's condition and redirect is
non-empty; `Protocol` is not constrained. -/
def RoutingRule.stringsNonEmpty (rule : RoutingRule) : Prop :=
  (∀ c, rule.Condition = some c → c.stringsNonEmpty) ∧
  (∀ r, rule.Redirect = some r → r.stringsNonEmpty)

/-- The requests a handler issued, given the requests issued before it ran. -/
def Outcome.issued (o : Outcome) (before : List ApiCall) : List ApiCall :=
  o.calls.drop before.length

/-! ## Concrete services and resource data, used to instantiate the statements -/

/-- An error classification in the manner of `tfresource.NotFound`. -/
def exampleNotFound : GoError → Bool
  | .notFound _ => true
  | .emptyResult => true
  | _ => false

/-- A domain name as the service returns it for `name`. -/
def exampleDomainName (name : Option String) : DomainName :=
  { CertificateArn := none, CertificateName := none, CertificateUploadDate := none
    DistributionDomainName := none, DomainName := name, EndpointConfiguration := none
    MutualTlsAuthentication := none, OwnershipVerificationCertificateArn := none
    RegionalCertificateArn := none, RegionalCertificateName := none
    RegionalDomainName := none, RegionalHostedZoneId := none, SecurityPolicy := none
    Tags := [] }

/-- A provider client whose services accept every request. Resource IDs of the
s3 package are parsed as a bare bucket name; `routing_rules` decodes only from
the JSON text of the empty array. -/
def exampleClient : AWSClient :=
  { Partition := "aws"
    Region := "eu-west-1"
    CloudFrontDistributionHostedZoneID := "Z2FDTNDATAQYW2"
    APIGatewayConn :=
      { CreateDomainNameWithContext := fun _ input => .ok (exampleDomainName input.DomainName)
        GetDomainNameWithContext := fun _ name => .ok (some (exampleDomainName (some name)))
        UpdateDomainNameWithContext := fun _ _ => none
        DeleteDomainNameWithContext := fun _ _ => none
        UpdateTags := fun _ _ _ _ => none }
    S3Client :=
      { PutBucketWebsite := fun _ _ => .ok { ResultMetadata := [] }
        GetBucketWebsite := fun _ _ =>
          .ok (some { ErrorDocument := none, IndexDocument := none
                      RedirectAllRequestsTo := none, RoutingRules := none })
        GetBucketLocation := fun _ _ => .ok (some { LocationConstraint := "eu-west-1" })
        DeleteBucketWebsite := fun _ _ => none }
    NotFound := exampleNotFound
    RetryWhenAWSErrCodeEquals := fun attempt _ => attempt
    RetryUntilNotFound := fun lookup calls =>
      match lookup calls with
      | ((_, some err), after) =>
        if exampleNotFound err then (none, after) else (some err, after)
      | ((_, none), after) =>
        (some (.other "timeout while waiting for resource to be gone"), after)
    MergeTags := fun _ => []
    IgnoreAWS := fun tags => tags
    IgnoreConfig := fun tags => tags
    RemoveDefaultConfig := fun tags => tags
    TagsMap := fun tags => .map (tags.map fun kv => (kv.1, .str kv.2))
    FormatRFC3339 := fun _ => "1970-01-01T00:00:00Z"
    expandEndpointConfiguration := fun _ => none
    flattenEndpointConfiguration := fun _ => .list []
    CreateResourceID := fun bucket _ => bucket
    ParseResourceID := fun id => if id = "" then .error (.other "unexpected format") else .ok (id, "")
    UnmarshalRoutingRules := fun text =>
      if text = "[]" then .ok [] else .error (.other "json: cannot unmarshal")
    MarshalJSON := fun _ => .ok "[]"
    WebsiteEndpoint := fun bucket region =>
      ("s3-website-" ++ region ++ ".amazonaws.com",
       bucket ++ ".s3-website-" ++ region ++ ".amazonaws.com") }

/-- The client `exampleClient` with services that no longer know the resource. -/
def missingClient : AWSClient :=
  { exampleClient with
    APIGatewayConn :=
      { exampleClient.APIGatewayConn with
        GetDomainNameWithContext := fun _ _ =>
          .error (.awserr "NotFoundException" "Invalid domain name identifier specified") }
    S3Client :=
      { exampleClient.S3Client with
        GetBucketWebsite := fun _ _ =>
          .error (.awserr "NoSuchWebsiteConfiguration"
            "The specified bucket does not have a website configuration") } }

/-- The client `exampleClient` with services that reject every request. -/
def failingClient : AWSClient :=
  { exampleClient with
    APIGatewayConn :=
      { CreateDomainNameWithContext := fun _ _ => .error (.awserr "BadRequestException" "rejected")
        GetDomainNameWithContext := fun _ _ => .error (.awserr "BadRequestException" "rejected")
        UpdateDomainNameWithContext := fun _ _ => some (.awserr "BadRequestException" "rejected")
        DeleteDomainNameWithContext := fun _ _ => some (.awserr "BadRequestException" "rejected")
        UpdateTags := fun _ _ _ _ => some (.awserr "BadRequestException" "rejected") }
    S3Client :=
      { PutBucketWebsite := fun _ _ => .error (.awserr "AccessDenied" "rejected")
        GetBucketWebsite := fun _ _ => .error (.awserr "AccessDenied" "rejected")
        GetBucketLocation := fun _ _ => .error (.awserr "AccessDenied" "rejected")
        DeleteBucketWebsite := fun _ _ => some (.awserr "AccessDenied" "rejected") } }

/-- Resource data with the given ID and planned values, nothing changed. -/
def exampleData (id : String) (isNew : Bool) (values : TfMap) : ResourceData :=
  { Id := id
    IsNewResource := isNew
    Get := fun key => (TfMap.get? values key).getD .null
    isSet := fun key => (TfMap.get? values key).isSome
    HasChange := fun _ => false
    HasChangesExcept := fun _ => false
    GetChange := fun key => ((TfMap.get? values key).getD .null, (TfMap.get? values key).getD .null)
    setError := fun _ _ => none
    written := [] }

/-- Resource data in which exactly the top-level attributes `changed` changed. -/
def changedData (id : String) (values : TfMap) (changed : List String) : ResourceData :=
  { exampleData id false values with
    HasChange := fun key => changed.contains key
    HasChangesExcept := fun keys => changed.any fun key => !keys.contains key }

/-- Two routing rules: one with a condition and a redirect without protocol,
one with a bare redirect. -/
def exampleRoutingRules : List RoutingRule :=
  [{ Condition := some { HttpErrorCodeReturnedEquals := none, KeyPrefixEquals := some "docs/" }
     Redirect := some { HostName := none, HttpRedirectCode := none, Protocol := ""
                        ReplaceKeyPrefixWith := some "documents/", ReplaceKeyWith := none } },
   { Condition := none
     Redirect := some { HostName := some "example.com", HttpRedirectCode := some "301"
                        Protocol := "https", ReplaceKeyPrefixWith := none
                        ReplaceKeyWith := none } }]



/-- The string attributes whose new value `resourceDomainNameUpdate` sends in a
replace operation, each with the path of the operation. -/
def replacedAttributes : List (String × String) :=
  [("certificate_arn", "/certificateArn"),
   ("certificate_name", "/certificateName"),
   ("regional_certificate_arn", "/regionalCertificateArn"),
   ("regional_certificate_name", "/regionalCertificateName"),
   ("security_policy", "/securityPolicy")]

/-- The patch paths of the attributes that the schema of
`aws_api_gateway_domain_name` marks `ForceNew`. -/
def forceNewPaths : List String :=
  ["/certificateBody", "/certificateChain", "/certificatePrivateKey", "/domainName",
   "/mutualTlsAuthentication/truststoreUri"]


/-- A change of the ACM certificate of the domain name `example.com`. -/
def certificateChange : ResourceData :=
  changedData "example.com"
    [("certificate_arn", .str "arn:aws:acm:us-east-1:123456789012:certificate/new"),
     ("domain_name", .str "example.com")]
    ["certificate_arn"]

/-- The patch request that `certificateChange` calls for. -/
def certificateChangeRequest : UpdateDomainNameInput :=
  { DomainName := some "example.com"
    PatchOperations :=
      [{ Op := some "replace", Path := some "/certificateArn"
         Value := some "arn:aws:acm:us-east-1:123456789012:certificate/new" }] }

/-- A change of `ownership_verification_certificate_arn` alone, to a new
non-empty value. -/
def ownershipCertificateChange : ResourceData :=
  changedData "example.com"
    [("domain_name", .str "example.com"),
     ("ownership_verification_certificate_arn",
      .str "arn:aws:acm:eu-west-1:123456789012:certificate/new")]
    ["ownership_verification_certificate_arn"]

/-- The removal of the `mutual_tls_authentication` block. -/
def mutualTLSRemoval : ResourceData :=
  changedData "example.com"
    [("domain_name", .str "example.com"), ("mutual_tls_authentication", .list [])]
    ["mutual_tls_authentication"]


/-- The requests issued by `resourceDomainNameUpdate` up to and including the
`UpdateDomainName` request, which is sent when anything but the tags changed. -/
def callsAfterPatch (d : ResourceData) (calls : List ApiCall) : List ApiCall :=
  if d.HasChangesExcept ["tags", "tags_all"] then
    calls ++ [ApiCall.UpdateDomainName
      { DomainName := some d.Id, PatchOperations := domainNamePatchOperations d }]
  else calls

/-- The tagging request of `resourceDomainNameUpdate`. -/
def tagsRequest (d : ResourceData) : ApiCall :=
  ApiCall.UpdateTags (d.Get "arn").asString (d.GetChange "tags_all").1 (d.GetChange "tags_all").2

/-- The request `PutBucketWebsite` of the create handler for the decoded
website configuration. -/
def createRequest (d : ResourceData) (websiteConfig : WebsiteConfiguration) :
    PutBucketWebsiteInput :=
  putBucketWebsiteInput (d.Get "bucket").asString (d.Get "expected_bucket_owner").asString
    websiteConfig

/-- A new website configuration for the bucket `bucket`, with the given
`routing_rules` text. -/
def websiteData (bucket : String) (routingRules : String) : ResourceData :=
  exampleData "" true [("bucket", .str bucket), ("routing_rules", .str routingRules)]


/-- A new domain name `example.com`, about to be created. -/
def newDomain : ResourceData :=
  exampleData "" true [("domain_name", .str "example.com")]

/-- A change of the tags of the domain name `example.com` and of nothing else. -/
def tagsChange : ResourceData :=
  changedData "example.com" [("domain_name", .str "example.com")] ["tags_all"]

/-- The website configuration of the bucket `site`, in the state. -/
def existingWebsite : ResourceData :=
  exampleData "site" false [("bucket", .str "site")]

/-- The request `PutBucketWebsite` for the bucket `site` with an empty configuration. -/
def siteRequest : PutBucketWebsiteInput :=
  { Bucket := some "site", ExpectedBucketOwner := none
    WebsiteConfiguration :=
      { ErrorDocument := none, IndexDocument := none, RedirectAllRequestsTo := none
        RoutingRules := [] } }

/-! ## Delete handlers -/

def resourceDomainNameDelete (client : AWSClient) (d : ResourceData) (calls : List ApiCall) :
    Outcome :=
  let diags : Diagnostics := []
  let conn := client.APIGatewayConn
  let err := conn.DeleteDomainNameWithContext calls d.Id
  let calls := calls ++ [ApiCall.DeleteDomainName d.Id]
  if ErrCodeEquals err [ErrCodeNotFoundException] then
    ⟨d, diags, calls⟩
  else
    match err with
    | some err =>
      ⟨d, AppendErrorf diags
        ("deleting API Gateway Domain Name (" ++ d.Id ++ "): " ++ err.Error), calls⟩
    | none => ⟨d, diags, calls⟩

/-- The request `s3.DeleteBucketWebsiteInput` of the delete handler. -/
def deleteBucketWebsiteInput (bucket : String) (expectedBucketOwner : String) :
    DeleteBucketWebsiteInput :=
  { Bucket := some bucket
    ExpectedBucketOwner := if expectedBucketOwner ≠ "" then some expectedBucketOwner else none }

/-- One poll of `findBucketWebsite(ctx, conn, bucket, expectedBucketOwner)`. -/
def findBucketWebsiteLookup (conn : S3Client) (bucket : String) (expectedBucketOwner : String) :
    Lookup GetBucketWebsiteOutput :=
  fun calls =>
    (findBucketWebsite conn calls bucket expectedBucketOwner,
     calls ++ [ApiCall.GetBucketWebsite
       { Bucket := some bucket
         ExpectedBucketOwner :=
           if expectedBucketOwner ≠ "" then some expectedBucketOwner else none }])

def resourceBucketWebsiteConfigurationDelete (client : AWSClient) (d : ResourceData)
    (calls : List ApiCall) : Outcome :=
  let conn := client.S3Client
  match client.ParseResourceID d.Id with
  | .error err => ⟨d, FromErr err, calls⟩
  | .ok (bucket, expectedBucketOwner) =>
    let input := deleteBucketWebsiteInput bucket expectedBucketOwner
    let err := conn.DeleteBucketWebsite calls input
    let calls := calls ++ [ApiCall.DeleteBucketWebsite input]
    if ErrCodeEquals err [errCodeNoSuchBucket, errCodeNoSuchWebsiteConfiguration] then
      ⟨d, [], calls⟩
    else
      match err with
      | some err =>
        ⟨d, Errorf
          ("deleting S3 Bucket Website Configuration (" ++ d.Id ++ "): " ++ err.Error), calls⟩
      | none =>
        match client.RetryUntilNotFound
            (findBucketWebsiteLookup conn bucket expectedBucketOwner) calls with
        | (some err, calls) =>
          ⟨d, Errorf
            ("waiting for S3 Bucket Accelerate Configuration (" ++ d.Id ++ ") delete: "
              ++ err.Error), calls⟩
        | (none, calls) => ⟨d, [], calls⟩

/-- The client `exampleClient` with services that answer every delete request
with their not-found error. -/
def goneClient : AWSClient :=
  { exampleClient with
    APIGatewayConn :=
      { exampleClient.APIGatewayConn with
        DeleteDomainNameWithContext := fun _ _ =>
          some (.awserr "NotFoundException" "Invalid domain name identifier specified") }
    S3Client :=
      { exampleClient.S3Client with
        DeleteBucketWebsite := fun _ _ =>
          some (.awserr "NoSuchBucket" "The specified bucket does not exist") } }

/-- The endpoint operation of the patch list built by `resourceDomainNameUpdate`,
if any. -/
def endpointOperations (d : ResourceData) : List PatchOperation :=
  if d.HasChange "endpoint_configuration.0.types" = true then
    if ((d.GetOk "endpoint_configuration").2
        && decide ((d.GetOk "endpoint_configuration").1.asList.length > 0)) = true then
      [replaceOperation "/endpointConfiguration/types/0"
        ((((TfMap.get? ((d.GetOk "endpoint_configuration").1.asList.headD .null).asMap
          "types").getD .null).asList.headD .null).asString)]
    else []
  else []

/-- The mutual TLS operation of the patch list built by
`resourceDomainNameUpdate`, if any. -/
def mutualTLSOperations (d : ResourceData) : List PatchOperation :=
  if d.HasChange "mutual_tls_authentication" = true then
    if (!firstNotNil (d.Get "mutual_tls_authentication").asList) = true then
      [replaceOperation "/mutualTlsAuthentication/truststoreUri" ""]
    else
      [replaceOperation "/mutualTlsAuthentication/truststoreVersion"
        (((TfMap.get? ((d.Get "mutual_tls_authentication").asList.headD .null).asMap
          "truststore_version").getD .null).asString)]
  else []

/-- The operation lies under `/mutualTlsAuthentication`. -/
def underMutualTLS (op : PatchOperation) : Bool :=
  match op.Path with
  | some path => "/mutualTlsAuthentication".data.isPrefixOf path.data
  | none => false

/-- The operation has the path of the endpoint type. -/
def onEndpointType (op : PatchOperation) : Bool :=
  decide (op.Path = some "/endpointConfiguration/types/0")

/-- A change of the endpoint type of `example.com` to `REGIONAL`. -/
def endpointChange : ResourceData :=
  changedData "example.com"
    [("domain_name", .str "example.com"),
     ("endpoint_configuration", .list [.map [("types", .list [.str "REGIONAL"])]])]
    ["endpoint_configuration", "endpoint_configuration.0.types"]

/-- A change of the truststore version of `example.com` to `2`. -/
def truststoreVersionChange : ResourceData :=
  changedData "example.com"
    [("domain_name", .str "example.com"),
     ("mutual_tls_authentication",
      .list [.map [("truststore_uri", .str "s3://bucket/truststore.pem"),
                   ("truststore_version", .str "2")]])]
    ["mutual_tls_authentication"]

/-- The website configuration of the bucket `site` with the `routing_rules` text of
the empty array, unchanged. -/
def routedWebsite : ResourceData :=
  exampleData "site" false [("bucket", .str "site"), ("routing_rules", .str "[]")]

/-- The website configuration of the bucket `site` whose `routing_rule` changed to one
rule redirecting to `example.com`. -/
def ruleChange : ResourceData :=
  changedData "site"
    [("bucket", .str "site"),
     ("routing_rule", .list [.map [("redirect", .list [.map [("host_name", .str "example.com"),
        ("protocol", .str "")]])]])]
    ["routing_rule"]

/-- The request `PutBucketWebsite` that `ruleChange` calls for. -/
def ruleChangeRequest : PutBucketWebsiteInput :=
  { Bucket := some "site", ExpectedBucketOwner := none
    WebsiteConfiguration :=
      { ErrorDocument := none, IndexDocument := none, RedirectAllRequestsTo := none
        RoutingRules :=
          [{ Condition := none
             Redirect := some { HostName := some "example.com", HttpRedirectCode := none
                                Protocol := "", ReplaceKeyPrefixWith := none
                                ReplaceKeyWith := none } }] } }

/-- No key of the object is bound to nil and no key `"Protocol"` is bound to the empty
string, at every level of objects nested through object values. -/
def noNilOrEmptyProtocol : TfMap → Bool
  | [] => true
  | (k, v) :: rest =>
    match v with
    | .null => false
    | .map m => noNilOrEmptyProtocol m && noNilOrEmptyProtocol rest
    | .str s => !(k == "Protocol" && s == "") && noNilOrEmptyProtocol rest
    | _ => noNilOrEmptyProtocol rest

/-- The value that `removeNilOrEmptyProtocol` leaves under a key bound to `v`, if any. -/
def cleanedValue (k : String) (v : TfValue) : Option TfValue :=
  match v with
  | .null => none
  | .map m => some (.map (removeNilOrEmptyProtocol m))
  | .str s => if k = "Protocol" ∧ s = "" then none else some (.str s)
  | other => some other

/-- A routing rule document with an absent condition and a redirect that has an
empty protocol and an empty host name. -/
def exampleRuleDocument : TfMap :=
  [("Condition", .null),
   ("Redirect", .map [("HostName", .str ""), ("HttpRedirectCode", .null), ("Protocol", .str "")])]

/-! ## Tags (`internal/service/{dynamodb,sagemaker,glacier,qldb}/tags_gen.go`) -/

/-- The value bound to `key` in an association list, the first binding winning. -/
def lookupKey {β : Type} : List (String × β) → String → Option β
  | [], _ => none
  | (k, v) :: rest, key => if key = k then some v else lookupKey rest key

/-- Map assignment `m[key] = value` on an association list. -/
def assignKey {β : Type} : List (String × β) → String → β → List (String × β)
  | [], key, value => [(key, value)]
  | (k, v) :: rest, key, value =>
    if key = k then (k, value) :: rest else (k, v) :: assignKey rest key value

/-- The type `tftags.KeyValueTags`: the tags of a resource, each key with its value (nil
for a tag without value), as an association list read with `lookupKey`. -/
abbrev KeyValueTags := List (String × Option String)

/-- The key carries the prefix `aws:` of the tags that AWS manages. -/
def isAWSKey (key : String) : Bool := "aws:".data.isPrefixOf key.data

/-- Modelled from the spec: the method `KeyValueTags.Removed` of `internal/tags`, outside
the given sources: the tags of `tags` whose key is absent from `newTags`. -/
def KeyValueTags.Removed (tags : KeyValueTags) (newTags : KeyValueTags) : KeyValueTags :=
  tags.filter fun kv => (lookupKey newTags kv.1).isNone

/-- Modelled from the spec: the method `KeyValueTags.Updated` of `internal/tags`, outside
the given sources: the entries of `newTags` that are absent from `tags` or carry a
different value there. -/
def KeyValueTags.Updated (tags : KeyValueTags) (newTags : KeyValueTags) : KeyValueTags :=
  newTags.filter fun kv => decide (lookupKey tags kv.1 ≠ some kv.2)

/-- Modelled from the spec: the method `KeyValueTags.IgnoreAWS` of `internal/tags`,
outside the given sources: the tags whose key is not prefixed `aws:`. -/
def KeyValueTags.IgnoreAWS (tags : KeyValueTags) : KeyValueTags :=
  tags.filter fun kv => !isAWSKey kv.1

/-- Modelled from the spec: the method `KeyValueTags.Keys` of `internal/tags`. -/
def KeyValueTags.Keys (tags : KeyValueTags) : List String :=
  tags.map Prod.fst

/-- Modelled from the spec: the method `KeyValueTags.Map` of `internal/tags`: every key
with its value as a string, `""` for a tag without value. -/
def KeyValueTags.Map (tags : KeyValueTags) : List (String × String) :=
  tags.map fun kv => (kv.1, kv.2.getD "")

/-- Modelled from the spec: the method `KeyValueTags.KeyExists` of `internal/tags`. -/
def KeyValueTags.KeyExists (tags : KeyValueTags) (key : String) : Bool :=
  (lookupKey tags key).isSome

/-- Modelled from the spec: the method `KeyValueTags.KeyValue` of `internal/tags`: the
value of the key, nil when the key is absent or has no value. -/
def KeyValueTags.KeyValue (tags : KeyValueTags) (key : String) : Option String :=
  (lookupKey tags key).join

/-- The function `Tags` of the package: the tags as the tagging request carries them. -/
def Tags (tags : KeyValueTags) : List (String × String) :=
  tags.Map

/-- A tag of a list-tags response (`*dynamodb.Tag`). -/
structure Tag where
  Key : Option String
  Value : Option String
  deriving DecidableEq

/-- The function `KeyValueTags` of the dynamodb package: `m[aws.StringValue(tag.Key)] =
tag.Value` for every tag in turn. -/
def KeyValueTags.fromTags (tags : List Tag) : KeyValueTags :=
  tags.foldl (fun m tag => assignKey m (tag.Key.getD "") tag.Value) []

/-- A request sent to the tagging interface of a service. -/
inductive TagRequest where
  | Untag (identifier : String) (tagKeys : List String) : TagRequest
  | Tag (identifier : String) (tags : List (String × String)) : TagRequest
  | ListTags (identifier : String) : TagRequest
  deriving DecidableEq

/-- The tagging interface of a service client: `UntagResource`, `TagResource` and
`ListTagsOfResource` for dynamodb, and the requests of the same shape of the
sagemaker (`DeleteTags`, `AddTags`), glacier (`RemoveTagsFromVault`,
`AddTagsToVault`) and qldb clients. Like the other services it answers a
request knowing the requests issued before. -/
structure TaggingAPI where
  UntagResourceWithContext : List TagRequest → String → List String → Option GoError
  TagResourceWithContext : List TagRequest → String → List (String × String) → Option GoError
  ListTagsOfResourceWithContext : List TagRequest → String → Except GoError (List Tag)

/-- The function `UpdateTags` of the dynamodb, sagemaker, glacier and qldb packages,
generated from one template and equal up to the names of the requests; the old
and new tags are given as `tftags.New` builds them. It returns its error and
the requests issued so far. -/
def UpdateTags (conn : TaggingAPI) (calls : List TagRequest) (identifier : String)
    (oldTags : KeyValueTags) (newTags : KeyValueTags) : Option GoError × List TagRequest :=
  let removedTags := oldTags.Removed newTags
  let untagged : Option GoError × List TagRequest :=
    if removedTags.length > 0 then
      (conn.UntagResourceWithContext calls identifier removedTags.IgnoreAWS.Keys,
        calls ++ [TagRequest.Untag identifier removedTags.IgnoreAWS.Keys])
    else (none, calls)
  match untagged with
  | (some err, calls) =>
    (some (.wrapped ("untagging resource (" ++ identifier ++ ")") err), calls)
  | (none, calls) =>
    let updatedTags := oldTags.Updated newTags
    if updatedTags.length > 0 then
      match conn.TagResourceWithContext calls identifier (Tags updatedTags.IgnoreAWS) with
      | some err =>
        (some (.wrapped ("tagging resource (" ++ identifier ++ ")") err),
          calls ++ [TagRequest.Tag identifier (Tags updatedTags.IgnoreAWS)])
      | none => (none, calls ++ [TagRequest.Tag identifier (Tags updatedTags.IgnoreAWS)])
    else (none, calls)

/-- The function `ListTags` of the dynamodb package. -/
def ListTags (conn : TaggingAPI) (calls : List TagRequest) (identifier : String) :
    KeyValueTags × Option GoError :=
  match conn.ListTagsOfResourceWithContext calls identifier with
  | .error err =>
    if ErrCodeEquals (some err) ["ResourceNotFoundException"] then ([], some (.notFound err))
    else ([], some err)
  | .ok tags => (KeyValueTags.fromTags tags, none)

/-- The function `GetTag` of the dynamodb package: the value and the error it returns. -/
def GetTag (conn : TaggingAPI) (calls : List TagRequest) (identifier : String) (key : String) :
    Option String × Option GoError :=
  match ListTags conn calls identifier with
  | (_, some err) => (none, some err)
  | (listTags, none) =>
    if !listTags.KeyExists key then (none, some .emptyResult)
    else (listTags.KeyValue key, none)

/-- Modelled from the spec: the function `tfresource.NotFound` of `internal/tfresource`,
outside the given sources: it recognises a `NotFoundError` and the empty-result
error with which `GetTag` and the finders signal that nothing was found, also
when wrapped with `%w`. -/
def NotFound : GoError → Bool
  | .notFound _ => true
  | .emptyResult => true
  | .wrapped _ cause => NotFound cause
  | _ => false

/-- The effect of a tagging request on the tags that the resource carries: untagging
drops the keys, tagging binds each key of the request to its value and leaves
the other keys alone. -/
def TagRequest.apply (request : TagRequest) (carried : List (String × String)) :
    List (String × String) :=
  match request with
  | .Untag _ tagKeys => carried.filter fun kv => !tagKeys.contains kv.1
  | .Tag _ tags => tags ++ carried.filter fun kv => (lookupKey tags kv.1).isNone
  | .ListTags _ => carried

/-- The tags that a resource carrying `carried` carries after the requests, applied in
order. -/
def applyRequests (requests : List TagRequest) (carried : List (String × String)) :
    List (String × String) :=
  requests.foldl (fun tags request => request.apply tags) carried

/-- A tagging interface that accepts every request and lists two tags. -/
def exampleTagging : TaggingAPI :=
  { UntagResourceWithContext := fun _ _ _ => none
    TagResourceWithContext := fun _ _ _ => none
    ListTagsOfResourceWithContext := fun _ _ =>
      .ok [{ Key := some "env", Value := some "prod" }, { Key := some "team", Value := none }] }

/-- A tagging interface that rejects every request. -/
def failingTagging : TaggingAPI :=
  { UntagResourceWithContext := fun _ _ _ => some (.awserr "AccessDeniedException" "rejected")
    TagResourceWithContext := fun _ _ _ => some (.awserr "AccessDeniedException" "rejected")
    ListTagsOfResourceWithContext := fun _ _ =>
      .error (.awserr "AccessDeniedException" "rejected") }

/-- The tags of a table before a change. -/
def oldExampleTags : KeyValueTags :=
  [("env", some "test"), ("owner", some "ops"), ("team", some "core")]

/-- The tags of the table after the change: `owner` dropped, `env` changed, `cost`
added, `team` kept. -/
def newExampleTags : KeyValueTags :=
  [("cost", some "42"), ("env", some "prod"), ("team", some "core")]

/-! ## Acceptance-test helpers (`risk_configuration_test.go`, `resource_policy_test.go`) -/

/-- A resource of the Terraform state: its type (`Type`) and the ID of its primary instance. -/
structure ResourceState where
  TypeName : String
  ID : String
  deriving DecidableEq

/-- The function `testAccCheckRiskConfigurationDestroy` of the cognitoidp tests, over
the resources of the root module in the order the loop visits them.
`FindRiskConfigurationById` is the finder, of which the check reads the error
only, and `notFound` is `tfresource.NotFound`. -/
def testAccCheckRiskConfigurationDestroy (notFound : GoError → Bool)
    (FindRiskConfigurationById : String → Option GoError) :
    List ResourceState → Option GoError
  | [] => none
  | rs :: rest =>
    if rs.TypeName ≠ "aws_cognito_risk_configuration" then
      testAccCheckRiskConfigurationDestroy notFound FindRiskConfigurationById rest
    else
      match FindRiskConfigurationById rs.ID with
      | some err =>
        if notFound err then
          testAccCheckRiskConfigurationDestroy notFound FindRiskConfigurationById rest
        else some err
      | none => testAccCheckRiskConfigurationDestroy notFound FindRiskConfigurationById rest

/-- The function `testAccCheckResourcePolicyDestroy` of the logs tests, over the
resources of the root module in the order the loop visits them. -/
def testAccCheckResourcePolicyDestroy (notFound : GoError → Bool)
    (FindResourcePolicyByName : String → Option GoError) :
    List ResourceState → Option GoError
  | [] => none
  | rs :: rest =>
    if rs.TypeName ≠ "aws_cloudwatch_log_resource_policy" then
      testAccCheckResourcePolicyDestroy notFound FindResourcePolicyByName rest
    else
      match FindResourcePolicyByName rs.ID with
      | some err =>
        if notFound err then
          testAccCheckResourcePolicyDestroy notFound FindResourcePolicyByName rest
        else some err
      | none => some (.other ("CloudWatch Logs Resource Policy still exists: " ++ rs.ID))

/-- A state that holds one risk configuration, of the user pool `us-east-1_example`. -/
def riskConfigurationState : List ResourceState :=
  [{ TypeName := "aws_cognito_risk_configuration", ID := "us-east-1_example" }]

/-- A state that holds one resource policy, named `example`. -/
def resourcePolicyState : List ResourceState :=
  [{ TypeName := "aws_cloudwatch_log_resource_policy", ID := "example" }]

/-- A finder that finds every resource it is asked for. -/
def stillExists : String → Option GoError :=
  fun _ => none

/-! ## Pagers (`internal/service/ecs/list_pages_gen.go`, `internal/service/logs/list_pages_gen.go`) -/

/-- The request `ecs.DescribeCapacityProvidersInput`. -/
structure DescribeCapacityProvidersInput where
  CapacityProviders : List String
  Include : List String
  MaxResults : Option Int
  NextToken : Option String
  deriving DecidableEq

/-- The response `ecs.DescribeCapacityProvidersOutput`, capacity providers and failures
by name. -/
structure DescribeCapacityProvidersOutput where
  CapacityProviders : List String
  Failures : List String
  NextToken : Option String
  deriving DecidableEq

/-- The request `cloudwatchlogs.DescribeQueryDefinitionsInput`. -/
structure DescribeQueryDefinitionsInput where
  MaxResults : Option Int
  NextToken : Option String
  QueryDefinitionNamePrefix : Option String
  deriving DecidableEq

/-- The response `cloudwatchlogs.DescribeQueryDefinitionsOutput`, query definitions by
name. -/
structure DescribeQueryDefinitionsOutput where
  NextToken : Option String
  QueryDefinitions : List String
  deriving DecidableEq

/-- The request `cloudwatchlogs.DescribeResourcePoliciesInput`. -/
structure DescribeResourcePoliciesInput where
  Limit : Option Int
  NextToken : Option String
  deriving DecidableEq

/-- The response `cloudwatchlogs.DescribeResourcePoliciesOutput`, resource policies by
name. -/
structure DescribeResourcePoliciesOutput where
  NextToken : Option String
  ResourcePolicies : List String
  deriving DecidableEq

/-- The part of the client `*ecs.ECS` that the pager calls. The service answers a
request knowing the requests of the pager issued before it; the method of the
SDK returns its response object also when it returns an error, so a
successful call always has a page. -/
structure ECS where
  DescribeCapacityProvidersWithContext : List DescribeCapacityProvidersInput →
    DescribeCapacityProvidersInput → Except GoError DescribeCapacityProvidersOutput

/-- The part of the interface `cloudwatchlogsiface.CloudWatchLogsAPI` that the pagers
call. -/
structure CloudWatchLogsAPI where
  DescribeQueryDefinitionsWithContext : List DescribeQueryDefinitionsInput →
    DescribeQueryDefinitionsInput → Except GoError DescribeQueryDefinitionsOutput
  DescribeResourcePoliciesWithContext : List DescribeResourcePoliciesInput →
    DescribeResourcePoliciesInput → Except GoError DescribeResourcePoliciesOutput

/-- The callback `fn` of a pager: a Go closure, whose answer for a page and its
`lastPage` flag may depend on the pages it was invoked on before. -/
abbrev PageFn (O : Type) := List (O × Bool) → O → Bool → Bool

/-- What a pager has done when it returned or when the observation of it ended:
`returned` is the error it returned (`some none` for nil), or `none` while the
loop is still running; `calls` are the inputs of its API calls in order;
`invoked` are the invocations of `fn` in order, each page with its `lastPage`
argument. -/
structure PagerRun (I O : Type) where
  returned : Option (Option GoError)
  calls : List I
  invoked : List (O × Bool)

/-- The loop that `internal/generate/listpages` generates for every pager, observed
for at most `fuel` iterations: `call` is the API method, `nextToken` reads
`output.NextToken` and `setNextToken` is the assignment `input.NextToken =
output.NextToken`. `calls` and `pages` are the API calls and the invocations of
`fn` made before this iteration. -/
def listPages {I O : Type} (call : List I → I → Except GoError O)
    (nextToken : O → Option String) (setNextToken : I → Option String → I) (fn : PageFn O) :
    Nat → List I → List (O × Bool) → I → PagerRun I O
  | 0, _, _, _ => ⟨none, [], []⟩
  | fuel + 1, calls, pages, input =>
    match call calls input with
    | .error err => ⟨some (some err), [input], []⟩
    | .ok output =>
      let lastPage := decide ((nextToken output).getD "" = "")
      if (!fn pages output lastPage || lastPage) = true then
        ⟨some none, [input], [(output, lastPage)]⟩
      else
        let rest := listPages call nextToken setNextToken fn fuel (calls ++ [input])
          (pages ++ [(output, lastPage)]) (setNextToken input (nextToken output))
        ⟨rest.returned, input :: rest.calls, (output, lastPage) :: rest.invoked⟩

/-- The function `describeCapacityProvidersPages` of the ecs package, observed for at
most `fuel` iterations of its loop. -/
def describeCapacityProvidersPages (conn : ECS) (fuel : Nat)
    (input : DescribeCapacityProvidersInput) (fn : PageFn DescribeCapacityProvidersOutput) :
    PagerRun DescribeCapacityProvidersInput DescribeCapacityProvidersOutput :=
  listPages conn.DescribeCapacityProvidersWithContext (fun output => output.NextToken)
    (fun input token => { input with NextToken := token }) fn fuel [] [] input

/-- The function `describeQueryDefinitionsPages` of the logs package, observed for at
most `fuel` iterations of its loop. -/
def describeQueryDefinitionsPages (conn : CloudWatchLogsAPI) (fuel : Nat)
    (input : DescribeQueryDefinitionsInput) (fn : PageFn DescribeQueryDefinitionsOutput) :
    PagerRun DescribeQueryDefinitionsInput DescribeQueryDefinitionsOutput :=
  listPages conn.DescribeQueryDefinitionsWithContext (fun output => output.NextToken)
    (fun input token => { input with NextToken := token }) fn fuel [] [] input

/-- The function `describeResourcePoliciesPages` of the logs package, observed for at
most `fuel` iterations of its loop. -/
def describeResourcePoliciesPages (conn : CloudWatchLogsAPI) (fuel : Nat)
    (input : DescribeResourcePoliciesInput) (fn : PageFn DescribeResourcePoliciesOutput) :
    PagerRun DescribeResourcePoliciesInput DescribeResourcePoliciesOutput :=
  listPages conn.DescribeResourcePoliciesWithContext (fun output => output.NextToken)
    (fun input token => { input with NextToken := token }) fn fuel [] [] input
/-- Every API call of the run succeeded: the `k`-th call, made after the calls before
it, returned a page. -/
def PagerRun.allSucceeded {I O : Type} (call : List I → I → Except GoError O)
    (run : PagerRun I O) : Prop :=
  ∀ k input, run.calls[k]? = some input →
    ∃ output, call (run.calls.take k) input = .ok output

/-- The pager delivers the token chain in order (the run is observed for `fuel`
iterations). When every API call succeeds: `fn` is invoked once per API call;
the first call has the initial input; the `k`-th invocation is on the page
that answers the `k`-th call, with `lastPage` true exactly when the page has a
nil or empty `NextToken`; the next call, if there is one, has the input of
this call with `NextToken` set to the token of the page; there is a next call
only after `fn` returned true on a page that was not the last; after the last
call the pager has returned nil exactly when `fn` returned false or the page
was the last, and otherwise the observation ended with the loop running. -/
def DeliversTokenChain {I O : Type} (call : List I → I → Except GoError O)
    (nextToken : O → Option String) (setNextToken : I → Option String → I) (fn : PageFn O)
    (fuel : Nat) (input : I) (run : PagerRun I O) : Prop :=
  run.allSucceeded call →
    run.invoked.length = run.calls.length ∧
    (∀ first, run.calls[0]? = some first → first = input) ∧
    (∀ k i page, run.calls[k]? = some i → run.invoked[k]? = some page →
      call (run.calls.take k) i = .ok page.1 ∧
      (page.2 = true ↔ (nextToken page.1 = none ∨ nextToken page.1 = some "")) ∧
      (∀ next, run.calls[k + 1]? = some next → next = setNextToken i (nextToken page.1)) ∧
      (k + 1 < run.calls.length →
        fn (run.invoked.take k) page.1 page.2 = true ∧ page.2 = false) ∧
      (k + 1 = run.calls.length →
        (run.returned = some none ↔
          (fn (run.invoked.take k) page.1 page.2 = false ∨ page.2 = true)))) ∧
    (run.returned = some none ∨ (run.returned = none ∧ run.calls.length = fuel))

/-- The pager propagates the first error: when the `k`-th call of the run (counted
from 0) returned an error, the pager has returned that error, the call is the
last one, `fn` was invoked `k` times, once on the page of each earlier call,
and each time it returned true on a page that was not the last. -/
def PropagatesError {I O : Type} (call : List I → I → Except GoError O) (fn : PageFn O)
    (run : PagerRun I O) : Prop :=
  ∀ k input err, run.calls[k]? = some input →
    call (run.calls.take k) input = .error err →
      run.returned = some (some err) ∧
      run.calls.length = k + 1 ∧
      run.invoked.length = k ∧
      ∀ j page, run.invoked[j]? = some page →
        (∃ earlier, run.calls[j]? = some earlier ∧
          call (run.calls.take j) earlier = .ok page.1) ∧
        fn (run.invoked.take j) page.1 page.2 = true ∧ page.2 = false

/-- The token chain from `input`, after the calls `calls`, reaches within `n` calls a
response that is an error or has a nil or empty `NextToken`. -/
def tokenChainEnds {I O : Type} (call : List I → I → Except GoError O)
    (nextToken : O → Option String) (setNextToken : I → Option String → I) :
    Nat → List I → I → Bool
  | 0, _, _ => false
  | n + 1, calls, input =>
    match call calls input with
    | .error _ => true
    | .ok output =>
      if (nextToken output).getD "" = "" then true
      else tokenChainEnds call nextToken setNextToken n (calls ++ [input])
        (setNextToken input (nextToken output))

/-- The service always answers with a page that has a non-empty `NextToken`. -/
def alwaysMore {I O : Type} (call : List I → I → Except GoError O)
    (nextToken : O → Option String) : Prop :=
  ∀ calls input, ∃ output, call calls input = .ok output ∧ (nextToken output).getD "" ≠ ""

/-- A callback that always returns true. -/
def keepGoing (O : Type) : PageFn O :=
  fun _ _ _ => true

/-- A callback that returns false on its second page. -/
def stopAtSecond (O : Type) : PageFn O :=
  fun pages _ _ => decide (pages.length ≠ 1)

/-- An ecs service with three pages of capacity providers, chained by the tokens `t1`
and `t2`; any other token is rejected. -/
def pagedECS : ECS :=
  { DescribeCapacityProvidersWithContext := fun _ input =>
      if input.NextToken = none then
        .ok { CapacityProviders := ["FARGATE"], Failures := [], NextToken := some "t1" }
      else if input.NextToken = some "t1" then
        .ok { CapacityProviders := ["FARGATE_SPOT"], Failures := [], NextToken := some "t2" }
      else if input.NextToken = some "t2" then
        .ok { CapacityProviders := ["example"], Failures := [], NextToken := none }
      else .error (.awserr "InvalidParameterException" "invalid token") }

/-- An ecs service that answers the first call with a page and rejects every later
call. -/
def brokenECS : ECS :=
  { DescribeCapacityProvidersWithContext := fun calls _ =>
      if calls = [] then
        .ok { CapacityProviders := ["FARGATE"], Failures := [], NextToken := some "t1" }
      else .error (.awserr "ServerException" "internal failure") }

/-- An ecs service whose every page has the token `more`. -/
def endlessECS : ECS :=
  { DescribeCapacityProvidersWithContext := fun _ _ =>
      .ok { CapacityProviders := ["FARGATE"], Failures := [], NextToken := some "more" } }

/-- A logs service with two pages of query definitions and one page of resource
policies. -/
def pagedLogs : CloudWatchLogsAPI :=
  { DescribeQueryDefinitionsWithContext := fun _ input =>
      if input.NextToken = none then
        .ok { NextToken := some "t1", QueryDefinitions := ["errors"] }
      else .ok { NextToken := some "", QueryDefinitions := ["latency"] }
    DescribeResourcePoliciesWithContext := fun _ _ =>
      .ok { NextToken := none, ResourcePolicies := ["example"] } }

/-- A logs service that answers the first call with a page and rejects every later
call. -/
def brokenLogs : CloudWatchLogsAPI :=
  { DescribeQueryDefinitionsWithContext := fun calls _ =>
      if calls = [] then .ok { NextToken := some "t1", QueryDefinitions := ["errors"] }
      else .error (.awserr "ServiceUnavailableException" "unavailable")
    DescribeResourcePoliciesWithContext := fun calls _ =>
      if calls = [] then .ok { NextToken := some "t1", ResourcePolicies := ["example"] }
      else .error (.awserr "ServiceUnavailableException" "unavailable") }

/-- A logs service whose every page has the token `more`. -/
def endlessLogs : CloudWatchLogsAPI :=
  { DescribeQueryDefinitionsWithContext := fun _ _ =>
      .ok { NextToken := some "more", QueryDefinitions := ["errors"] }
    DescribeResourcePoliciesWithContext := fun _ _ =>
      .ok { NextToken := some "more", ResourcePolicies := ["example"] } }

/-- The first request for capacity providers. -/
def firstCapacityProviders : DescribeCapacityProvidersInput :=
  { CapacityProviders := [], Include := ["TAGS"], MaxResults := some 10, NextToken := none }

/-- The first request for query definitions. -/
def firstQueryDefinitions : DescribeQueryDefinitionsInput :=
  { MaxResults := some 10, NextToken := none, QueryDefinitionNamePrefix := none }

/-- The first request for resource policies. -/
def firstResourcePolicies : DescribeResourcePoliciesInput :=
  { Limit := some 10, NextToken := none }
/-- The pager terminates within the token chain: when the chain from `input` reaches
within `n` calls an error or a page with a nil or empty `NextToken`, the pager
makes at most `n` API calls and has returned once it is observed for `n`
iterations, whatever `fn` returns. -/
def TerminatesWithin {I O : Type} (call : List I → I → Except GoError O)
    (nextToken : O → Option String) (setNextToken : I → Option String → I) (input : I)
    (pager : Nat → PageFn O → PagerRun I O) : Prop :=
  ∀ n, tokenChainEnds call nextToken setNextToken n [] input = true →
    ∀ fn fuel, (pager fuel fn).calls.length ≤ n ∧
      (n ≤ fuel → (pager fuel fn).returned.isSome = true)

/-- The pager never returns: however long it is observed, the loop is still running
and every iteration has made its API call. -/
def NeverReturns {I O : Type} (pager : Nat → PagerRun I O) : Prop :=
  ∀ fuel, (pager fuel).returned = none ∧ (pager fuel).calls.length = fuel

/-! ## Waiting for a deletion (`tfresource.RetryUntilNotFound`) -/

/-- Modelled from the spec: the function `tfresource.RetryUntilNotFound` of
`internal/tfresource`, outside the given sources: a bounded polling loop. It
polls the lookup at most `polls` times, the polls that fit in the timeout; it
returns nil at the first poll whose error `notFound` recognises, the error of
the first poll that fails otherwise, and polls again while the resource is
found; when every poll found the resource it returns a timeout error. With the
error it returns the requests issued so far. -/
def RetryUntilNotFound {α : Type} (notFound : GoError → Bool) :
    Nat → Lookup α → List ApiCall → Option GoError × List ApiCall
  | 0, _, calls => (some (.other "timeout while waiting for resource to be gone"), calls)
  | polls + 1, lookup, calls =>
    match lookup calls with
    | ((_, some err), calls) => if notFound err then (none, calls) else (some err, calls)
    | ((_, none), calls) => RetryUntilNotFound notFound polls lookup calls

/-- The requests issued before the `j`-th poll (counted from 0) that follows the
delete request of `resourceBucketWebsiteConfigurationDelete`: the requests
before the handler ran, the delete request and the `j` earlier polls. -/
def pollHistory (calls : List ApiCall) (bucket : String) (expectedBucketOwner : String)
    (j : Nat) : List ApiCall :=
  (calls ++ [ApiCall.DeleteBucketWebsite (deleteBucketWebsiteInput bucket expectedBucketOwner)])
    ++ List.replicate j (ApiCall.GetBucketWebsite
      { Bucket := some bucket
        ExpectedBucketOwner :=
          if expectedBucketOwner ≠ "" then some expectedBucketOwner else none })

/-- The error that `findBucketWebsite` returns at the `j`-th poll after the delete
request, nil when it finds the website configuration. -/
def pollError (conn : S3Client) (calls : List ApiCall) (bucket : String)
    (expectedBucketOwner : String) (j : Nat) : Option GoError :=
  (findBucketWebsite conn (pollHistory calls bucket expectedBucketOwner j) bucket
    expectedBucketOwner).2

/-- The request is a `GetBucketWebsite` request. -/
def ApiCall.isGetBucketWebsite : ApiCall → Bool
  | .GetBucketWebsite _ => true
  | _ => false

/-- The client `exampleClient` with a retry helper of five polls and a service in
which the deleted website configuration is still read by the first two polls. -/
def waitingClient : AWSClient :=
  { exampleClient with
    S3Client :=
      { exampleClient.S3Client with
        GetBucketWebsite := fun calls _ =>
          if (calls.filter ApiCall.isGetBucketWebsite).length < 2 then
            .ok (some { ErrorDocument := none, IndexDocument := none
                        RedirectAllRequestsTo := none, RoutingRules := none })
          else .error (.awserr "NoSuchWebsiteConfiguration" "no website configuration") }
    RetryUntilNotFound := RetryUntilNotFound exampleNotFound 5 }

/-- The client `exampleClient` with a retry helper of three polls: its service reads
the website configuration at every poll. -/
def staleClient : AWSClient :=
  { exampleClient with RetryUntilNotFound := RetryUntilNotFound exampleNotFound 3 }

/-! # Theorems -/

/-! ## Read: a resource deleted out of band is dropped from the state -/

/-- Claim C1: when the finder returns an error that `tfresource.NotFound`
recognises, `resourceDomainNameRead` and `resourceBucketWebsiteConfigurationRead`
(whose finder runs once the resource ID is parsed) clear the ID of a resource
that is not new, write no attribute and return no diagnostic; for a new
resource they leave the resource data as it is and return the error as an
error diagnostic. -/
theorem read_not_found (client : AWSClient) (d : ResourceData) (calls : List ApiCall) :
    (∀ err, (FindDomainName client.APIGatewayConn calls d.Id).2 = some err →
      client.NotFound err = true →
      (d.IsNewResource = false →
        (resourceDomainNameRead client d calls).d = { d with Id := "" } ∧
        (resourceDomainNameRead client d calls).diags = []) ∧
      (d.IsNewResource = true →
        (resourceDomainNameRead client d calls).d = d ∧
        (resourceDomainNameRead client d calls).diags =
          [{ Severity := Severity.Error
             Summary := "reading API Gateway Domain Name (" ++ d.Id ++ "): " ++ err.Error }])) ∧
    (∀ bucket expectedBucketOwner err,
      client.ParseResourceID d.Id = .ok (bucket, expectedBucketOwner) →
      (findBucketWebsite client.S3Client calls bucket expectedBucketOwner).2 = some err →
      client.NotFound err = true →
      (d.IsNewResource = false →
        (resourceBucketWebsiteConfigurationRead client d calls).d = { d with Id := "" } ∧
        (resourceBucketWebsiteConfigurationRead client d calls).diags = []) ∧
      (d.IsNewResource = true →
        (resourceBucketWebsiteConfigurationRead client d calls).d = d ∧
        (resourceBucketWebsiteConfigurationRead client d calls).diags =
          [{ Severity := Severity.Error
             Summary := "reading S3 Bucket Website Configuration (" ++ d.Id ++ "): "
               ++ err.Error }])) := by
  constructor
  · intro err hfind hnf
    rcases hf : FindDomainName client.APIGatewayConn calls d.Id with ⟨dn, e⟩
    rw [hf] at hfind
    simp only at hfind
    subst hfind
    constructor
    · intro hnew
      simp [resourceDomainNameRead, hf, hnew, AWSClient.IsNotFound, hnf, ResourceData.SetId]
    · intro hnew
      simp [resourceDomainNameRead, hf, hnew, AppendErrorf]
  · intro bucket owner err hparse hfind hnf
    rcases hf : findBucketWebsite client.S3Client calls bucket owner with ⟨out, e⟩
    rw [hf] at hfind
    simp only at hfind
    subst hfind
    constructor
    · intro hnew
      simp [resourceBucketWebsiteConfigurationRead, hparse, hf, hnew, AWSClient.IsNotFound, hnf,
        ResourceData.SetId]
    · intro hnew
      simp [resourceBucketWebsiteConfigurationRead, hparse, hf, hnew, Errorf]

theorem read_not_found_witness :
    (FindDomainName missingClient.APIGatewayConn [] "example.com").2
      = some (.notFound (.awserr "NotFoundException" "Invalid domain name identifier specified")) ∧
    (resourceDomainNameRead missingClient (exampleData "example.com" false []) []).d.Id = "" ∧
    (resourceDomainNameRead missingClient (exampleData "example.com" false []) []).d.written = [] ∧
    (resourceDomainNameRead missingClient (exampleData "example.com" false []) []).diags = [] ∧
    (resourceDomainNameRead missingClient (exampleData "example.com" true []) []).d.Id
      = "example.com" ∧
    (resourceDomainNameRead missingClient (exampleData "example.com" true []) []).diags.HasError
      = true ∧
    (resourceBucketWebsiteConfigurationRead missingClient (exampleData "site" false []) []).d.Id
      = "" ∧
    (resourceBucketWebsiteConfigurationRead missingClient (exampleData "site" false []) []).diags
      = [] ∧
    (resourceBucketWebsiteConfigurationRead missingClient (exampleData "site" true []) []).d.Id
      = "site" ∧
    (resourceBucketWebsiteConfigurationRead missingClient
      (exampleData "site" true []) []).diags.HasError = true := by
  have hfind : (FindDomainName missingClient.APIGatewayConn [] "example.com").2
      = some (.notFound (.awserr "NotFoundException" "Invalid domain name identifier specified")) :=
    by rfl
  have hfind3 : (findBucketWebsite missingClient.S3Client [] "site" "").2
      = some (.notFound (.awserr "NoSuchWebsiteConfiguration"
          "The specified bucket does not have a website configuration")) := by rfl
  have a := ((read_not_found missingClient (exampleData "example.com" false []) []).1 _
    hfind rfl).1 rfl
  have b := ((read_not_found missingClient (exampleData "example.com" true []) []).1 _
    hfind rfl).2 rfl
  have c := ((read_not_found missingClient (exampleData "site" false []) []).2 "site" "" _
    rfl hfind3 rfl).1 rfl
  have e := ((read_not_found missingClient (exampleData "site" true []) []).2 "site" "" _
    rfl hfind3 rfl).2 rfl
  refine ⟨hfind, ?_, ?_, a.2, ?_, ?_, ?_, c.2, ?_, ?_⟩
  · rw [a.1]
  · rw [a.1]; rfl
  · rw [b.1]; rfl
  · rw [b.2]; rfl
  · rw [c.1]
  · rw [e.1]; rfl
  · rw [e.2]; rfl

/-! ## Map lemmas -/

theorem TfMap.get?_set (m : TfMap) (k k' : String) (v : TfValue) :
    TfMap.get? (TfMap.set m k v) k' = if k' = k then some v else TfMap.get? m k' := by
  induction m with
  | nil => simp [TfMap.set, TfMap.get?]
  | cons hd tl ih =>
    obtain ⟨k1, v1⟩ := hd
    simp only [TfMap.set]
    by_cases h1 : k = k1
    · subst h1
      by_cases h0 : k' = k <;> simp [TfMap.get?, h0]
    · simp only [h1, if_false]
      by_cases h2 : keyLt k k1 = true
      · simp [h2, TfMap.get?]
      · simp only [h2, TfMap.get?, ih]
        by_cases h3 : k' = k1
        · subst h3
          have : ¬ k' = k := fun h => h1 h.symm
          simp [this]
        · by_cases h4 : k' = k
          · subst h4
            simp [h1]
          · simp [h3, h4]

theorem nonEmptyStringAt_setIfPresent (m : TfMap) (k k' : String) (p : Option String)
    (hp : presentNonEmpty p) :
    nonEmptyStringAt (setIfPresent m k p) k' =
      if k' = k then (match p with | some v => some v | none => nonEmptyStringAt m k')
      else nonEmptyStringAt m k' := by
  cases p with
  | none => simp [setIfPresent]
  | some v =>
    have hv : v ≠ "" := fun h => hp (by rw [h])
    simp only [setIfPresent, nonEmptyStringAt, TfMap.get?_set]
    by_cases h : k' = k
    · simp [h, hv]
    · simp [h]

theorem nonEmptyStringAt_set_str (m : TfMap) (k k' : String) (v : String) :
    nonEmptyStringAt (TfMap.set m k (.str v)) k' =
      if k' = k then (if v ≠ "" then some v else none) else nonEmptyStringAt m k' := by
  simp only [nonEmptyStringAt, TfMap.get?_set]
  by_cases h : k' = k <;> simp [h]

theorem nonEmptyStringAt_nil (k : String) : nonEmptyStringAt [] k = none := by
  simp [nonEmptyStringAt, TfMap.get?]

theorem protocol_getD (v : String) : (if v = "" then none else some v).getD "" = v := by
  by_cases h : v = "" <;> simp [h]

theorem expand_flatten_condition (c : Condition) (hc : c.stringsNonEmpty) :
    expandBucketWebsiteConfigurationRoutingRuleCondition
      (flattenBucketWebsiteConfigurationRoutingRuleCondition (some c)) = some c := by
  obtain ⟨h1, h2⟩ := hc
  obtain ⟨a, b⟩ := c
  simp only [flattenBucketWebsiteConfigurationRoutingRuleCondition,
    expandBucketWebsiteConfigurationRoutingRuleCondition]
  simp only at h1 h2
  rw [nonEmptyStringAt_setIfPresent _ _ _ _ h1, nonEmptyStringAt_setIfPresent _ _ _ _ h1,
    nonEmptyStringAt_setIfPresent _ _ _ _ h2, nonEmptyStringAt_setIfPresent _ _ _ _ h2]
  cases a <;> cases b <;> simp [nonEmptyStringAt_nil]

theorem expand_flatten_redirect (r : Redirect) (hr : r.stringsNonEmpty) :
    expandBucketWebsiteConfigurationRoutingRuleRedirect
      (flattenBucketWebsiteConfigurationRoutingRuleRedirect (some r)) = some r := by
  obtain ⟨h1, h2, h3, h4⟩ := hr
  obtain ⟨a, b, p, c, d⟩ := r
  simp only at h1 h2 h3 h4
  simp only [flattenBucketWebsiteConfigurationRoutingRuleRedirect,
    expandBucketWebsiteConfigurationRoutingRuleRedirect]
  simp only [nonEmptyStringAt_setIfPresent _ _ _ _ h1, nonEmptyStringAt_setIfPresent _ _ _ _ h2,
    nonEmptyStringAt_setIfPresent _ _ _ _ h3, nonEmptyStringAt_setIfPresent _ _ _ _ h4,
    nonEmptyStringAt_set_str, nonEmptyStringAt_nil]
  cases a <;> cases b <;> cases c <;> cases d <;> simp [protocol_getD]

theorem firstNotNil_flatten_condition (c : Condition) :
    firstNotNil (flattenBucketWebsiteConfigurationRoutingRuleCondition (some c)) = true := by
  simp [flattenBucketWebsiteConfigurationRoutingRuleCondition, firstNotNil, TfValue.isNil]

theorem firstNotNil_flatten_redirect (r : Redirect) :
    firstNotNil (flattenBucketWebsiteConfigurationRoutingRuleRedirect (some r)) = true := by
  simp [flattenBucketWebsiteConfigurationRoutingRuleRedirect, firstNotNil, TfValue.isNil]

theorem expand_flatten_rule (rule : RoutingRule) (h : rule.stringsNonEmpty) :
    ∃ m, flattenRoutingRuleElement rule = .map m ∧ expandRoutingRuleElement m = rule := by
  obtain ⟨hc, hr⟩ := h
  obtain ⟨c, r⟩ := rule
  refine ⟨_, rfl, ?_⟩
  cases c with
  | none =>
    cases r with
    | none => simp [expandRoutingRuleElement, TfMap.get?]
    | some r =>
      have := expand_flatten_redirect r (hr r rfl)
      simp [expandRoutingRuleElement, TfMap.get?_set, TfMap.get?,
        firstNotNil_flatten_redirect, this]
  | some c =>
    have h1 := expand_flatten_condition c (hc c rfl)
    cases r with
    | none =>
      simp [expandRoutingRuleElement, TfMap.get?_set, TfMap.get?, firstNotNil_flatten_condition, h1]
    | some r =>
      have := expand_flatten_redirect r (hr r rfl)
      simp [expandRoutingRuleElement, TfMap.get?_set, TfMap.get?, firstNotNil_flatten_redirect,
        firstNotNil_flatten_condition, this, h1]


/-! ## Round trips between state and API objects -/

/-- Claim C2, counterexample: the state `[{key: ""}]` of `error_document` does
not survive expand followed by flatten: the empty key is dropped and the block
comes back as `[{}]`. -/
theorem error_document_empty_key_not_restored :
    flattenBucketWebsiteConfigurationErrorDocument
        (expandBucketWebsiteConfigurationErrorDocument [.map [("key", .str "")]])
      = [.map []] ∧
    flattenBucketWebsiteConfigurationErrorDocument
        (expandBucketWebsiteConfigurationErrorDocument [.map [("key", .str "")]])
      ≠ [.map [("key", .str "")]] := by
  constructor <;>
  simp [flattenBucketWebsiteConfigurationErrorDocument,
    expandBucketWebsiteConfigurationErrorDocument, nonEmptyStringAt, TfMap.get?, setIfPresent]

/-- Claim C2, amended: the empty list and every one-element list holding the
block's string attribute with a non-empty value is restored by expand followed
by flatten, for `error_document` (attribute `key`) and for `index_document`
(attribute `suffix`). -/
theorem document_round_trip (v : String) (hv : v ≠ "") :
    flattenBucketWebsiteConfigurationErrorDocument
        (expandBucketWebsiteConfigurationErrorDocument []) = [] ∧
    flattenBucketWebsiteConfigurationErrorDocument
        (expandBucketWebsiteConfigurationErrorDocument [.map [("key", .str v)]])
      = [.map [("key", .str v)]] ∧
    flattenBucketWebsiteConfigurationIndexDocument
        (expandBucketWebsiteConfigurationIndexDocument []) = [] ∧
    flattenBucketWebsiteConfigurationIndexDocument
        (expandBucketWebsiteConfigurationIndexDocument [.map [("suffix", .str v)]])
      = [.map [("suffix", .str v)]] := by
  refine ⟨rfl, ?_, rfl, ?_⟩ <;>
  simp [flattenBucketWebsiteConfigurationErrorDocument,
    expandBucketWebsiteConfigurationErrorDocument,
    flattenBucketWebsiteConfigurationIndexDocument,
    expandBucketWebsiteConfigurationIndexDocument,
    nonEmptyStringAt, TfMap.get?, setIfPresent, TfMap.set, hv]

theorem document_round_trip_witness :
    "error.html" ≠ "" ∧
    flattenBucketWebsiteConfigurationErrorDocument
        (expandBucketWebsiteConfigurationErrorDocument [.map [("key", .str "error.html")]])
      = [.map [("key", .str "error.html")]] ∧
    flattenBucketWebsiteConfigurationIndexDocument
        (expandBucketWebsiteConfigurationIndexDocument [.map [("suffix", .str "error.html")]])
      = [.map [("suffix", .str "error.html")]] :=
  ⟨by decide, (document_round_trip "error.html" (by decide)).2.1,
    (document_round_trip "error.html" (by decide)).2.2.2⟩

/-- Claim C3: a list of routing rules in which every present string field of a
condition or redirect is non-empty (the protocol being arbitrary) is restored,
rule by rule and in order, by flatten followed by expand. -/
theorem routing_rules_round_trip (rules : List RoutingRule)
    (h : ∀ rule ∈ rules, rule.stringsNonEmpty) :
    expandBucketWebsiteConfigurationRoutingRules
      (flattenBucketWebsiteConfigurationRoutingRules rules) = rules := by
  induction rules with
  | nil => rfl
  | cons rule rest ih =>
    obtain ⟨m, hm, he⟩ := expand_flatten_rule rule (h rule (List.mem_cons_self _ _))
    have hf : flattenBucketWebsiteConfigurationRoutingRules (rule :: rest) =
        flattenRoutingRuleElement rule :: flattenBucketWebsiteConfigurationRoutingRules rest := rfl
    rw [hf, hm]
    have hx : ∀ l, expandBucketWebsiteConfigurationRoutingRules (.map m :: l) =
        expandRoutingRuleElement m :: expandBucketWebsiteConfigurationRoutingRules l :=
      fun _ => rfl
    rw [hx, he, ih (fun r hr => h r (List.mem_cons_of_mem _ hr))]

theorem routing_rules_round_trip_witness :
    (∀ rule ∈ exampleRoutingRules, rule.stringsNonEmpty) ∧
    expandBucketWebsiteConfigurationRoutingRules
      (flattenBucketWebsiteConfigurationRoutingRules exampleRoutingRules) = exampleRoutingRules :=
  have h : ∀ rule ∈ exampleRoutingRules, rule.stringsNonEmpty := by
    simp [exampleRoutingRules, RoutingRule.stringsNonEmpty, Condition.stringsNonEmpty,
      Redirect.stringsNonEmpty, presentNonEmpty]
  ⟨h, routing_rules_round_trip exampleRoutingRules h⟩

/-- Claim C4: a `redirect_all_requests_to` block with a non-empty host name and
any protocol, the empty one included, is restored by expand followed by
flatten, and the empty list is restored as the empty list. -/
theorem redirect_all_requests_to_round_trip (h p : String) (hh : h ≠ "") :
    flattenBucketWebsiteConfigurationRedirectAllRequestsTo
        (expandBucketWebsiteConfigurationRedirectAllRequestsTo
          [.map [("host_name", .str h), ("protocol", .str p)]])
      = [.map [("host_name", .str h), ("protocol", .str p)]] ∧
    flattenBucketWebsiteConfigurationRedirectAllRequestsTo
        (expandBucketWebsiteConfigurationRedirectAllRequestsTo []) = [] := by
  refine ⟨?_, rfl⟩
  have hlt : keyLt "host_name" "protocol" = true := by decide
  by_cases hp : p = ""
  · subst hp
    simp [flattenBucketWebsiteConfigurationRedirectAllRequestsTo,
      expandBucketWebsiteConfigurationRedirectAllRequestsTo,
      nonEmptyStringAt, TfMap.get?, setIfPresent, TfMap.set, hh, hlt]
  · simp [flattenBucketWebsiteConfigurationRedirectAllRequestsTo,
      expandBucketWebsiteConfigurationRedirectAllRequestsTo,
      nonEmptyStringAt, TfMap.get?, setIfPresent, TfMap.set, hh, hp, hlt]

theorem redirect_all_requests_to_round_trip_witness :
    "example.com" ≠ "" ∧
    flattenBucketWebsiteConfigurationRedirectAllRequestsTo
        (expandBucketWebsiteConfigurationRedirectAllRequestsTo
          [.map [("host_name", .str "example.com"), ("protocol", .str "")]])
      = [.map [("host_name", .str "example.com"), ("protocol", .str "")]] :=
  ⟨by decide, (redirect_all_requests_to_round_trip "example.com" "" (by decide)).1⟩

/-- Claim C5: for a `mutual_tls_authentication` block with non-empty truststore
URI and version, flattening an API object that carries the URI and version
produced by `expandMutualTLSAuthentication` (whatever its warnings) gives the
block back; the empty list expands to no object and no object flattens to no
block. -/
theorem mutual_tls_authentication_round_trip (u v : String) (hu : u ≠ "") (hv : v ≠ "")
    (warnings : List String) :
    (∃ input,
      expandMutualTLSAuthentication
          [.map [("truststore_uri", .str u), ("truststore_version", .str v)]] = some input ∧
      flattenMutualTLSAuthentication
          (some { TruststoreUri := input.TruststoreUri
                  TruststoreVersion := input.TruststoreVersion
                  TruststoreWarnings := warnings })
        = [.map [("truststore_uri", .str u), ("truststore_version", .str v)]]) ∧
    expandMutualTLSAuthentication [] = none ∧
    flattenMutualTLSAuthentication none = [] := by
  refine ⟨⟨_, rfl, ?_⟩, rfl, rfl⟩
  have hlt : keyLt "truststore_version" "truststore_uri" = false := by decide
  simp [flattenMutualTLSAuthentication, TfValue.asMap,
    nonEmptyStringAt, TfMap.get?, setIfPresent, TfMap.set, hu, hv, hlt]

theorem mutual_tls_authentication_round_trip_witness :
    "s3://bucket/truststore.pem" ≠ "" ∧ "1" ≠ "" ∧
    ∃ input,
      expandMutualTLSAuthentication
          [.map [("truststore_uri", .str "s3://bucket/truststore.pem"),
                 ("truststore_version", .str "1")]] = some input ∧
      flattenMutualTLSAuthentication
          (some { TruststoreUri := input.TruststoreUri
                  TruststoreVersion := input.TruststoreVersion
                  TruststoreWarnings := ["expired certificate"] })
        = [.map [("truststore_uri", .str "s3://bucket/truststore.pem"),
                 ("truststore_version", .str "1")]] :=
  ⟨by decide, by decide,
    (mutual_tls_authentication_round_trip "s3://bucket/truststore.pem" "1"
      (by decide) (by decide) ["expired certificate"]).1⟩

/-! ## Update of the domain name: the patch operations -/

theorem ite_append_singleton {α : Type} (c : Prop) [Decidable c] (l : List α) (x : α) :
    (if c then l ++ [x] else l) = l ++ (if c then [x] else []) := by
  split <;> simp

theorem ite_ite_append_singleton {α : Type} (c g : Prop) [Decidable c] [Decidable g]
    (l : List α) (x : α) :
    (if c then (if g then l ++ [x] else l) else l)
      = l ++ (if c then (if g then [x] else []) else []) := by
  split <;> [split; skip] <;> simp

theorem ite_ite_append_either {α : Type} (c g : Prop) [Decidable c] [Decidable g]
    (l : List α) (x y : α) :
    (if c then (if g then l ++ [x] else l ++ [y]) else l)
      = l ++ (if c then (if g then [x] else [y]) else []) := by
  split <;> [split; skip] <;> simp

/-- The shape of the patch list: one optional replace operation per simple
attribute, in source order, with at most one endpoint operation and at most
one mutual TLS operation in between. -/
theorem domainNamePatchOperations_shape (d : ResourceData) :
    ∃ e m : List PatchOperation,
      (e = [] ∨ ∃ v, e = [replaceOperation "/endpointConfiguration/types/0" v]) ∧
      (m = [] ∨
        (m = [replaceOperation "/mutualTlsAuthentication/truststoreUri" ""] ∧
          d.HasChange "mutual_tls_authentication" = true ∧
          firstNotNil (d.Get "mutual_tls_authentication").asList = false) ∨
        ∃ v, m = [replaceOperation "/mutualTlsAuthentication/truststoreVersion" v]) ∧
      domainNamePatchOperations d =
        (if d.HasChange "certificate_arn" = true then
          [replaceOperation "/certificateArn" (d.Get "certificate_arn").asString] else []) ++
        ((if d.HasChange "certificate_name" = true then
          [replaceOperation "/certificateName" (d.Get "certificate_name").asString] else []) ++
        (e ++ (m ++
        ((if d.HasChange "regional_certificate_arn" = true then
          [replaceOperation "/regionalCertificateArn"
            (d.Get "regional_certificate_arn").asString] else []) ++
        ((if d.HasChange "regional_certificate_name" = true then
          [replaceOperation "/regionalCertificateName"
            (d.Get "regional_certificate_name").asString] else []) ++
        (if d.HasChange "security_policy" = true then
          [replaceOperation "/securityPolicy" (d.Get "security_policy").asString]
          else [])))))) := by
  refine ⟨
    if d.HasChange "endpoint_configuration.0.types" = true then
      if ((d.GetOk "endpoint_configuration").2
          && decide ((d.GetOk "endpoint_configuration").1.asList.length > 0)) = true then
        [replaceOperation "/endpointConfiguration/types/0"
          ((((TfMap.get? ((d.GetOk "endpoint_configuration").1.asList.headD .null).asMap
            "types").getD .null).asList.headD .null).asString)]
      else []
    else [],
    if d.HasChange "mutual_tls_authentication" = true then
      if (!firstNotNil (d.Get "mutual_tls_authentication").asList) = true then
        [replaceOperation "/mutualTlsAuthentication/truststoreUri" ""]
      else
        [replaceOperation "/mutualTlsAuthentication/truststoreVersion"
          (((TfMap.get? ((d.Get "mutual_tls_authentication").asList.headD .null).asMap
            "truststore_version").getD .null).asString)]
    else [], ?_, ?_, ?_⟩
  · split
    · split
      · exact Or.inr ⟨_, rfl⟩
      · exact Or.inl rfl
    · exact Or.inl rfl
  · split
    · rename_i h1
      split
      · rename_i h2
        refine Or.inr (Or.inl ⟨rfl, h1, ?_⟩)
        simpa using h2
      · exact Or.inr (Or.inr ⟨_, rfl⟩)
    · exact Or.inl rfl
  · unfold domainNamePatchOperations
    simp -zeta only [ite_append_singleton, ite_ite_append_singleton, ite_ite_append_either]
    simp only [List.nil_append, List.append_assoc]
    by_cases h3 : d.HasChange "endpoint_configuration.0.types" = true <;>
    by_cases h4 : ((d.GetOk "endpoint_configuration").2
          && decide ((d.GetOk "endpoint_configuration").1.asList.length > 0)) = true <;>
    by_cases h5 : d.HasChange "mutual_tls_authentication" = true <;>
    by_cases h6 : (!firstNotNil (d.Get "mutual_tls_authentication").asList) = true <;>
    simp only [h3, h4, h5, h6, if_true, if_false, List.nil_append,
      List.append_nil, List.append_assoc, Bool.false_eq_true]

theorem mem_ite_singleton {α : Type} (c : Prop) [Decidable c] (x y : α) :
    x ∈ (if c then [y] else []) ↔ c ∧ x = y := by
  split <;> simp [*]

theorem ite_singleton_sublist {α : Type} (c : Prop) [Decidable c] (x : α) :
    List.Sublist (if c then [x] else []) [x] := by
  split <;> simp

theorem replaceOperation_eq (p p' v v' : String) :
    replaceOperation p v = replaceOperation p' v' ↔ p = p' ∧ v = v' := by
  simp [replaceOperation]

/-- Every operation of the patch list is a replace operation. -/
theorem domainNamePatchOperations_replace (d : ResourceData) :
    ∀ op ∈ domainNamePatchOperations d, op.Op = some "replace" := by
  obtain ⟨e, m, he, hm, hops⟩ := domainNamePatchOperations_shape d
  intro op hop
  rw [hops] at hop
  simp only [List.mem_append, mem_ite_singleton] at hop
  rcases hop with h | h | h | h | h | h | h
  · rw [h.2]; rfl
  · rw [h.2]; rfl
  · rcases he with he | ⟨v, he⟩
    · rw [he] at h; simp at h
    · rw [he] at h; simp at h; rw [h]; rfl
  · rcases hm with hm | ⟨hm, _⟩ | ⟨v, hm⟩
    · rw [hm] at h; simp at h
    · rw [hm] at h; simp at h; rw [h]; rfl
    · rw [hm] at h; simp at h; rw [h]; rfl
  · rw [h.2]; rfl
  · rw [h.2]; rfl
  · rw [h.2]; rfl

/-- The paths of the patch list, in the order of the source. -/
theorem domainNamePatchOperations_paths (d : ResourceData) :
    List.Sublist ((domainNamePatchOperations d).map (fun op => op.Path))
      [some "/certificateArn", some "/certificateName", some "/endpointConfiguration/types/0",
       some "/mutualTlsAuthentication/truststoreUri",
       some "/mutualTlsAuthentication/truststoreVersion",
       some "/regionalCertificateArn", some "/regionalCertificateName",
       some "/securityPolicy"] := by
  obtain ⟨e, m, he, hm, hops⟩ := domainNamePatchOperations_shape d
  rw [hops]
  simp only [List.map_append]
  have piece : ∀ (c : Prop) [Decidable c] (p v : String),
      List.Sublist ((if c then [replaceOperation p v] else []).map (fun op => op.Path))
        [some p] := by
    intro c _ p v
    split <;> simp [replaceOperation]
  have hE : List.Sublist (e.map (fun op => op.Path))
      [some "/endpointConfiguration/types/0"] := by
    rcases he with he | ⟨v, he⟩ <;> simp [he, replaceOperation]
  have hM : List.Sublist (m.map (fun op => op.Path))
      [some "/mutualTlsAuthentication/truststoreUri",
       some "/mutualTlsAuthentication/truststoreVersion"] := by
    rcases hm with hm | ⟨hm, _⟩ | ⟨v, hm⟩
    · simp [hm]
    · simp [hm, replaceOperation]
    · rw [hm]
      exact List.Sublist.cons _ (by simp [replaceOperation])
  exact (piece _ _ _).append ((piece _ _ _).append (hE.append (hM.append
    ((piece _ _ _).append ((piece _ _ _).append (piece _ _ _))))))

/-- A replace operation for one of the simple attributes is in the patch list
exactly when the attribute changed. -/
theorem domainNamePatchOperations_replaced (d : ResourceData) :
    ∀ p ∈ replacedAttributes,
      (replaceOperation p.2 (d.Get p.1).asString ∈ domainNamePatchOperations d ↔
        d.HasChange p.1 = true) := by
  obtain ⟨e, m, he, hm, hops⟩ := domainNamePatchOperations_shape d
  rw [hops]
  have hE : ∀ p ∈ replacedAttributes, ∀ v, replaceOperation p.2 v ∉ e := by
    intro p hp v
    rcases he with he | ⟨w, he⟩
    · simp [he]
    · simp only [replacedAttributes, List.mem_cons, List.mem_singleton, List.not_mem_nil,
        or_false] at hp
      rcases hp with rfl | rfl | rfl | rfl | rfl <;> simp [he, replaceOperation_eq]
  have hM : ∀ p ∈ replacedAttributes, ∀ v, replaceOperation p.2 v ∉ m := by
    intro p hp v
    simp only [replacedAttributes, List.mem_cons, List.mem_singleton, List.not_mem_nil,
      or_false] at hp
    rcases hm with hm | ⟨hm, _⟩ | ⟨w, hm⟩
    · simp [hm]
    · rcases hp with rfl | rfl | rfl | rfl | rfl <;> simp [hm, replaceOperation_eq]
    · rcases hp with rfl | rfl | rfl | rfl | rfl <;> simp [hm, replaceOperation_eq]
  intro p hp
  have h1 := hE p hp (d.Get p.1).asString
  have h2 := hM p hp (d.Get p.1).asString
  simp only [replacedAttributes, List.mem_cons, List.mem_singleton, List.not_mem_nil,
    or_false] at hp
  rcases hp with rfl | rfl | rfl | rfl | rfl <;>
  simp [List.mem_append, mem_ite_singleton, replaceOperation_eq, h1, h2]

theorem setDomainNameAttributes_calls (client : AWSClient) (d : ResourceData)
    (domainName : DomainName) (calls : List ApiCall) :
    (setDomainNameAttributes client d domainName calls).calls = calls := by
  unfold setDomainNameAttributes
  simp only []
  repeat' split
  all_goals rfl

/-- The requests of `resourceDomainNameRead`: one `GetDomainName` for the ID. -/
theorem resourceDomainNameRead_calls (client : AWSClient) (d : ResourceData)
    (calls : List ApiCall) :
    (resourceDomainNameRead client d calls).calls = calls ++ [ApiCall.GetDomainName d.Id] := by
  unfold resourceDomainNameRead
  simp only []
  split
  · rfl
  · split
    · rfl
    · exact setDomainNameAttributes_calls _ _ _ _
    · rfl

/-- The requests of `resourceDomainNameUpdate`: when anything but the tags
changed, first one `UpdateDomainName` for the ID with the patch list, and no
other `UpdateDomainName`. -/
theorem resourceDomainNameUpdate_calls (client : AWSClient) (d : ResourceData)
    (calls : List ApiCall) :
    ∃ rest, (∀ input, ApiCall.UpdateDomainName input ∉ rest) ∧
      (resourceDomainNameUpdate client d calls).calls =
        calls ++ ((if d.HasChangesExcept ["tags", "tags_all"] = true then
          [ApiCall.UpdateDomainName
            { DomainName := some d.Id, PatchOperations := domainNamePatchOperations d }]
          else []) ++ rest) := by
  unfold resourceDomainNameUpdate
  simp only []
  by_cases hc : d.HasChangesExcept ["tags", "tags_all"] = true
  · simp only [hc, if_true]
    cases hu : client.APIGatewayConn.UpdateDomainNameWithContext calls
        { DomainName := some d.Id, PatchOperations := domainNamePatchOperations d } with
    | some err => exact ⟨[], by simp, by simp⟩
    | none =>
      by_cases ht : d.HasChange "tags_all" = true
      · simp only [ht, if_true]
        cases hq : client.APIGatewayConn.UpdateTags
            (calls ++ [ApiCall.UpdateDomainName
              { DomainName := some d.Id, PatchOperations := domainNamePatchOperations d }])
            (d.Get "arn").asString (d.GetChange "tags_all").1 (d.GetChange "tags_all").2 with
        | some err => exact ⟨[ApiCall.UpdateTags (d.Get "arn").asString (d.GetChange "tags_all").1
          (d.GetChange "tags_all").2], by simp, by simp [hq]⟩
        | none =>
          exact ⟨[ApiCall.UpdateTags (d.Get "arn").asString (d.GetChange "tags_all").1
          (d.GetChange "tags_all").2, ApiCall.GetDomainName d.Id], by simp,
            by simp [hq, resourceDomainNameRead_calls]⟩
      · simp only [ht]
        exact ⟨[ApiCall.GetDomainName d.Id], by simp, by simp [resourceDomainNameRead_calls]⟩
  · simp only [hc]
    by_cases ht : d.HasChange "tags_all" = true
    · simp only [ht, if_true]
      cases hq : client.APIGatewayConn.UpdateTags calls
          (d.Get "arn").asString (d.GetChange "tags_all").1 (d.GetChange "tags_all").2 with
      | some err => exact ⟨[ApiCall.UpdateTags (d.Get "arn").asString (d.GetChange "tags_all").1
          (d.GetChange "tags_all").2], by simp, by simp [hq]⟩
      | none =>
        exact ⟨[ApiCall.UpdateTags (d.Get "arn").asString (d.GetChange "tags_all").1
          (d.GetChange "tags_all").2, ApiCall.GetDomainName d.Id], by simp,
          by simp [hq, resourceDomainNameRead_calls]⟩
    · simp only [ht]
      exact ⟨[ApiCall.GetDomainName d.Id], by simp, by simp [resourceDomainNameRead_calls]⟩

/-- The patch list of every `UpdateDomainName` request that
`resourceDomainNameUpdate` issues is `domainNamePatchOperations`. -/
theorem resourceDomainNameUpdate_sent (client : AWSClient) (d : ResourceData)
    (calls : List ApiCall) (input : UpdateDomainNameInput)
    (hsent : ApiCall.UpdateDomainName input ∈
      (resourceDomainNameUpdate client d calls).issued calls) :
    input.PatchOperations = domainNamePatchOperations d := by
  obtain ⟨rest, hrest, hcalls⟩ := resourceDomainNameUpdate_calls client d calls
  rw [Outcome.issued, hcalls, List.drop_left] at hsent
  rcases List.mem_append.1 hsent with h | h
  · split at h
    · simp at h
      rw [h]
    · simp at h
  · exact absurd h (hrest input)

/-- An operation on the truststore URI is only emitted to remove the
truststore: mutual TLS changed, its new value has no block, and the value sent
is the empty string. -/
theorem domainNamePatchOperations_truststoreUri (d : ResourceData) :
    ∀ op ∈ domainNamePatchOperations d,
      op.Path = some "/mutualTlsAuthentication/truststoreUri" →
        op.Value = some "" ∧ d.HasChange "mutual_tls_authentication" = true ∧
        firstNotNil (d.Get "mutual_tls_authentication").asList = false := by
  obtain ⟨e, m, he, hm, hops⟩ := domainNamePatchOperations_shape d
  intro op hop hpath
  rw [hops] at hop
  simp only [List.mem_append, mem_ite_singleton] at hop
  rcases hop with h | h | h | h | h | h | h
  · rw [h.2] at hpath; simp [replaceOperation] at hpath
  · rw [h.2] at hpath; simp [replaceOperation] at hpath
  · rcases he with he | ⟨v, he⟩
    · rw [he] at h; simp at h
    · rw [he] at h; simp at h; rw [h] at hpath; simp [replaceOperation] at hpath
  · rcases hm with hm | ⟨hm, h1, h2⟩ | ⟨v, hm⟩
    · rw [hm] at h; simp at h
    · rw [hm] at h; simp at h; rw [h]; exact ⟨rfl, h1, h2⟩
    · rw [hm] at h; simp at h; rw [h] at hpath; simp [replaceOperation] at hpath
  · rw [h.2] at hpath; simp [replaceOperation] at hpath
  · rw [h.2] at hpath; simp [replaceOperation] at hpath
  · rw [h.2] at hpath; simp [replaceOperation] at hpath

/-- Claim C6: in every patch list that `resourceDomainNameUpdate` sends to
`UpdateDomainName`, the replace operation carrying the new value of
`certificate_arn`, `certificate_name`, `regional_certificate_arn`,
`regional_certificate_name` or `security_policy` under the attribute's path is
present exactly when that attribute changed; no path occurs twice; and every
operation is a replace operation. -/
theorem update_patch_list (client : AWSClient) (d : ResourceData) (calls : List ApiCall)
    (input : UpdateDomainNameInput)
    (hsent : ApiCall.UpdateDomainName input ∈
      (resourceDomainNameUpdate client d calls).issued calls) :
    (∀ p ∈ replacedAttributes,
      (({ Op := some "replace", Path := some p.2, Value := some (d.Get p.1).asString } :
          PatchOperation) ∈ input.PatchOperations ↔ d.HasChange p.1 = true)) ∧
    (input.PatchOperations.map fun op => op.Path).Nodup ∧
    ∀ op ∈ input.PatchOperations, op.Op = some "replace" := by
  rw [resourceDomainNameUpdate_sent client d calls input hsent]
  refine ⟨domainNamePatchOperations_replaced d, ?_, domainNamePatchOperations_replace d⟩
  exact List.Nodup.sublist (domainNamePatchOperations_paths d) (by decide)

theorem update_patch_list_witness :
    ApiCall.UpdateDomainName certificateChangeRequest ∈
      (resourceDomainNameUpdate exampleClient certificateChange []).issued [] ∧
    ((∀ p ∈ replacedAttributes,
      (({ Op := some "replace", Path := some p.2
          Value := some (certificateChange.Get p.1).asString } : PatchOperation)
        ∈ certificateChangeRequest.PatchOperations ↔ certificateChange.HasChange p.1 = true)) ∧
    (certificateChangeRequest.PatchOperations.map fun op => op.Path).Nodup ∧
    ∀ op ∈ certificateChangeRequest.PatchOperations, op.Op = some "replace") :=
  have h : ApiCall.UpdateDomainName certificateChangeRequest ∈
      (resourceDomainNameUpdate exampleClient certificateChange []).issued [] :=
    List.mem_cons_self _ _
  ⟨h, update_patch_list exampleClient certificateChange [] certificateChangeRequest h⟩

/-- Claim C7, at the failing input: when `ownership_verification_certificate_arn`
alone changes to a new non-empty value, `resourceDomainNameUpdate` sends
`UpdateDomainName` with an empty patch list and then reads the domain name
back; no operation mutates the attribute. -/
theorem update_omits_ownership_verification_certificate :
    ownershipCertificateChange.HasChange "ownership_verification_certificate_arn" = true ∧
    ownershipCertificateChange.Get "ownership_verification_certificate_arn"
      = .str "arn:aws:acm:eu-west-1:123456789012:certificate/new" ∧
    (resourceDomainNameUpdate exampleClient ownershipCertificateChange []).issued [] =
      [ApiCall.UpdateDomainName { DomainName := some "example.com", PatchOperations := [] },
       ApiCall.GetDomainName "example.com"] :=
  ⟨rfl, rfl, rfl⟩

/-- Claim C8, counterexample: removing the `mutual_tls_authentication` block
makes `resourceDomainNameUpdate` send a patch operation on the path of the
`ForceNew` attribute `truststore_uri`. -/
theorem update_patches_truststore_uri :
    "/mutualTlsAuthentication/truststoreUri" ∈ forceNewPaths ∧
    (resourceDomainNameUpdate exampleClient mutualTLSRemoval []).issued [] =
      [ApiCall.UpdateDomainName
        { DomainName := some "example.com"
          PatchOperations :=
            [{ Op := some "replace", Path := some "/mutualTlsAuthentication/truststoreUri"
               Value := some "" }] },
       ApiCall.GetDomainName "example.com"] :=
  ⟨by decide, rfl⟩

/-- Claim C8, amended: no patch list that `resourceDomainNameUpdate` sends has
an operation on `/certificateBody`, `/certificateChain`,
`/certificatePrivateKey` or `/domainName`; an operation on
`/mutualTlsAuthentication/truststoreUri` is sent only when
`mutual_tls_authentication` changed and its new value has no block, and it
replaces the truststore URI by the empty string. -/
theorem update_spares_force_new (client : AWSClient) (d : ResourceData) (calls : List ApiCall)
    (input : UpdateDomainNameInput)
    (hsent : ApiCall.UpdateDomainName input ∈
      (resourceDomainNameUpdate client d calls).issued calls) :
    ∀ op ∈ input.PatchOperations,
      op.Path ≠ some "/certificateBody" ∧ op.Path ≠ some "/certificateChain" ∧
      op.Path ≠ some "/certificatePrivateKey" ∧ op.Path ≠ some "/domainName" ∧
      (op.Path = some "/mutualTlsAuthentication/truststoreUri" →
        op.Value = some "" ∧ d.HasChange "mutual_tls_authentication" = true ∧
        firstNotNil (d.Get "mutual_tls_authentication").asList = false) := by
  rw [resourceDomainNameUpdate_sent client d calls input hsent]
  intro op hop
  have hmem : op.Path ∈ (domainNamePatchOperations d).map (fun op => op.Path) :=
    List.mem_map_of_mem _ hop
  have hin := (domainNamePatchOperations_paths d).subset hmem
  refine ⟨?_, ?_, ?_, ?_, domainNamePatchOperations_truststoreUri d op hop⟩ <;>
  · intro h
    rw [h] at hin
    revert hin
    decide

theorem update_spares_force_new_witness :
    ApiCall.UpdateDomainName
        { DomainName := some "example.com"
          PatchOperations :=
            [{ Op := some "replace", Path := some "/mutualTlsAuthentication/truststoreUri"
               Value := some "" }] } ∈
      (resourceDomainNameUpdate exampleClient mutualTLSRemoval []).issued [] ∧
    ∀ op ∈ [({ Op := some "replace", Path := some "/mutualTlsAuthentication/truststoreUri"
               Value := some "" } : PatchOperation)],
      op.Path ≠ some "/certificateBody" ∧ op.Path ≠ some "/certificateChain" ∧
      op.Path ≠ some "/certificatePrivateKey" ∧ op.Path ≠ some "/domainName" ∧
      (op.Path = some "/mutualTlsAuthentication/truststoreUri" →
        op.Value = some "" ∧ mutualTLSRemoval.HasChange "mutual_tls_authentication" = true ∧
        firstNotNil (mutualTLSRemoval.Get "mutual_tls_authentication").asList = false) :=
  have h : ApiCall.UpdateDomainName
        { DomainName := some "example.com"
          PatchOperations :=
            [{ Op := some "replace", Path := some "/mutualTlsAuthentication/truststoreUri"
               Value := some "" }] } ∈
      (resourceDomainNameUpdate exampleClient mutualTLSRemoval []).issued [] :=
    List.mem_cons_self _ _
  ⟨h, update_spares_force_new exampleClient mutualTLSRemoval [] _ h⟩

/-! ## Create and update: read-back and resource identity -/

theorem Outcome.with_nil_diags (o : Outcome) :
    ({ o with diags := ([] : Diagnostics) ++ o.diags } : Outcome) = o := by
  cases o
  rfl

theorem ResourceData.Set_fst_Id (d : ResourceData) (key : String) (value : TfValue) :
    (d.Set key value).1.Id = d.Id := by
  unfold ResourceData.Set
  split <;> rfl

theorem ResourceData.SetUnchecked_Id (d : ResourceData) (key : String) (value : TfValue) :
    (d.SetUnchecked key value).Id = d.Id :=
  ResourceData.Set_fst_Id d key value

theorem setDomainNameAttributes_Id (client : AWSClient) (d : ResourceData)
    (domainName : DomainName) (calls : List ApiCall) :
    (setDomainNameAttributes client d domainName calls).d.Id = d.Id := by
  unfold setDomainNameAttributes
  simp only []
  repeat' split
  all_goals simp only [ResourceData.Set_fst_Id, ResourceData.SetUnchecked_Id]

theorem setBucketWebsiteEndpoint_Id (client : AWSClient) (d : ResourceData)
    (bucket expectedBucketOwner : String) (calls : List ApiCall) :
    (setBucketWebsiteEndpoint client d bucket expectedBucketOwner calls).d.Id = d.Id := by
  unfold setBucketWebsiteEndpoint
  simp only []
  split <;> simp only [ResourceData.SetUnchecked_Id]

theorem setBucketWebsiteAttributes_Id (client : AWSClient) (d : ResourceData)
    (bucket expectedBucketOwner : String) (output : GetBucketWebsiteOutput)
    (calls : List ApiCall) :
    (setBucketWebsiteAttributes client d bucket expectedBucketOwner output calls).d.Id
      = d.Id := by
  unfold setBucketWebsiteAttributes
  simp only []
  repeat' split
  all_goals
    simp only [setBucketWebsiteEndpoint_Id, ResourceData.Set_fst_Id,
      ResourceData.SetUnchecked_Id]

theorem resourceDomainNameRead_Id_new (client : AWSClient) (d : ResourceData)
    (calls : List ApiCall) (hnew : d.IsNewResource = true) :
    (resourceDomainNameRead client d calls).d.Id = d.Id := by
  unfold resourceDomainNameRead
  simp only [hnew, Bool.not_true, Bool.false_and, Bool.false_eq_true, if_false]
  split
  · rfl
  · exact setDomainNameAttributes_Id _ _ _ _
  · rfl

theorem resourceBucketWebsiteConfigurationRead_Id_new (client : AWSClient) (d : ResourceData)
    (calls : List ApiCall) (hnew : d.IsNewResource = true) :
    (resourceBucketWebsiteConfigurationRead client d calls).d.Id = d.Id := by
  unfold resourceBucketWebsiteConfigurationRead
  simp only [hnew, Bool.not_true, Bool.false_and, Bool.false_eq_true, if_false]
  split
  · rfl
  · split
    · rfl
    · exact setBucketWebsiteAttributes_Id _ _ _ _ _ _
    · rfl

theorem AppendErrorf_HasError (diags : Diagnostics) (message : String) :
    Diagnostics.HasError (AppendErrorf diags message) = true := by
  simp [Diagnostics.HasError, AppendErrorf]

theorem Errorf_HasError (message : String) : Diagnostics.HasError (Errorf message) = true := by
  simp [Diagnostics.HasError, Errorf]

theorem FromErr_HasError (err : GoError) : Diagnostics.HasError (FromErr err) = true := by
  simp [Diagnostics.HasError, FromErr]

/-- Claim C9, counterexample: `resourceBucketWebsiteConfigurationCreate` on a
`routing_rules` text that does not decode returns an error diagnostic without
issuing any request, so no API call fails, and without reading the resource
back: the read-back would have issued requests, and the ID stays unset. -/
theorem create_returns_before_any_request :
    (resourceBucketWebsiteConfigurationCreate exampleClient (websiteData "site" "\x7b\x7d") []).calls
      = [] ∧
    (resourceBucketWebsiteConfigurationCreate exampleClient (websiteData "site" "\x7b\x7d") []).diags
      = [{ Severity := Severity.Error, Summary := "json: cannot unmarshal" }] ∧
    (resourceBucketWebsiteConfigurationCreate exampleClient (websiteData "site" "\x7b\x7d") []).d.Id
      = "" ∧
    (resourceBucketWebsiteConfigurationRead exampleClient
        ((websiteData "site" "\x7b\x7d").SetId "site") []).calls
      = [ApiCall.GetBucketWebsite { Bucket := some "site", ExpectedBucketOwner := none },
         ApiCall.GetBucketLocation { Bucket := some "site", ExpectedBucketOwner := none }] :=
  ⟨rfl, rfl, rfl, rfl⟩

/-- After a successful `CreateDomainName` the create handler is the Read handler run on the new
ID. -/
theorem resourceDomainNameCreate_ok (client : AWSClient) (d : ResourceData) (calls : List ApiCall) :
    ∀ output,
      client.APIGatewayConn.CreateDomainNameWithContext calls (createDomainNameInput client d)
        = .ok output →
      resourceDomainNameCreate client d calls =
        resourceDomainNameRead client (d.SetId (output.DomainName.getD ""))
          (calls ++ [ApiCall.CreateDomainName (createDomainNameInput client d)]) := by
  intro output h
  simp only [resourceDomainNameCreate, h, List.nil_append]

/-- After a failed `CreateDomainName` the create handler stops with an error. -/
theorem resourceDomainNameCreate_error (client : AWSClient) (d : ResourceData)
    (calls : List ApiCall) :
    ∀ err,
      client.APIGatewayConn.CreateDomainNameWithContext calls (createDomainNameInput client d)
        = .error err →
      (resourceDomainNameCreate client d calls).diags.HasError = true ∧
      (resourceDomainNameCreate client d calls).d = d ∧
      (resourceDomainNameCreate client d calls).calls =
        calls ++ [ApiCall.CreateDomainName (createDomainNameInput client d)] := by
  intro err h
  simp only [resourceDomainNameCreate, h, AppendErrorf_HasError, and_self]

/-- When the patch and tagging requests succeed, the update handler is the Read handler run
after them. -/
theorem resourceDomainNameUpdate_ok (client : AWSClient) (d : ResourceData) (calls : List ApiCall) :
    (d.HasChangesExcept ["tags", "tags_all"] = true →
        client.APIGatewayConn.UpdateDomainNameWithContext calls
          { DomainName := some d.Id, PatchOperations := domainNamePatchOperations d } = none) →
      (d.HasChange "tags_all" = true →
        client.APIGatewayConn.UpdateTags (callsAfterPatch d calls) (d.Get "arn").asString
          (d.GetChange "tags_all").1 (d.GetChange "tags_all").2 = none) →
      resourceDomainNameUpdate client d calls =
        resourceDomainNameRead client d
          (if d.HasChange "tags_all" = true then callsAfterPatch d calls ++ [tagsRequest d]
           else callsAfterPatch d calls) := by
  intro hu ht
  unfold resourceDomainNameUpdate
  by_cases hc : d.HasChangesExcept ["tags", "tags_all"] = true
  · by_cases hg : d.HasChange "tags_all" = true
    · have ht' := ht hg
      simp only [callsAfterPatch, hc, if_true] at ht'
      simp only [hc, hu hc, hg, ht', if_true, callsAfterPatch, tagsRequest, List.nil_append]
    · simp only [hc, hu hc, hg, if_true, callsAfterPatch, List.nil_append]
      simp
  · by_cases hg : d.HasChange "tags_all" = true
    · have ht' := ht hg
      simp only [callsAfterPatch, hc, Bool.false_eq_true, if_false] at ht'
      simp only [hc, hg, if_true, callsAfterPatch, tagsRequest, List.nil_append]
      simp [ht']
    · simp only [hc, hg, callsAfterPatch, List.nil_append]
      simp

/-- After a failed `UpdateDomainName` the update handler stops with an error. -/
theorem resourceDomainNameUpdate_patch_error (client : AWSClient) (d : ResourceData)
    (calls : List ApiCall) :
    ∀ err, d.HasChangesExcept ["tags", "tags_all"] = true →
      client.APIGatewayConn.UpdateDomainNameWithContext calls
        { DomainName := some d.Id, PatchOperations := domainNamePatchOperations d } = some err →
      (resourceDomainNameUpdate client d calls).diags.HasError = true ∧
      (resourceDomainNameUpdate client d calls).d = d ∧
      (resourceDomainNameUpdate client d calls).calls = callsAfterPatch d calls := by
  intro err hc h
  simp only [resourceDomainNameUpdate, hc, h, if_true, callsAfterPatch,
    AppendErrorf_HasError, and_self]

/-- After a failed tagging request the update handler stops with an error. -/
theorem resourceDomainNameUpdate_tags_error (client : AWSClient) (d : ResourceData)
    (calls : List ApiCall) :
    ∀ err,
      (d.HasChangesExcept ["tags", "tags_all"] = true →
        client.APIGatewayConn.UpdateDomainNameWithContext calls
          { DomainName := some d.Id, PatchOperations := domainNamePatchOperations d } = none) →
      d.HasChange "tags_all" = true →
      client.APIGatewayConn.UpdateTags (callsAfterPatch d calls) (d.Get "arn").asString
        (d.GetChange "tags_all").1 (d.GetChange "tags_all").2 = some err →
      (resourceDomainNameUpdate client d calls).diags.HasError = true ∧
      (resourceDomainNameUpdate client d calls).d = d ∧
      (resourceDomainNameUpdate client d calls).calls =
        callsAfterPatch d calls ++ [tagsRequest d] := by
  intro err hu hg h
  unfold resourceDomainNameUpdate
  by_cases hc : d.HasChangesExcept ["tags", "tags_all"] = true
  · simp only [callsAfterPatch, hc, if_true] at h
    simp only [hc, hu hc, hg, h, if_true, callsAfterPatch, tagsRequest,
      AppendErrorf_HasError, and_self]
  · simp only [callsAfterPatch, hc, Bool.false_eq_true, if_false] at h
    simp only [hc, hg, if_true, callsAfterPatch, tagsRequest]
    simp [h, AppendErrorf_HasError]

/-- Once `routing_rules` decoded, the s3 create handler is the Read handler run on the new ID
when the retried `PutBucketWebsite` succeeds, and stops with an error when it fails. -/
theorem resourceBucketWebsiteConfigurationCreate_sent (client : AWSClient) (d : ResourceData)
    (calls : List ApiCall) :
    ∀ websiteConfig, createWebsiteConfiguration client d = .ok websiteConfig →
      (∀ output calls',
        client.RetryWhenAWSErrCodeEquals
            (putBucketWebsiteAttempt client.S3Client (createRequest d websiteConfig))
            [errCodeNoSuchBucket] calls = (.ok output, calls') →
        resourceBucketWebsiteConfigurationCreate client d calls =
          resourceBucketWebsiteConfigurationRead client
            (d.SetId (client.CreateResourceID (d.Get "bucket").asString
              (d.Get "expected_bucket_owner").asString)) calls') ∧
      (∀ err calls',
        client.RetryWhenAWSErrCodeEquals
            (putBucketWebsiteAttempt client.S3Client (createRequest d websiteConfig))
            [errCodeNoSuchBucket] calls = (.error err, calls') →
        (resourceBucketWebsiteConfigurationCreate client d calls).diags.HasError = true ∧
        (resourceBucketWebsiteConfigurationCreate client d calls).d = d ∧
        (resourceBucketWebsiteConfigurationCreate client d calls).calls = calls') := by
  intro websiteConfig hcfg
  constructor
  · intro output calls' h
    simp only [createRequest] at h
    simp only [resourceBucketWebsiteConfigurationCreate, hcfg, h]
  · intro err calls' h
    simp only [createRequest] at h
    simp only [resourceBucketWebsiteConfigurationCreate, hcfg, h, Errorf_HasError, and_self]

/-- When `routing_rules` does not decode, the s3 create handler stops with an error before any
request. -/
theorem resourceBucketWebsiteConfigurationCreate_undecoded (client : AWSClient) (d : ResourceData)
    (calls : List ApiCall) :
    ∀ err, createWebsiteConfiguration client d = .error err →
      (resourceBucketWebsiteConfigurationCreate client d calls).diags.HasError = true ∧
      (resourceBucketWebsiteConfigurationCreate client d calls).d = d ∧
      (resourceBucketWebsiteConfigurationCreate client d calls).calls = calls := by
  intro err hcfg
  simp only [resourceBucketWebsiteConfigurationCreate, hcfg, FromErr_HasError, and_self]

/-- Once the ID parsed and `routing_rules` decoded, the s3 update handler is the Read handler
run after a successful `PutBucketWebsite`, and stops with an error after a failed one. -/
theorem resourceBucketWebsiteConfigurationUpdate_sent (client : AWSClient) (d : ResourceData)
    (calls : List ApiCall) :
    ∀ bucket expectedBucketOwner websiteConfig,
      client.ParseResourceID d.Id = .ok (bucket, expectedBucketOwner) →
      updateWebsiteConfiguration client d = .ok websiteConfig →
      (∀ output,
        client.S3Client.PutBucketWebsite calls
          (putBucketWebsiteInput bucket expectedBucketOwner websiteConfig) = .ok output →
        resourceBucketWebsiteConfigurationUpdate client d calls =
          resourceBucketWebsiteConfigurationRead client d
            (calls ++ [ApiCall.PutBucketWebsite
              (putBucketWebsiteInput bucket expectedBucketOwner websiteConfig)])) ∧
      (∀ err,
        client.S3Client.PutBucketWebsite calls
          (putBucketWebsiteInput bucket expectedBucketOwner websiteConfig) = .error err →
        (resourceBucketWebsiteConfigurationUpdate client d calls).diags.HasError = true ∧
        (resourceBucketWebsiteConfigurationUpdate client d calls).d = d ∧
        (resourceBucketWebsiteConfigurationUpdate client d calls).calls =
          calls ++ [ApiCall.PutBucketWebsite
            (putBucketWebsiteInput bucket expectedBucketOwner websiteConfig)]) := by
  intro bucket owner websiteConfig hparse hcfg
  constructor
  · intro output h
    simp only [resourceBucketWebsiteConfigurationUpdate, hparse, hcfg, h]
  · intro err h
    simp only [resourceBucketWebsiteConfigurationUpdate, hparse, hcfg, h, Errorf_HasError,
      and_self]

/-- When the ID does not parse or `routing_rules` does not decode, the s3 update handler stops
with an error before any request. -/
theorem resourceBucketWebsiteConfigurationUpdate_unprepared (client : AWSClient) (d : ResourceData)
    (calls : List ApiCall) :
    (∀ bucket expectedBucketOwner websiteConfig,
        client.ParseResourceID d.Id = .ok (bucket, expectedBucketOwner) →
        updateWebsiteConfiguration client d ≠ .ok websiteConfig) →
      (resourceBucketWebsiteConfigurationUpdate client d calls).diags.HasError = true ∧
      (resourceBucketWebsiteConfigurationUpdate client d calls).d = d ∧
      (resourceBucketWebsiteConfigurationUpdate client d calls).calls = calls := by
  intro h
  unfold resourceBucketWebsiteConfigurationUpdate
  cases hparse : client.ParseResourceID d.Id with
  | error err => simp only [FromErr_HasError, and_self]
  | ok parsed =>
    obtain ⟨bucket, owner⟩ := parsed
    cases hcfg : updateWebsiteConfiguration client d with
    | error err => simp only [FromErr_HasError, and_self]
    | ok websiteConfig => exact absurd hcfg (h bucket owner websiteConfig hparse)

/-- Claim C9, amended: once the local preparation of the handler succeeded (in
the s3 handlers the resource ID parses and `routing_rules` decodes), a handler
whose API calls all succeed ends with one run of the resource's Read handler
on the requests issued so far and returns what Read returns; a handler with a
failing API call (for the s3 create, the retried `PutBucketWebsite`) returns an
error diagnostic, leaves the resource data alone and issues nothing after the
failing call; and when the local preparation fails the handler returns an error
diagnostic without any request. -/
theorem read_back_after_write (client : AWSClient) (d : ResourceData) (calls : List ApiCall) :
    (∀ output,
      client.APIGatewayConn.CreateDomainNameWithContext calls (createDomainNameInput client d)
        = .ok output →
      resourceDomainNameCreate client d calls =
        resourceDomainNameRead client (d.SetId (output.DomainName.getD ""))
          (calls ++ [ApiCall.CreateDomainName (createDomainNameInput client d)])) ∧
    (∀ err,
      client.APIGatewayConn.CreateDomainNameWithContext calls (createDomainNameInput client d)
        = .error err →
      (resourceDomainNameCreate client d calls).diags.HasError = true ∧
      (resourceDomainNameCreate client d calls).d = d ∧
      (resourceDomainNameCreate client d calls).calls =
        calls ++ [ApiCall.CreateDomainName (createDomainNameInput client d)]) ∧
    ((d.HasChangesExcept ["tags", "tags_all"] = true →
        client.APIGatewayConn.UpdateDomainNameWithContext calls
          { DomainName := some d.Id, PatchOperations := domainNamePatchOperations d } = none) →
      (d.HasChange "tags_all" = true →
        client.APIGatewayConn.UpdateTags (callsAfterPatch d calls) (d.Get "arn").asString
          (d.GetChange "tags_all").1 (d.GetChange "tags_all").2 = none) →
      resourceDomainNameUpdate client d calls =
        resourceDomainNameRead client d
          (if d.HasChange "tags_all" = true then callsAfterPatch d calls ++ [tagsRequest d]
           else callsAfterPatch d calls)) ∧
    (∀ err, d.HasChangesExcept ["tags", "tags_all"] = true →
      client.APIGatewayConn.UpdateDomainNameWithContext calls
        { DomainName := some d.Id, PatchOperations := domainNamePatchOperations d } = some err →
      (resourceDomainNameUpdate client d calls).diags.HasError = true ∧
      (resourceDomainNameUpdate client d calls).d = d ∧
      (resourceDomainNameUpdate client d calls).calls = callsAfterPatch d calls) ∧
    (∀ err,
      (d.HasChangesExcept ["tags", "tags_all"] = true →
        client.APIGatewayConn.UpdateDomainNameWithContext calls
          { DomainName := some d.Id, PatchOperations := domainNamePatchOperations d } = none) →
      d.HasChange "tags_all" = true →
      client.APIGatewayConn.UpdateTags (callsAfterPatch d calls) (d.Get "arn").asString
        (d.GetChange "tags_all").1 (d.GetChange "tags_all").2 = some err →
      (resourceDomainNameUpdate client d calls).diags.HasError = true ∧
      (resourceDomainNameUpdate client d calls).d = d ∧
      (resourceDomainNameUpdate client d calls).calls =
        callsAfterPatch d calls ++ [tagsRequest d]) ∧
    (∀ websiteConfig, createWebsiteConfiguration client d = .ok websiteConfig →
      (∀ output calls',
        client.RetryWhenAWSErrCodeEquals
            (putBucketWebsiteAttempt client.S3Client (createRequest d websiteConfig))
            [errCodeNoSuchBucket] calls = (.ok output, calls') →
        resourceBucketWebsiteConfigurationCreate client d calls =
          resourceBucketWebsiteConfigurationRead client
            (d.SetId (client.CreateResourceID (d.Get "bucket").asString
              (d.Get "expected_bucket_owner").asString)) calls') ∧
      (∀ err calls',
        client.RetryWhenAWSErrCodeEquals
            (putBucketWebsiteAttempt client.S3Client (createRequest d websiteConfig))
            [errCodeNoSuchBucket] calls = (.error err, calls') →
        (resourceBucketWebsiteConfigurationCreate client d calls).diags.HasError = true ∧
        (resourceBucketWebsiteConfigurationCreate client d calls).d = d ∧
        (resourceBucketWebsiteConfigurationCreate client d calls).calls = calls')) ∧
    (∀ err, createWebsiteConfiguration client d = .error err →
      (resourceBucketWebsiteConfigurationCreate client d calls).diags.HasError = true ∧
      (resourceBucketWebsiteConfigurationCreate client d calls).d = d ∧
      (resourceBucketWebsiteConfigurationCreate client d calls).calls = calls) ∧
    (∀ bucket expectedBucketOwner websiteConfig,
      client.ParseResourceID d.Id = .ok (bucket, expectedBucketOwner) →
      updateWebsiteConfiguration client d = .ok websiteConfig →
      (∀ output,
        client.S3Client.PutBucketWebsite calls
          (putBucketWebsiteInput bucket expectedBucketOwner websiteConfig) = .ok output →
        resourceBucketWebsiteConfigurationUpdate client d calls =
          resourceBucketWebsiteConfigurationRead client d
            (calls ++ [ApiCall.PutBucketWebsite
              (putBucketWebsiteInput bucket expectedBucketOwner websiteConfig)])) ∧
      (∀ err,
        client.S3Client.PutBucketWebsite calls
          (putBucketWebsiteInput bucket expectedBucketOwner websiteConfig) = .error err →
        (resourceBucketWebsiteConfigurationUpdate client d calls).diags.HasError = true ∧
        (resourceBucketWebsiteConfigurationUpdate client d calls).d = d ∧
        (resourceBucketWebsiteConfigurationUpdate client d calls).calls =
          calls ++ [ApiCall.PutBucketWebsite
            (putBucketWebsiteInput bucket expectedBucketOwner websiteConfig)])) ∧
    ((∀ bucket expectedBucketOwner websiteConfig,
        client.ParseResourceID d.Id = .ok (bucket, expectedBucketOwner) →
        updateWebsiteConfiguration client d ≠ .ok websiteConfig) →
      (resourceBucketWebsiteConfigurationUpdate client d calls).diags.HasError = true ∧
      (resourceBucketWebsiteConfigurationUpdate client d calls).d = d ∧
      (resourceBucketWebsiteConfigurationUpdate client d calls).calls = calls) :=
  ⟨resourceDomainNameCreate_ok client d calls,
   resourceDomainNameCreate_error client d calls,
   resourceDomainNameUpdate_ok client d calls,
   resourceDomainNameUpdate_patch_error client d calls,
   resourceDomainNameUpdate_tags_error client d calls,
   resourceBucketWebsiteConfigurationCreate_sent client d calls,
   resourceBucketWebsiteConfigurationCreate_undecoded client d calls,
   resourceBucketWebsiteConfigurationUpdate_sent client d calls,
   resourceBucketWebsiteConfigurationUpdate_unprepared client d calls⟩

theorem read_back_after_write_witness :
    resourceDomainNameCreate exampleClient newDomain [] =
      resourceDomainNameRead exampleClient (newDomain.SetId "example.com")
        [ApiCall.CreateDomainName (createDomainNameInput exampleClient newDomain)] ∧
    (resourceDomainNameCreate failingClient newDomain []).diags.HasError = true ∧
    resourceDomainNameUpdate exampleClient certificateChange [] =
      resourceDomainNameRead exampleClient certificateChange
        [ApiCall.UpdateDomainName certificateChangeRequest] ∧
    (resourceDomainNameUpdate failingClient certificateChange []).calls =
      [ApiCall.UpdateDomainName certificateChangeRequest] ∧
    (resourceDomainNameUpdate failingClient tagsChange []).diags.HasError = true ∧
    resourceBucketWebsiteConfigurationCreate exampleClient (websiteData "site" "") [] =
      resourceBucketWebsiteConfigurationRead exampleClient ((websiteData "site" "").SetId "site")
        [ApiCall.PutBucketWebsite siteRequest] ∧
    (resourceBucketWebsiteConfigurationCreate failingClient (websiteData "site" "") []).calls =
      [ApiCall.PutBucketWebsite siteRequest] ∧
    (resourceBucketWebsiteConfigurationCreate exampleClient (websiteData "site" "\x7b\x7d") []).calls
      = [] ∧
    resourceBucketWebsiteConfigurationUpdate exampleClient existingWebsite [] =
      resourceBucketWebsiteConfigurationRead exampleClient existingWebsite
        [ApiCall.PutBucketWebsite siteRequest] ∧
    (resourceBucketWebsiteConfigurationUpdate failingClient existingWebsite []).calls =
      [ApiCall.PutBucketWebsite siteRequest] ∧
    (resourceBucketWebsiteConfigurationUpdate exampleClient (exampleData "" false []) []).calls
      = [] :=
  ⟨(read_back_after_write exampleClient newDomain []).1
      (exampleDomainName (some "example.com")) rfl,
   ((read_back_after_write failingClient newDomain []).2.1 _ rfl).1,
   (read_back_after_write exampleClient certificateChange []).2.2.1 (fun _ => rfl) (fun _ => rfl),
   ((read_back_after_write failingClient certificateChange []).2.2.2.1 _ rfl rfl).2.2,
   ((read_back_after_write failingClient tagsChange []).2.2.2.2.1 _
      (fun h => absurd h (by decide)) rfl rfl).1,
   ((read_back_after_write exampleClient (websiteData "site" "") []).2.2.2.2.2.1
      siteRequest.WebsiteConfiguration rfl).1 { ResultMetadata := [] } _ rfl,
   (((read_back_after_write failingClient (websiteData "site" "") []).2.2.2.2.2.1
      siteRequest.WebsiteConfiguration rfl).2 _ _ rfl).2.2,
   ((read_back_after_write exampleClient (websiteData "site" "\x7b\x7d") []).2.2.2.2.2.2.1
      (.other "json: cannot unmarshal") rfl).2.2,
   ((read_back_after_write exampleClient existingWebsite []).2.2.2.2.2.2.2.1 "site" ""
      siteRequest.WebsiteConfiguration rfl rfl).1 { ResultMetadata := [] } rfl,
   (((read_back_after_write failingClient existingWebsite []).2.2.2.2.2.2.2.1 "site" ""
      siteRequest.WebsiteConfiguration rfl rfl).2 _ rfl).2.2,
   ((read_back_after_write exampleClient (exampleData "" false []) []).2.2.2.2.2.2.2.2
      (fun _ _ _ h => by cases h)).2.2⟩

/-- Claim C10, counterexample: the ID that `resourceBucketWebsiteConfigurationCreate`
stores is no identifier of the `PutBucketWebsite` response: no function of the
response gives the ID of every successful create, since two creates answered
alike store the IDs `site-a` and `site-b`. -/
theorem bucket_website_id_not_from_response :
    ¬ ∃ ident : PutBucketWebsiteOutput → String,
      ∀ (d : ResourceData) (websiteConfig : WebsiteConfiguration)
        (output : PutBucketWebsiteOutput) (calls' : List ApiCall),
        createWebsiteConfiguration exampleClient d = .ok websiteConfig →
        exampleClient.RetryWhenAWSErrCodeEquals
            (putBucketWebsiteAttempt exampleClient.S3Client (createRequest d websiteConfig))
            [errCodeNoSuchBucket] [] = (.ok output, calls') →
        (resourceBucketWebsiteConfigurationCreate exampleClient d []).diags.HasError = false →
        (resourceBucketWebsiteConfigurationCreate exampleClient d []).d.Id = ident output := by
  rintro ⟨ident, h⟩
  have a := h (websiteData "site-a" "") _ { ResultMetadata := [] } _ rfl rfl rfl
  have b := h (websiteData "site-b" "") _ { ResultMetadata := [] } _ rfl rfl rfl
  have a' : (resourceBucketWebsiteConfigurationCreate exampleClient
      (websiteData "site-a" "") []).d.Id = "site-a" := rfl
  have b' : (resourceBucketWebsiteConfigurationCreate exampleClient
      (websiteData "site-b" "") []).d.Id = "site-b" := rfl
  rw [a'] at a
  rw [b', ← a] at b
  revert b
  decide

/-- Claim C10, amended: for a create run by the SDK (the resource is marked
new), a run of `resourceDomainNameCreate` without error diagnostic stores as ID
the `DomainName` field of the `CreateDomainName` output, and a run of
`resourceBucketWebsiteConfigurationCreate` without error diagnostic stores the
ID that `CreateResourceID` builds from the configured bucket and expected
bucket owner; when the create call fails the ID is left as it was. -/
theorem create_sets_id (client : AWSClient) (d : ResourceData) (calls : List ApiCall)
    (hnew : d.IsNewResource = true) :
    ((resourceDomainNameCreate client d calls).diags.HasError = false →
      ∃ output,
        client.APIGatewayConn.CreateDomainNameWithContext calls (createDomainNameInput client d)
          = .ok output ∧
        (resourceDomainNameCreate client d calls).d.Id = output.DomainName.getD "") ∧
    (∀ err,
      client.APIGatewayConn.CreateDomainNameWithContext calls (createDomainNameInput client d)
        = .error err →
      (resourceDomainNameCreate client d calls).d.Id = d.Id) ∧
    ((resourceBucketWebsiteConfigurationCreate client d calls).diags.HasError = false →
      ∃ websiteConfig output calls',
        createWebsiteConfiguration client d = .ok websiteConfig ∧
        client.RetryWhenAWSErrCodeEquals
            (putBucketWebsiteAttempt client.S3Client (createRequest d websiteConfig))
            [errCodeNoSuchBucket] calls = (.ok output, calls') ∧
        (resourceBucketWebsiteConfigurationCreate client d calls).d.Id =
          client.CreateResourceID (d.Get "bucket").asString
            (d.Get "expected_bucket_owner").asString) ∧
    (∀ websiteConfig err calls',
      createWebsiteConfiguration client d = .ok websiteConfig →
      client.RetryWhenAWSErrCodeEquals
          (putBucketWebsiteAttempt client.S3Client (createRequest d websiteConfig))
          [errCodeNoSuchBucket] calls = (.error err, calls') →
      (resourceBucketWebsiteConfigurationCreate client d calls).d.Id = d.Id) := by
  refine ⟨?_, ?_, ?_, ?_⟩
  · intro hok
    cases hc : client.APIGatewayConn.CreateDomainNameWithContext calls
        (createDomainNameInput client d) with
    | error err =>
      rw [(resourceDomainNameCreate_error client d calls err hc).1] at hok
      exact absurd hok (by decide)
    | ok output =>
      refine ⟨output, rfl, ?_⟩
      rw [resourceDomainNameCreate_ok client d calls output hc]
      exact resourceDomainNameRead_Id_new client _ _ hnew
  · intro err hc
    rw [(resourceDomainNameCreate_error client d calls err hc).2.1]
  · intro hok
    cases hcfg : createWebsiteConfiguration client d with
    | error err =>
      rw [(resourceBucketWebsiteConfigurationCreate_undecoded client d calls err hcfg).1] at hok
      exact absurd hok (by decide)
    | ok websiteConfig =>
      have hs := resourceBucketWebsiteConfigurationCreate_sent client d calls websiteConfig hcfg
      rcases hr : client.RetryWhenAWSErrCodeEquals
          (putBucketWebsiteAttempt client.S3Client (createRequest d websiteConfig))
          [errCodeNoSuchBucket] calls with ⟨result, calls'⟩
      cases result with
      | error err =>
        rw [(hs.2 err calls' hr).1] at hok
        exact absurd hok (by decide)
      | ok output =>
        refine ⟨websiteConfig, output, calls', rfl, hr, ?_⟩
        rw [hs.1 output calls' hr]
        exact resourceBucketWebsiteConfigurationRead_Id_new client _ _ hnew
  · intro websiteConfig err calls' hcfg hr
    have hs := resourceBucketWebsiteConfigurationCreate_sent client d calls websiteConfig hcfg
    rw [(hs.2 err calls' hr).2.1]

theorem create_sets_id_witness :
    newDomain.IsNewResource = true ∧
    (resourceDomainNameCreate exampleClient newDomain []).diags.HasError = false ∧
    (∃ output,
      exampleClient.APIGatewayConn.CreateDomainNameWithContext []
          (createDomainNameInput exampleClient newDomain) = .ok output ∧
      (resourceDomainNameCreate exampleClient newDomain []).d.Id = output.DomainName.getD "") ∧
    (resourceDomainNameCreate failingClient newDomain []).d.Id = newDomain.Id :=
  ⟨rfl, rfl, (create_sets_id exampleClient newDomain [] rfl).1 rfl,
    (create_sets_id failingClient newDomain [] rfl).2.1 _ rfl⟩

/-! ## Delete and the finder of the domain name -/

/-- Claim C11: `resourceDomainNameDelete` returns an error diagnostic exactly when
`DeleteDomainName` returned an error whose code is not `NotFoundException`; a
`NotFoundException` and a successful call both return empty diagnostics. -/
theorem delete_domain_name_idempotent (client : AWSClient) (d : ResourceData)
    (calls : List ApiCall) :
    ((resourceDomainNameDelete client d calls).diags.HasError = true ↔
      ∃ err, client.APIGatewayConn.DeleteDomainNameWithContext calls d.Id = some err ∧
        ErrCodeEquals (some err) [ErrCodeNotFoundException] = false) ∧
    (ErrCodeEquals (client.APIGatewayConn.DeleteDomainNameWithContext calls d.Id)
        [ErrCodeNotFoundException] = true →
      (resourceDomainNameDelete client d calls).diags = []) ∧
    (client.APIGatewayConn.DeleteDomainNameWithContext calls d.Id = none →
      (resourceDomainNameDelete client d calls).diags = []) := by
  cases hcall : client.APIGatewayConn.DeleteDomainNameWithContext calls d.Id with
  | none => simp [resourceDomainNameDelete, hcall, ErrCodeEquals, Diagnostics.HasError]
  | some err =>
    by_cases hcode : ErrCodeEquals (some err) [ErrCodeNotFoundException] = true
    · simp [resourceDomainNameDelete, hcall, hcode, Diagnostics.HasError]
    · simp [resourceDomainNameDelete, hcall, hcode, Diagnostics.HasError, AppendErrorf]

theorem delete_domain_name_idempotent_witness :
    (resourceDomainNameDelete failingClient (exampleData "example.com" false []) []).diags.HasError
      = true ∧
    (resourceDomainNameDelete goneClient (exampleData "example.com" false []) []).diags = [] ∧
    (resourceDomainNameDelete exampleClient (exampleData "example.com" false []) []).diags = [] :=
  ⟨(delete_domain_name_idempotent failingClient (exampleData "example.com" false []) []).1.2
      ⟨.awserr "BadRequestException" "rejected", rfl, rfl⟩,
   (delete_domain_name_idempotent goneClient (exampleData "example.com" false []) []).2.1 rfl,
   (delete_domain_name_idempotent exampleClient (exampleData "example.com" false []) []).2.2 rfl⟩

/-- Claim C12: `resourceBucketWebsiteConfigurationDelete`, once the ID is parsed,
returns no diagnostics and issues nothing after `DeleteBucketWebsite` when that
call fails with code `NoSuchBucket` or `NoSuchWebsiteConfiguration`; returns an
error diagnostic and issues nothing after the call when it fails with any other
error; and returns an error without any request when the ID does not parse. -/
theorem delete_bucket_website_already_deleted (client : AWSClient) (d : ResourceData)
    (calls : List ApiCall) :
    (∀ bucket expectedBucketOwner,
      client.ParseResourceID d.Id = .ok (bucket, expectedBucketOwner) →
      (ErrCodeEquals
          (client.S3Client.DeleteBucketWebsite calls
            (deleteBucketWebsiteInput bucket expectedBucketOwner))
          [errCodeNoSuchBucket, errCodeNoSuchWebsiteConfiguration] = true →
        (resourceBucketWebsiteConfigurationDelete client d calls).diags = [] ∧
        (resourceBucketWebsiteConfigurationDelete client d calls).calls =
          calls ++ [ApiCall.DeleteBucketWebsite
            (deleteBucketWebsiteInput bucket expectedBucketOwner)]) ∧
      (∀ err,
        client.S3Client.DeleteBucketWebsite calls
          (deleteBucketWebsiteInput bucket expectedBucketOwner) = some err →
        ErrCodeEquals (some err)
          [errCodeNoSuchBucket, errCodeNoSuchWebsiteConfiguration] = false →
        (resourceBucketWebsiteConfigurationDelete client d calls).diags.HasError = true ∧
        (resourceBucketWebsiteConfigurationDelete client d calls).calls =
          calls ++ [ApiCall.DeleteBucketWebsite
            (deleteBucketWebsiteInput bucket expectedBucketOwner)])) ∧
    (∀ err, client.ParseResourceID d.Id = .error err →
      (resourceBucketWebsiteConfigurationDelete client d calls).diags.HasError = true ∧
      (resourceBucketWebsiteConfigurationDelete client d calls).calls = calls) := by
  constructor
  · intro bucket owner hparse
    constructor
    · intro hcode
      simp only [resourceBucketWebsiteConfigurationDelete, hparse, hcode, if_true, and_self]
    · intro err hcall hcode
      simp only [resourceBucketWebsiteConfigurationDelete, hparse, hcall, hcode,
        Bool.false_eq_true, if_false, Errorf_HasError, and_self]
  · intro err hparse
    simp only [resourceBucketWebsiteConfigurationDelete, hparse, FromErr_HasError, and_self]

theorem delete_bucket_website_already_deleted_witness :
    (resourceBucketWebsiteConfigurationDelete goneClient existingWebsite []).diags = [] ∧
    (resourceBucketWebsiteConfigurationDelete goneClient existingWebsite []).calls =
      [ApiCall.DeleteBucketWebsite (deleteBucketWebsiteInput "site" "")] ∧
    (resourceBucketWebsiteConfigurationDelete failingClient existingWebsite []).diags.HasError
      = true ∧
    (resourceBucketWebsiteConfigurationDelete failingClient existingWebsite []).calls =
      [ApiCall.DeleteBucketWebsite (deleteBucketWebsiteInput "site" "")] ∧
    (resourceBucketWebsiteConfigurationDelete exampleClient (exampleData "" false []) []).calls
      = [] :=
  ⟨((delete_bucket_website_already_deleted goneClient existingWebsite []).1 "site" "" rfl).1
      rfl |>.1,
   ((delete_bucket_website_already_deleted goneClient existingWebsite []).1 "site" "" rfl).1
      rfl |>.2,
   ((delete_bucket_website_already_deleted failingClient existingWebsite []).1 "site" ""
      rfl).2 (.awserr "AccessDenied" "rejected") rfl rfl |>.1,
   ((delete_bucket_website_already_deleted failingClient existingWebsite []).1 "site" ""
      rfl).2 (.awserr "AccessDenied" "rejected") rfl rfl |>.2,
   ((delete_bucket_website_already_deleted exampleClient (exampleData "" false []) []).2
      (.other "unexpected format") rfl).2⟩

/-- Claim C13: `FindDomainName` turns an error with code `NotFoundException` into
a `NotFoundError` whose `LastError` is that error, returns any other error
unchanged, turns a nil output with a nil error into an empty-result error, and
otherwise returns the output with a nil error; in every case exactly one of
the returned domain name and the returned error is non-nil. -/
theorem find_domain_name_classifies (conn : APIGateway) (calls : List ApiCall)
    (domainName : String) :
    (∀ err, conn.GetDomainNameWithContext calls domainName = .error err →
      ErrCodeEquals (some err) [ErrCodeNotFoundException] = true →
      FindDomainName conn calls domainName = (none, some (.notFound err))) ∧
    (∀ err, conn.GetDomainNameWithContext calls domainName = .error err →
      ErrCodeEquals (some err) [ErrCodeNotFoundException] = false →
      FindDomainName conn calls domainName = (none, some err)) ∧
    (conn.GetDomainNameWithContext calls domainName = .ok none →
      FindDomainName conn calls domainName = (none, some .emptyResult)) ∧
    (∀ output, conn.GetDomainNameWithContext calls domainName = .ok (some output) →
      FindDomainName conn calls domainName = (some output, none)) ∧
    (((FindDomainName conn calls domainName).1.isSome = true ∧
        (FindDomainName conn calls domainName).2 = none) ∨
      ((FindDomainName conn calls domainName).1 = none ∧
        (FindDomainName conn calls domainName).2.isSome = true)) := by
  refine ⟨?_, ?_, ?_, ?_, ?_⟩
  · intro err h hcode
    simp only [FindDomainName, h, hcode, if_true]
  · intro err h hcode
    simp only [FindDomainName, h, hcode, Bool.false_eq_true, if_false]
  · intro h
    simp only [FindDomainName, h]
  · intro output h
    simp only [FindDomainName, h]
  · cases h : conn.GetDomainNameWithContext calls domainName with
    | error err =>
      by_cases hcode : ErrCodeEquals (some err) [ErrCodeNotFoundException] = true <;>
        simp [FindDomainName, h, hcode]
    | ok output =>
      cases output <;> simp [FindDomainName, h]

theorem find_domain_name_classifies_witness :
    FindDomainName missingClient.APIGatewayConn [] "example.com" =
      (none, some (.notFound
        (.awserr "NotFoundException" "Invalid domain name identifier specified"))) ∧
    FindDomainName failingClient.APIGatewayConn [] "example.com" =
      (none, some (.awserr "BadRequestException" "rejected")) ∧
    FindDomainName exampleClient.APIGatewayConn [] "example.com" =
      (some (exampleDomainName (some "example.com")), none) :=
  ⟨(find_domain_name_classifies missingClient.APIGatewayConn [] "example.com").1 _ rfl rfl,
   (find_domain_name_classifies failingClient.APIGatewayConn [] "example.com").2.1 _ rfl rfl,
   (find_domain_name_classifies exampleClient.APIGatewayConn [] "example.com").2.2.2.1 _ rfl⟩

/-! ## Update of the domain name: endpoint type and mutual TLS -/

/-- The patch list, piece by piece in the order of the source. -/
theorem domainNamePatchOperations_eq (d : ResourceData) :
    domainNamePatchOperations d =
      (if d.HasChange "certificate_arn" = true then
        [replaceOperation "/certificateArn" (d.Get "certificate_arn").asString] else []) ++
      ((if d.HasChange "certificate_name" = true then
        [replaceOperation "/certificateName" (d.Get "certificate_name").asString] else []) ++
      (endpointOperations d ++ (mutualTLSOperations d ++
      ((if d.HasChange "regional_certificate_arn" = true then
        [replaceOperation "/regionalCertificateArn"
          (d.Get "regional_certificate_arn").asString] else []) ++
      ((if d.HasChange "regional_certificate_name" = true then
        [replaceOperation "/regionalCertificateName"
          (d.Get "regional_certificate_name").asString] else []) ++
      (if d.HasChange "security_policy" = true then
        [replaceOperation "/securityPolicy" (d.Get "security_policy").asString]
        else [])))))) := by
  unfold domainNamePatchOperations endpointOperations mutualTLSOperations
  simp -zeta only [ite_append_singleton, ite_ite_append_singleton, ite_ite_append_either]
  simp only [List.nil_append, List.append_assoc]
  by_cases h3 : d.HasChange "endpoint_configuration.0.types" = true <;>
  by_cases h4 : ((d.GetOk "endpoint_configuration").2
        && decide ((d.GetOk "endpoint_configuration").1.asList.length > 0)) = true <;>
  by_cases h5 : d.HasChange "mutual_tls_authentication" = true <;>
  by_cases h6 : (!firstNotNil (d.Get "mutual_tls_authentication").asList) = true <;>
  simp only [h3, h4, h5, h6, if_true, if_false, List.nil_append,
    List.append_nil, List.append_assoc, Bool.false_eq_true]

theorem filter_ite_singleton_of_false {α : Type} (c : Prop) [Decidable c] (x : α)
    (p : α → Bool) (h : p x = false) : (if c then [x] else []).filter p = [] := by
  split <;> simp [h]

theorem endpointOperations_underMutualTLS (d : ResourceData) :
    (endpointOperations d).filter underMutualTLS = [] := by
  unfold endpointOperations
  split
  · exact filter_ite_singleton_of_false _ _ _ rfl
  · rfl

theorem mutualTLSOperations_underMutualTLS (d : ResourceData) :
    (mutualTLSOperations d).filter underMutualTLS = mutualTLSOperations d := by
  unfold mutualTLSOperations
  split
  · split
    · have h : underMutualTLS (replaceOperation "/mutualTlsAuthentication/truststoreUri" "")
          = true := by decide
      simp [h]
    · have h : ∀ v, underMutualTLS
          (replaceOperation "/mutualTlsAuthentication/truststoreVersion" v) = true := by
        intro v; rfl
      simp [h]
  · rfl

theorem mutualTLSOperations_onEndpointType (d : ResourceData) :
    (mutualTLSOperations d).filter onEndpointType = [] := by
  unfold mutualTLSOperations
  split
  · split
    · exact List.filter_eq_nil_iff.2 (by intro a ha; simp at ha; subst ha; simp [onEndpointType, replaceOperation])
    · exact List.filter_eq_nil_iff.2 (by intro a ha; simp at ha; subst ha; simp [onEndpointType, replaceOperation])
  · rfl

theorem endpointOperations_onEndpointType (d : ResourceData) :
    (endpointOperations d).filter onEndpointType = endpointOperations d := by
  unfold endpointOperations
  split
  · split
    · have h : ∀ v, onEndpointType (replaceOperation "/endpointConfiguration/types/0" v)
          = true := by
        intro v; rfl
      simp [h]
    · rfl
  · rfl

/-- The mutual TLS operations of the patch list are those of the mutual TLS
branch. -/
theorem domainNamePatchOperations_underMutualTLS (d : ResourceData) :
    (domainNamePatchOperations d).filter underMutualTLS = mutualTLSOperations d := by
  rw [domainNamePatchOperations_eq]
  simp only [List.filter_append, endpointOperations_underMutualTLS,
    mutualTLSOperations_underMutualTLS]
  rw [filter_ite_singleton_of_false _ _ _ rfl,
    filter_ite_singleton_of_false _ _ _ rfl,
    filter_ite_singleton_of_false _ _ _ rfl,
    filter_ite_singleton_of_false _ _ _ rfl,
    filter_ite_singleton_of_false _ _ _ rfl]
  simp

/-- The operations of the patch list on the endpoint type are those of the
endpoint branch. -/
theorem domainNamePatchOperations_onEndpointType (d : ResourceData) :
    (domainNamePatchOperations d).filter onEndpointType = endpointOperations d := by
  rw [domainNamePatchOperations_eq]
  simp only [List.filter_append, endpointOperations_onEndpointType,
    mutualTLSOperations_onEndpointType]
  rw [filter_ite_singleton_of_false _ _ _ rfl,
    filter_ite_singleton_of_false _ _ _ rfl,
    filter_ite_singleton_of_false _ _ _ rfl,
    filter_ite_singleton_of_false _ _ _ rfl,
    filter_ite_singleton_of_false _ _ _ rfl]
  simp

/-- Claim C16: in every patch list that `resourceDomainNameUpdate` sends, no
operation has the path `/endpointConfiguration/types/0` when
`endpoint_configuration` is unset or an empty list in the new state, whatever
is reported as changed; when it is set and `endpoint_configuration.0.types`
changed, exactly one operation has that path: the replace operation whose value
is the first element of the new types list. -/
theorem endpoint_type_never_removed (client : AWSClient) (d : ResourceData)
    (calls : List ApiCall) (input : UpdateDomainNameInput)
    (hsent : ApiCall.UpdateDomainName input ∈
      (resourceDomainNameUpdate client d calls).issued calls) :
    (((d.GetOk "endpoint_configuration").2 = false ∨
        (d.GetOk "endpoint_configuration").1.asList = []) →
      ∀ op ∈ input.PatchOperations, op.Path ≠ some "/endpointConfiguration/types/0") ∧
    (∀ block rest t ts,
      (d.GetOk "endpoint_configuration").2 = true →
      (d.GetOk "endpoint_configuration").1 = .list (.map block :: rest) →
      TfMap.get? block "types" = some (.list (.str t :: ts)) →
      d.HasChange "endpoint_configuration.0.types" = true →
      input.PatchOperations.filter onEndpointType =
        [{ Op := some "replace", Path := some "/endpointConfiguration/types/0"
           Value := some t }]) := by
  rw [resourceDomainNameUpdate_sent client d calls input hsent]
  constructor
  · intro hunset op hop hpath
    have hmem : op ∈ (domainNamePatchOperations d).filter onEndpointType :=
      List.mem_filter.2 ⟨hop, by simp [onEndpointType, hpath]⟩
    rw [domainNamePatchOperations_onEndpointType] at hmem
    unfold endpointOperations at hmem
    rcases hunset with h | h
    · simp [h] at hmem
    · simp [h] at hmem
  · intro block rest t ts hok hval htypes hchanged
    rw [domainNamePatchOperations_onEndpointType]
    simp [endpointOperations, hchanged, hok, hval, htypes, TfValue.asList, TfValue.asMap,
      TfValue.asString, replaceOperation, OpReplace]

theorem endpoint_type_never_removed_witness :
    ApiCall.UpdateDomainName
        { DomainName := some "example.com"
          PatchOperations :=
            [{ Op := some "replace", Path := some "/endpointConfiguration/types/0"
               Value := some "REGIONAL" }] } ∈
      (resourceDomainNameUpdate exampleClient endpointChange []).issued [] ∧
    [({ Op := some "replace", Path := some "/endpointConfiguration/types/0"
        Value := some "REGIONAL" } : PatchOperation)].filter onEndpointType =
      [{ Op := some "replace", Path := some "/endpointConfiguration/types/0"
         Value := some "REGIONAL" }] ∧
    ∀ op ∈ ([] : List PatchOperation), op.Path ≠ some "/endpointConfiguration/types/0" :=
  have h : ApiCall.UpdateDomainName
        { DomainName := some "example.com"
          PatchOperations :=
            [{ Op := some "replace", Path := some "/endpointConfiguration/types/0"
               Value := some "REGIONAL" }] } ∈
      (resourceDomainNameUpdate exampleClient endpointChange []).issued [] :=
    List.mem_cons_self _ _
  have g : ApiCall.UpdateDomainName { DomainName := some "example.com", PatchOperations := [] } ∈
      (resourceDomainNameUpdate exampleClient ownershipCertificateChange []).issued [] :=
    List.mem_cons_self _ _
  ⟨h,
   (endpoint_type_never_removed exampleClient endpointChange [] _ h).2
     [("types", .list [.str "REGIONAL"])] [] "REGIONAL" [] rfl rfl rfl rfl,
   (endpoint_type_never_removed exampleClient ownershipCertificateChange [] _ g).1
     (Or.inl rfl)⟩

/-- Claim C17: in every patch list that `resourceDomainNameUpdate` sends, the
operations under `/mutualTlsAuthentication` are: when
`mutual_tls_authentication` changed and its new value is an empty list or a
list whose first element is nil, the one operation replacing
`/mutualTlsAuthentication/truststoreUri` by the empty string; when it changed
and its new value has a block, the one operation replacing
`/mutualTlsAuthentication/truststoreVersion` by the block's
`truststore_version`; when it did not change, none. -/
theorem mutual_tls_operations (client : AWSClient) (d : ResourceData)
    (calls : List ApiCall) (input : UpdateDomainNameInput)
    (hsent : ApiCall.UpdateDomainName input ∈
      (resourceDomainNameUpdate client d calls).issued calls) :
    (d.HasChange "mutual_tls_authentication" = true →
      ((d.Get "mutual_tls_authentication").asList = [] ∨
        ∃ rest, (d.Get "mutual_tls_authentication").asList = .null :: rest) →
      input.PatchOperations.filter underMutualTLS =
        [{ Op := some "replace", Path := some "/mutualTlsAuthentication/truststoreUri"
           Value := some "" }]) ∧
    (∀ block rest v,
      d.HasChange "mutual_tls_authentication" = true →
      d.Get "mutual_tls_authentication" = .list (.map block :: rest) →
      TfMap.get? block "truststore_version" = some (.str v) →
      input.PatchOperations.filter underMutualTLS =
        [{ Op := some "replace", Path := some "/mutualTlsAuthentication/truststoreVersion"
           Value := some v }]) ∧
    (d.HasChange "mutual_tls_authentication" = false →
      input.PatchOperations.filter underMutualTLS = []) := by
  rw [resourceDomainNameUpdate_sent client d calls input hsent,
    domainNamePatchOperations_underMutualTLS]
  refine ⟨?_, ?_, ?_⟩
  · intro hchanged hnone
    rcases hnone with h | ⟨rest, h⟩
    · simp [mutualTLSOperations, hchanged, h, firstNotNil, replaceOperation, OpReplace]
    · simp [mutualTLSOperations, hchanged, h, firstNotNil, TfValue.isNil, replaceOperation,
        OpReplace]
  · intro block rest v hchanged hval hversion
    simp [mutualTLSOperations, hchanged, hval, hversion, firstNotNil, TfValue.isNil,
      TfValue.asList, TfValue.asMap, TfValue.asString, replaceOperation, OpReplace]
  · intro hsame
    simp [mutualTLSOperations, hsame]

theorem mutual_tls_operations_witness :
    ApiCall.UpdateDomainName
        { DomainName := some "example.com"
          PatchOperations :=
            [{ Op := some "replace", Path := some "/mutualTlsAuthentication/truststoreVersion"
               Value := some "2" }] } ∈
      (resourceDomainNameUpdate exampleClient truststoreVersionChange []).issued [] ∧
    [({ Op := some "replace", Path := some "/mutualTlsAuthentication/truststoreVersion"
        Value := some "2" } : PatchOperation)].filter underMutualTLS =
      [{ Op := some "replace", Path := some "/mutualTlsAuthentication/truststoreVersion"
         Value := some "2" }] ∧
    [({ Op := some "replace", Path := some "/mutualTlsAuthentication/truststoreUri"
        Value := some "" } : PatchOperation)].filter underMutualTLS =
      [{ Op := some "replace", Path := some "/mutualTlsAuthentication/truststoreUri"
         Value := some "" }] ∧
    ([] : List PatchOperation).filter underMutualTLS = [] :=
  have h : ApiCall.UpdateDomainName
        { DomainName := some "example.com"
          PatchOperations :=
            [{ Op := some "replace", Path := some "/mutualTlsAuthentication/truststoreVersion"
               Value := some "2" }] } ∈
      (resourceDomainNameUpdate exampleClient truststoreVersionChange []).issued [] :=
    List.mem_cons_self _ _
  have g : ApiCall.UpdateDomainName
        { DomainName := some "example.com"
          PatchOperations :=
            [{ Op := some "replace", Path := some "/mutualTlsAuthentication/truststoreUri"
               Value := some "" }] } ∈
      (resourceDomainNameUpdate exampleClient mutualTLSRemoval []).issued [] :=
    List.mem_cons_self _ _
  have k : ApiCall.UpdateDomainName { DomainName := some "example.com", PatchOperations := [] } ∈
      (resourceDomainNameUpdate exampleClient ownershipCertificateChange []).issued [] :=
    List.mem_cons_self _ _
  ⟨h,
   (mutual_tls_operations exampleClient truststoreVersionChange [] _ h).2.1
     [("truststore_uri", .str "s3://bucket/truststore.pem"), ("truststore_version", .str "2")]
     [] "2" rfl rfl rfl,
   (mutual_tls_operations exampleClient mutualTLSRemoval [] _ g).1 rfl (Or.inl rfl),
   (mutual_tls_operations exampleClient ownershipCertificateChange [] _ k).2.2 rfl⟩

/-! ## Update of the website configuration: the routing rules sent -/

theorem setBucketWebsiteEndpoint_calls (client : AWSClient) (d : ResourceData)
    (bucket expectedBucketOwner : String) (calls : List ApiCall) :
    (setBucketWebsiteEndpoint client d bucket expectedBucketOwner calls).calls =
      calls ++ [ApiCall.GetBucketLocation
        { Bucket := some bucket
          ExpectedBucketOwner :=
            if expectedBucketOwner ≠ "" then some expectedBucketOwner else none }] := by
  unfold setBucketWebsiteEndpoint
  simp only []
  split <;> rfl

theorem setBucketWebsiteAttributes_calls (client : AWSClient) (d : ResourceData)
    (bucket expectedBucketOwner : String) (output : GetBucketWebsiteOutput)
    (calls : List ApiCall) :
    ∃ rest, (∀ input, ApiCall.PutBucketWebsite input ∉ rest) ∧
      (setBucketWebsiteAttributes client d bucket expectedBucketOwner output calls).calls =
        calls ++ rest := by
  unfold setBucketWebsiteAttributes
  simp only []
  repeat' split
  all_goals
    first
      | exact ⟨[], by simp, (List.append_nil _).symm⟩
      | exact ⟨[ApiCall.GetBucketLocation
          { Bucket := some bucket
            ExpectedBucketOwner :=
              if expectedBucketOwner ≠ "" then some expectedBucketOwner else none }],
          by simp, setBucketWebsiteEndpoint_calls _ _ _ _ _⟩

/-- The requests of `resourceBucketWebsiteConfigurationRead`: no `PutBucketWebsite`. -/
theorem resourceBucketWebsiteConfigurationRead_calls (client : AWSClient) (d : ResourceData)
    (calls : List ApiCall) :
    ∃ rest, (∀ input, ApiCall.PutBucketWebsite input ∉ rest) ∧
      (resourceBucketWebsiteConfigurationRead client d calls).calls = calls ++ rest := by
  unfold resourceBucketWebsiteConfigurationRead
  simp only []
  split
  · exact ⟨[], by simp, by simp⟩
  · rename_i bucket expectedBucketOwner _
    split
    · exact ⟨[_], by simp, rfl⟩
    · split
      · exact ⟨[_], by simp, rfl⟩
      · rename_i output _
        obtain ⟨rest, hrest, hcalls⟩ := setBucketWebsiteAttributes_calls client d bucket
          expectedBucketOwner output
          (calls ++ [ApiCall.GetBucketWebsite
            { Bucket := some bucket
              ExpectedBucketOwner :=
                if expectedBucketOwner ≠ "" then some expectedBucketOwner else none }])
        refine ⟨ApiCall.GetBucketWebsite
            { Bucket := some bucket
              ExpectedBucketOwner :=
                if expectedBucketOwner ≠ "" then some expectedBucketOwner else none } :: rest,
          ?_, ?_⟩
        · intro input h
          rcases List.mem_cons.1 h with h | h
          · cases h
          · exact hrest input h
        · rw [hcalls]
          simp
      · exact ⟨[_], by simp, rfl⟩

/-- Every `PutBucketWebsite` request that `resourceBucketWebsiteConfigurationUpdate`
issues carries the website configuration built from the resource data. -/
theorem resourceBucketWebsiteConfigurationUpdate_request (client : AWSClient)
    (d : ResourceData) (calls : List ApiCall) (input : PutBucketWebsiteInput)
    (hsent : ApiCall.PutBucketWebsite input ∈
      (resourceBucketWebsiteConfigurationUpdate client d calls).issued calls) :
    updateWebsiteConfiguration client d = .ok input.WebsiteConfiguration := by
  unfold Outcome.issued at hsent
  cases hparse : client.ParseResourceID d.Id with
  | error err =>
    simp [resourceBucketWebsiteConfigurationUpdate, hparse] at hsent
  | ok parsed =>
    obtain ⟨bucket, owner⟩ := parsed
    cases hcfg : updateWebsiteConfiguration client d with
    | error err =>
      simp [resourceBucketWebsiteConfigurationUpdate, hparse, hcfg] at hsent
    | ok websiteConfig =>
      cases hput : client.S3Client.PutBucketWebsite calls
          (putBucketWebsiteInput bucket owner websiteConfig) with
      | error err =>
        simp [resourceBucketWebsiteConfigurationUpdate, hparse, hcfg, hput] at hsent
        rw [hsent]
        rfl
      | ok output =>
        obtain ⟨rest, hrest, hcalls⟩ := resourceBucketWebsiteConfigurationRead_calls client d
          (calls ++ [ApiCall.PutBucketWebsite (putBucketWebsiteInput bucket owner websiteConfig)])
        simp only [resourceBucketWebsiteConfigurationUpdate, hparse, hcfg, hput, hcalls,
          List.append_assoc, List.drop_left] at hsent
        rcases List.mem_append.1 hsent with h | h
        · simp at h
          rw [h]
          rfl
        · exact absurd h (hrest input)

/-- Claim C18: the routing rules of every `PutBucketWebsite` request that
`resourceBucketWebsiteConfigurationUpdate` issues are: when neither
`routing_rule` nor `routing_rules` changed, the rules decoded from the
`routing_rules` text when that attribute is set, otherwise the expansion of
`routing_rule` when it is set with a non-nil first element, otherwise none;
when `routing_rule` changed, the expansion of the new `routing_rule`; when only
`routing_rules` changed, the rules decoded from the new text. -/
theorem update_sends_routing_rules (client : AWSClient) (d : ResourceData)
    (calls : List ApiCall) (input : PutBucketWebsiteInput)
    (hsent : ApiCall.PutBucketWebsite input ∈
      (resourceBucketWebsiteConfigurationUpdate client d calls).issued calls) :
    (d.HasChange "routing_rule" = false → d.HasChange "routing_rules" = false →
      ((d.GetOk "routing_rules").2 = true →
        client.UnmarshalRoutingRules (d.GetOk "routing_rules").1.asString =
          .ok input.WebsiteConfiguration.RoutingRules) ∧
      ((d.GetOk "routing_rules").2 = false →
        (((d.GetOk "routing_rule").2 = true ∧
            firstNotNil (d.GetOk "routing_rule").1.asList = true) →
          input.WebsiteConfiguration.RoutingRules =
            expandBucketWebsiteConfigurationRoutingRules (d.GetOk "routing_rule").1.asList) ∧
        (¬ ((d.GetOk "routing_rule").2 = true ∧
            firstNotNil (d.GetOk "routing_rule").1.asList = true) →
          input.WebsiteConfiguration.RoutingRules = []))) ∧
    (d.HasChange "routing_rule" = true →
      input.WebsiteConfiguration.RoutingRules =
        expandBucketWebsiteConfigurationRoutingRules (d.Get "routing_rule").asList) ∧
    (d.HasChange "routing_rule" = false → d.HasChange "routing_rules" = true →
      client.UnmarshalRoutingRules (d.Get "routing_rules").asString =
        .ok input.WebsiteConfiguration.RoutingRules) := by
  have hcfg := resourceBucketWebsiteConfigurationUpdate_request client d calls input hsent
  unfold updateWebsiteConfiguration at hcfg
  refine ⟨?_, ?_, ?_⟩
  · intro h1 h2
    simp only [h1, h2, Bool.or_self, Bool.false_eq_true, if_false] at hcfg
    constructor
    · intro hset
      simp only [hset, if_true] at hcfg
      cases hdec : client.UnmarshalRoutingRules (d.GetOk "routing_rules").1.asString with
      | error err => simp [hdec] at hcfg
      | ok rules =>
        simp only [hdec, Except.ok.injEq] at hcfg
        rw [← hcfg]
    · intro hunset
      simp only [hunset, Bool.false_eq_true, if_false, Except.ok.injEq] at hcfg
      constructor
      · intro hblock
        rw [← hcfg]
        simp [blockAt, hblock.1, hblock.2]
      · intro hblock
        rw [← hcfg]
        have : blockAt d "routing_rule" = none := by
          unfold blockAt
          split
          · rename_i h
            exact absurd (by simpa using h) hblock
          · rfl
        simp [this, websiteConfigDocuments]
  · intro h1
    simp only [h1, Bool.true_or, if_true, Except.ok.injEq] at hcfg
    rw [← hcfg]
  · intro h1 h2
    simp only [h1, h2, Bool.false_or, if_true, Bool.false_eq_true, if_false] at hcfg
    cases hdec : client.UnmarshalRoutingRules (d.Get "routing_rules").asString with
    | error err => simp [hdec] at hcfg
    | ok rules =>
      simp only [hdec, Except.ok.injEq] at hcfg
      rw [← hcfg]

theorem update_sends_routing_rules_witness :
    ApiCall.PutBucketWebsite siteRequest ∈
      (resourceBucketWebsiteConfigurationUpdate exampleClient routedWebsite []).issued [] ∧
    exampleClient.UnmarshalRoutingRules (routedWebsite.GetOk "routing_rules").1.asString =
      .ok siteRequest.WebsiteConfiguration.RoutingRules ∧
    ApiCall.PutBucketWebsite ruleChangeRequest ∈
      (resourceBucketWebsiteConfigurationUpdate exampleClient ruleChange []).issued [] ∧
    ruleChangeRequest.WebsiteConfiguration.RoutingRules =
      expandBucketWebsiteConfigurationRoutingRules (ruleChange.Get "routing_rule").asList ∧
    ApiCall.PutBucketWebsite siteRequest ∈
      (resourceBucketWebsiteConfigurationUpdate exampleClient existingWebsite []).issued [] ∧
    siteRequest.WebsiteConfiguration.RoutingRules = [] :=
  have h : ApiCall.PutBucketWebsite siteRequest ∈
      (resourceBucketWebsiteConfigurationUpdate exampleClient routedWebsite []).issued [] :=
    List.mem_cons_self _ _
  have g : ApiCall.PutBucketWebsite ruleChangeRequest ∈
      (resourceBucketWebsiteConfigurationUpdate exampleClient ruleChange []).issued [] :=
    List.mem_cons_self _ _
  have k : ApiCall.PutBucketWebsite siteRequest ∈
      (resourceBucketWebsiteConfigurationUpdate exampleClient existingWebsite []).issued [] :=
    List.mem_cons_self _ _
  ⟨h, ((update_sends_routing_rules exampleClient routedWebsite [] siteRequest h).1 rfl rfl).1 rfl,
   g, (update_sends_routing_rules exampleClient ruleChange [] ruleChangeRequest g).2.1 rfl,
   k, (((update_sends_routing_rules exampleClient existingWebsite [] siteRequest k).1
      rfl rfl).2 rfl).2 (by decide)⟩

/-! ## Cleaning of the routing rules document -/

theorem removeNilOrEmptyProtocol_clean (d : TfMap) :
    noNilOrEmptyProtocol (removeNilOrEmptyProtocol d) = true := by
  induction d using removeNilOrEmptyProtocol.induct with
  | case1 => simp [removeNilOrEmptyProtocol, noNilOrEmptyProtocol]
  | case2 k rest ih => simpa [removeNilOrEmptyProtocol] using ih
  | case3 k rest m ihm ih => simp [removeNilOrEmptyProtocol, noNilOrEmptyProtocol, ihm, ih]
  | case4 k rest s h ih => simp [removeNilOrEmptyProtocol, h, ih]
  | case5 k rest s h ih =>
    have h' : ¬ (k = "Protocol" ∧ s = "") := h
    simp only [removeNilOrEmptyProtocol, h', if_false, noNilOrEmptyProtocol, ih, Bool.and_true]
    simp only [Bool.not_eq_true', Bool.and_eq_false_iff, beq_eq_false_iff_ne, ne_eq]
    tauto
  | case6 k rest other h1 h2 h3 ih =>
    cases other with
    | null => exact absurd rfl h1
    | str s => exact absurd rfl (h3 s)
    | map m => exact absurd rfl (h2 m)
    | list l => simp [removeNilOrEmptyProtocol, noNilOrEmptyProtocol, ih]

theorem removeNilOrEmptyProtocol_keys (d : TfMap) :
    List.Sublist ((removeNilOrEmptyProtocol d).map Prod.fst) (d.map Prod.fst) := by
  induction d with
  | nil => simp [removeNilOrEmptyProtocol]
  | cons hd rest ih =>
    obtain ⟨k, v⟩ := hd
    cases v with
    | null =>
      simp only [removeNilOrEmptyProtocol, List.map_cons]
      exact List.Sublist.cons _ ih
    | str s =>
      by_cases h : k = "Protocol" ∧ s = ""
      · simp only [removeNilOrEmptyProtocol, h, and_self, if_true, List.map_cons]
        exact List.Sublist.cons _ ih
      · simp only [removeNilOrEmptyProtocol, h, if_false, List.map_cons]
        exact List.Sublist.cons₂ _ ih
    | list l =>
      simp only [removeNilOrEmptyProtocol, List.map_cons]
      exact List.Sublist.cons₂ _ ih
    | map m =>
      simp only [removeNilOrEmptyProtocol, List.map_cons]
      exact List.Sublist.cons₂ _ ih

theorem TfMap.get?_eq_none_of_not_mem (d : TfMap) (k : String)
    (h : k ∉ d.map Prod.fst) : TfMap.get? d k = none := by
  induction d with
  | nil => rfl
  | cons hd rest ih =>
    obtain ⟨k1, v1⟩ := hd
    simp only [List.map_cons, List.mem_cons, not_or] at h
    simp only [TfMap.get?, h.1, if_false]
    exact ih h.2

theorem TfMap.mem_keys_of_get? (d : TfMap) (k : String) (v : TfValue)
    (h : TfMap.get? d k = some v) : k ∈ d.map Prod.fst := by
  by_contra hk
  rw [TfMap.get?_eq_none_of_not_mem d k hk] at h
  cases h

/-- What `removeNilOrEmptyProtocol` binds a key to, for an object with distinct keys. -/
theorem removeNilOrEmptyProtocol_get? (d : TfMap) (hkeys : (d.map Prod.fst).Nodup)
    (k : String) :
    TfMap.get? (removeNilOrEmptyProtocol d) k =
      match TfMap.get? d k with
      | some v => cleanedValue k v
      | none => none := by
  induction d with
  | nil => simp [removeNilOrEmptyProtocol, TfMap.get?]
  | cons hd rest ih =>
    obtain ⟨k1, v1⟩ := hd
    simp only [List.map_cons, List.nodup_cons] at hkeys
    have ih' := ih hkeys.2
    have hgone : TfMap.get? (removeNilOrEmptyProtocol rest) k1 = none :=
      TfMap.get?_eq_none_of_not_mem _ _
        (fun hmem => hkeys.1 ((removeNilOrEmptyProtocol_keys rest).subset hmem))
    by_cases hk : k = k1
    · subst hk
      cases v1 with
      | null => simp [removeNilOrEmptyProtocol, TfMap.get?, cleanedValue, hgone]
      | str s =>
        by_cases h : k = "Protocol" ∧ s = ""
        · obtain ⟨h1, h2⟩ := h
          subst h1 h2
          simp [removeNilOrEmptyProtocol, TfMap.get?, cleanedValue, hgone]
        · simp [removeNilOrEmptyProtocol, TfMap.get?, cleanedValue, h]
      | list l => simp [removeNilOrEmptyProtocol, TfMap.get?, cleanedValue]
      | map m => simp [removeNilOrEmptyProtocol, TfMap.get?, cleanedValue]
    · cases v1 with
      | null => simp [removeNilOrEmptyProtocol, TfMap.get?, hk, ih']
      | str s =>
        by_cases h : k1 = "Protocol" ∧ s = ""
        · obtain ⟨h1, h2⟩ := h
          subst h1 h2
          simp [removeNilOrEmptyProtocol, TfMap.get?, hk, ih']
        · simp [removeNilOrEmptyProtocol, TfMap.get?, hk, ih', h]
      | list l => simp [removeNilOrEmptyProtocol, TfMap.get?, hk, ih']
      | map m => simp [removeNilOrEmptyProtocol, TfMap.get?, hk, ih']

/-- Claim C19: for every JSON object with distinct keys, the result of
`removeNilOrEmptyProtocol` has, at every level of objects nested through object
values, no key bound to nil and no key `"Protocol"` bound to the empty string;
a key bound to nil and a `"Protocol"` bound to the empty string are dropped;
every other key is kept, bound to the cleaned object when its value is an
object and to the unchanged value otherwise, an empty string under another key
included; and the result has no key that the object lacks. -/
theorem remove_nil_or_empty_protocol (d : TfMap) (hkeys : (d.map Prod.fst).Nodup) :
    noNilOrEmptyProtocol (removeNilOrEmptyProtocol d) = true ∧
    (∀ k, TfMap.get? d k = some .null → TfMap.get? (removeNilOrEmptyProtocol d) k = none) ∧
    (TfMap.get? d "Protocol" = some (.str "") →
      TfMap.get? (removeNilOrEmptyProtocol d) "Protocol" = none) ∧
    (∀ k m, TfMap.get? d k = some (.map m) →
      TfMap.get? (removeNilOrEmptyProtocol d) k = some (.map (removeNilOrEmptyProtocol m))) ∧
    (∀ k s, TfMap.get? d k = some (.str s) → ¬ (k = "Protocol" ∧ s = "") →
      TfMap.get? (removeNilOrEmptyProtocol d) k = some (.str s)) ∧
    (∀ k l, TfMap.get? d k = some (.list l) →
      TfMap.get? (removeNilOrEmptyProtocol d) k = some (.list l)) ∧
    (∀ k, TfMap.get? d k = none → TfMap.get? (removeNilOrEmptyProtocol d) k = none) := by
  refine ⟨removeNilOrEmptyProtocol_clean d, ?_, ?_, ?_, ?_, ?_, ?_⟩
  · intro k h
    rw [removeNilOrEmptyProtocol_get? d hkeys k, h]
    rfl
  · intro h
    rw [removeNilOrEmptyProtocol_get? d hkeys "Protocol", h]
    simp [cleanedValue]
  · intro k m h
    rw [removeNilOrEmptyProtocol_get? d hkeys k, h]
    rfl
  · intro k s h hne
    rw [removeNilOrEmptyProtocol_get? d hkeys k, h]
    simp only [cleanedValue, hne, if_false]
  · intro k l h
    rw [removeNilOrEmptyProtocol_get? d hkeys k, h]
    rfl
  · intro k h
    rw [removeNilOrEmptyProtocol_get? d hkeys k, h]

theorem remove_nil_or_empty_protocol_witness :
    (exampleRuleDocument.map Prod.fst).Nodup ∧
    noNilOrEmptyProtocol (removeNilOrEmptyProtocol exampleRuleDocument) = true ∧
    TfMap.get? (removeNilOrEmptyProtocol exampleRuleDocument) "Condition" = none ∧
    TfMap.get? (removeNilOrEmptyProtocol exampleRuleDocument) "Redirect" =
      some (.map (removeNilOrEmptyProtocol
        [("HostName", .str ""), ("HttpRedirectCode", .null), ("Protocol", .str "")])) ∧
    removeNilOrEmptyProtocol exampleRuleDocument = [("Redirect", .map [("HostName", .str "")])] :=
  have hkeys : (exampleRuleDocument.map Prod.fst).Nodup := by decide
  ⟨hkeys, (remove_nil_or_empty_protocol exampleRuleDocument hkeys).1,
   (remove_nil_or_empty_protocol exampleRuleDocument hkeys).2.1 "Condition" rfl,
   (remove_nil_or_empty_protocol exampleRuleDocument hkeys).2.2.2.1 "Redirect" _ rfl,
   by simp [exampleRuleDocument, removeNilOrEmptyProtocol]⟩

/-! ## C20: the destroy checks -/

/-- The risk-configuration check has no error of its own to return: what it returns is
nil or an error of the finder that `notFound` does not recognise. -/
theorem testAccCheckRiskConfigurationDestroy_error (notFound : GoError → Bool)
    (find : String → Option GoError) (resources : List ResourceState) (err : GoError)
    (h : testAccCheckRiskConfigurationDestroy notFound find resources = some err) :
    ∃ rs ∈ resources, rs.TypeName = "aws_cognito_risk_configuration" ∧ find rs.ID = some err ∧
      notFound err = false := by
  induction resources with
  | nil => simp [testAccCheckRiskConfigurationDestroy] at h
  | cons rs rest ih =>
    unfold testAccCheckRiskConfigurationDestroy at h
    by_cases ht : rs.TypeName = "aws_cognito_risk_configuration"
    · cases hf : find rs.ID with
      | none =>
        simp only [ht, hf, ne_eq, not_true_eq_false, if_false] at h
        obtain ⟨r, hr, h'⟩ := ih h
        exact ⟨r, List.mem_cons_of_mem _ hr, h'⟩
      | some e =>
        simp only [ht, hf, ne_eq, not_true_eq_false, if_false] at h
        by_cases hn : notFound e = true
        · simp only [hn, if_true] at h
          obtain ⟨r, hr, h'⟩ := ih h
          exact ⟨r, List.mem_cons_of_mem _ hr, h'⟩
        · simp only [Bool.not_eq_true] at hn
          simp only [hn, Bool.false_eq_true, if_false, Option.some.injEq] at h
          subst h
          exact ⟨rs, List.mem_cons_self _ _, ht, hf, hn⟩
    · simp only [ne_eq, ht, not_false_eq_true, if_true] at h
      obtain ⟨r, hr, h'⟩ := ih h
      exact ⟨r, List.mem_cons_of_mem _ hr, h'⟩

/-- Claim C20, where the code departs from it: on a state that holds a risk
configuration which the finder still finds, `testAccCheckRiskConfigurationDestroy`
returns nil, whatever `tfresource.NotFound` recognises, while
`testAccCheckResourcePolicyDestroy` returns its "still exists" error on the
state that holds a resource policy which the finder still finds. -/
theorem risk_configuration_destroy_misses_existing (notFound : GoError → Bool) :
    testAccCheckRiskConfigurationDestroy notFound stillExists riskConfigurationState = none ∧
    testAccCheckResourcePolicyDestroy notFound stillExists resourcePolicyState =
      some (.other "CloudWatch Logs Resource Policy still exists: example") := by
  constructor
  · rfl
  · rfl

/-! ## C15: `GetTag` -/

/-- Claim C15: for every identifier and key, when `ListTags` fails `GetTag` returns that
error and no value; when `ListTags` succeeds and the key is among the listed
tags `GetTag` returns the value of the key and a nil error; when `ListTags`
succeeds and the key is not among them `GetTag` returns no value and the
empty-result error, which `NotFound` recognises. -/
theorem get_tag_follows_list_tags (conn : TaggingAPI) (calls : List TagRequest)
    (identifier key : String) :
    (∀ err, (ListTags conn calls identifier).2 = some err →
      GetTag conn calls identifier key = (none, some err)) ∧
    ((ListTags conn calls identifier).2 = none →
      (ListTags conn calls identifier).1.KeyExists key = true →
      GetTag conn calls identifier key =
        ((ListTags conn calls identifier).1.KeyValue key, none)) ∧
    ((ListTags conn calls identifier).2 = none →
      (ListTags conn calls identifier).1.KeyExists key = false →
      GetTag conn calls identifier key = (none, some .emptyResult) ∧
        NotFound .emptyResult = true) := by
  unfold GetTag
  rcases hl : ListTags conn calls identifier with ⟨listTags, _ | e⟩
  · refine ⟨fun err h => by simp at h, fun _ hk => by simp [hk], fun _ hk => ?_⟩
    exact ⟨by simp [hk], rfl⟩
  · refine ⟨fun err h => ?_, fun h => by simp at h, fun h => by simp at h⟩
    simp only [Option.some.injEq] at h
    subst h
    rfl

/-- Witness of C15: one listing in which `env` is listed with its value, `team` is
listed without value and `cost` is not listed, and one listing that fails. -/
theorem get_tag_follows_list_tags_witness :
    GetTag exampleTagging [] "arn:aws:dynamodb:table/example" "env" = (some "prod", none) ∧
    GetTag exampleTagging [] "arn:aws:dynamodb:table/example" "team" = (none, none) ∧
    GetTag exampleTagging [] "arn:aws:dynamodb:table/example" "cost" =
      (none, some .emptyResult) ∧
    GetTag failingTagging [] "arn:aws:dynamodb:table/example" "env" =
      (none, some (.awserr "AccessDeniedException" "rejected")) :=
  ⟨((get_tag_follows_list_tags exampleTagging [] "arn:aws:dynamodb:table/example" "env").2.1
      rfl (by decide)),
    ((get_tag_follows_list_tags exampleTagging [] "arn:aws:dynamodb:table/example" "team").2.1
      rfl (by decide)),
    ((get_tag_follows_list_tags exampleTagging [] "arn:aws:dynamodb:table/example" "cost").2.2
      rfl (by decide)).1,
    ((get_tag_follows_list_tags failingTagging [] "arn:aws:dynamodb:table/example" "env").1
      _ rfl)⟩

/-! ## C14: `UpdateTags` -/

theorem lookupKey_append {β : Type} (a b : List (String × β)) (key : String) :
    lookupKey (a ++ b) key =
      match lookupKey a key with
      | some v => some v
      | none => lookupKey b key := by
  induction a with
  | nil => rfl
  | cons kv rest ih =>
    obtain ⟨k, v⟩ := kv
    by_cases hk : key = k
    · simp [lookupKey, hk]
    · simp [lookupKey, hk, ih]

theorem lookupKey_map_value {β γ : Type} (f : β → γ) (l : List (String × β)) (key : String) :
    lookupKey (l.map fun kv => (kv.1, f kv.2)) key = (lookupKey l key).map f := by
  induction l with
  | nil => rfl
  | cons kv rest ih =>
    obtain ⟨k, v⟩ := kv
    by_cases hk : key = k
    · simp [lookupKey, hk]
    · simp [lookupKey, hk, ih]

theorem lookupKey_filter_key {β : Type} (q : String → Bool) (l : List (String × β))
    (key : String) :
    lookupKey (l.filter fun kv => q kv.1) key = if q key then lookupKey l key else none := by
  induction l with
  | nil => simp [lookupKey]
  | cons kv rest ih =>
    obtain ⟨k, v⟩ := kv
    by_cases hq : q k = true
    · by_cases hk : key = k
      · subst hk
        simp [List.filter_cons, hq, lookupKey]
      · simp [List.filter_cons, hq, lookupKey, hk, ih]
    · by_cases hk : key = k
      · subst hk
        simp [List.filter_cons, hq, ih]
      · simp [List.filter_cons, hq, lookupKey, hk, ih]

theorem lookupKey_eq_none_iff {β : Type} (l : List (String × β)) (key : String) :
    lookupKey l key = none ↔ key ∉ l.map Prod.fst := by
  induction l with
  | nil => simp [lookupKey]
  | cons kv rest ih =>
    obtain ⟨k, v⟩ := kv
    by_cases hk : key = k
    · simp [lookupKey, hk]
    · simp only [lookupKey, hk, if_false, ih, List.map_cons, List.mem_cons, false_or]

theorem lookupKey_of_mem {β : Type} (l : List (String × β)) (h : (l.map Prod.fst).Nodup)
    (kv : String × β) (hmem : kv ∈ l) : lookupKey l kv.1 = some kv.2 := by
  induction l with
  | nil => simp at hmem
  | cons head rest ih =>
    obtain ⟨k, v⟩ := head
    simp only [List.map_cons, List.nodup_cons] at h
    rcases List.mem_cons.mp hmem with heq | hrest
    · subst heq
      simp [lookupKey]
    · have hne : kv.1 ≠ k := by
        intro hk
        exact h.1 (hk ▸ List.mem_map_of_mem Prod.fst hrest)
      simp [lookupKey, hne, ih h.2 hrest]

theorem lookupKey_filter {β : Type} (p : String × β → Bool) (l : List (String × β))
    (h : (l.map Prod.fst).Nodup) (key : String) :
    lookupKey (l.filter p) key =
      match lookupKey l key with
      | some v => if p (key, v) then some v else none
      | none => none := by
  induction l with
  | nil => simp [lookupKey]
  | cons head rest ih =>
    obtain ⟨k, v⟩ := head
    simp only [List.map_cons, List.nodup_cons] at h
    by_cases hk : key = k
    · subst hk
      by_cases hp : p (key, v) = true
      · simp [List.filter_cons, hp, lookupKey]
      · have hnone : lookupKey rest key = none := (lookupKey_eq_none_iff rest key).mpr h.1
        simp [List.filter_cons, hp, lookupKey, ih h.2, hnone]
    · by_cases hp : p (k, v) = true
      · simp [List.filter_cons, hp, lookupKey, hk, ih h.2]
      · simp [List.filter_cons, hp, lookupKey, hk, ih h.2]

theorem IgnoreAWS_eq_self (tags : KeyValueTags) (h : ∀ kv ∈ tags, isAWSKey kv.1 = false) :
    tags.IgnoreAWS = tags := by
  unfold KeyValueTags.IgnoreAWS
  rw [List.filter_eq_self]
  intro kv hkv
  simp [h kv hkv]

theorem Removed_IgnoreAWS (oldTags newTags : KeyValueTags)
    (h : ∀ kv ∈ oldTags, isAWSKey kv.1 = false) :
    (oldTags.Removed newTags).IgnoreAWS = oldTags.Removed newTags :=
  IgnoreAWS_eq_self _ fun kv hkv => h kv (List.mem_of_mem_filter hkv)

theorem Updated_IgnoreAWS (oldTags newTags : KeyValueTags)
    (h : ∀ kv ∈ newTags, isAWSKey kv.1 = false) :
    (oldTags.Updated newTags).IgnoreAWS = oldTags.Updated newTags :=
  IgnoreAWS_eq_self _ fun kv hkv => h kv (List.mem_of_mem_filter hkv)

/-- When `UpdateTags` returns no error, the requests it has issued are the untag
request, when a tag was removed, and then the tag request, when a tag was
added or changed. -/
theorem UpdateTags_issued (conn : TaggingAPI) (calls : List TagRequest) (identifier : String)
    (oldTags newTags : KeyValueTags)
    (h : (UpdateTags conn calls identifier oldTags newTags).1 = none) :
    (UpdateTags conn calls identifier oldTags newTags).2 =
      calls ++ ((if (oldTags.Removed newTags).length > 0 then
          [TagRequest.Untag identifier (oldTags.Removed newTags).IgnoreAWS.Keys] else []) ++
        (if (oldTags.Updated newTags).length > 0 then
          [TagRequest.Tag identifier (Tags (oldTags.Updated newTags).IgnoreAWS)] else [])) := by
  by_cases hr : oldTags.Removed newTags = []
  · by_cases hu : oldTags.Updated newTags = []
    · simp [UpdateTags, hr, hu]
    · cases h2 : conn.TagResourceWithContext calls identifier
          (Tags (oldTags.Updated newTags).IgnoreAWS) with
      | some e => simp [UpdateTags, hr, hu, h2, List.length_pos] at h
      | none => simp [UpdateTags, hr, hu, h2, List.length_pos]
  · cases h1 : conn.UntagResourceWithContext calls identifier
        (oldTags.Removed newTags).IgnoreAWS.Keys with
    | some e => simp [UpdateTags, hr, h1, List.length_pos] at h
    | none =>
      by_cases hu : oldTags.Updated newTags = []
      · simp [UpdateTags, hr, hu, h1, List.length_pos]
      · cases h2 : conn.TagResourceWithContext
            (calls ++ [TagRequest.Untag identifier (oldTags.Removed newTags).IgnoreAWS.Keys])
            identifier (Tags (oldTags.Updated newTags).IgnoreAWS) with
        | some e => simp [UpdateTags, hr, hu, h1, h2, List.length_pos] at h
        | none => simp [UpdateTags, hr, hu, h1, h2, List.length_pos]

theorem applyRequests_untag_tag (identifier : String) (tagKeys : List String)
    (tags carried : List (String × String)) (r u : Prop) [Decidable r] [Decidable u]
    (hr : ¬ r → tagKeys = []) (hu : ¬ u → tags = []) :
    applyRequests ((if r then [TagRequest.Untag identifier tagKeys] else []) ++
        (if u then [TagRequest.Tag identifier tags] else [])) carried =
      tags ++ (carried.filter fun kv => !tagKeys.contains kv.1).filter
        fun kv => (lookupKey tags kv.1).isNone := by
  by_cases h1 : r
  · by_cases h2 : u
    · simp [h1, h2, applyRequests, TagRequest.apply]
    · simp [h1, h2, hu h2, applyRequests, TagRequest.apply, lookupKey]
  · by_cases h2 : u
    · simp [h1, h2, hr h1, applyRequests, TagRequest.apply]
    · simp [h1, h2, hu h2, hr h1, applyRequests, TagRequest.apply, lookupKey]

theorem Updated_lookupKey (oldTags newTags : KeyValueTags)
    (hkeys : (newTags.map Prod.fst).Nodup) (key : String) :
    lookupKey (oldTags.Updated newTags).Map key =
      match lookupKey newTags key with
      | some v => if lookupKey oldTags key = some v then none else some (v.getD "")
      | none => none := by
  unfold KeyValueTags.Map KeyValueTags.Updated
  rw [lookupKey_map_value (fun v : Option String => v.getD ""), lookupKey_filter _ _ hkeys]
  cases hn : lookupKey newTags key with
  | none => rfl
  | some v =>
    by_cases ho : lookupKey oldTags key = some v
    · simp [ho]
    · simp [ho]

theorem Removed_Keys_contains (oldTags newTags : KeyValueTags) (key : String) :
    (oldTags.Removed newTags).Keys.contains key =
      ((lookupKey oldTags key).isSome && (lookupKey newTags key).isNone) := by
  rw [Bool.eq_iff_iff]
  simp [KeyValueTags.Keys, KeyValueTags.Removed, Option.isSome_iff_ne_none,
    lookupKey_eq_none_iff]

/-- The tags carried after the untag and the tag request are the new tags. -/
theorem lookupKey_after_update (oldTags newTags : KeyValueTags)
    (hkeys : (newTags.map Prod.fst).Nodup) (key : String) :
    lookupKey ((oldTags.Updated newTags).Map ++
        (oldTags.Map.filter fun kv => !(oldTags.Removed newTags).Keys.contains kv.1).filter
          fun kv => (lookupKey (oldTags.Updated newTags).Map kv.1).isNone) key =
      lookupKey newTags.Map key := by
  rw [lookupKey_append,
    lookupKey_filter_key (fun k => (lookupKey (oldTags.Updated newTags).Map k).isNone),
    lookupKey_filter_key (fun k => !(oldTags.Removed newTags).Keys.contains k),
    Removed_Keys_contains, Updated_lookupKey _ _ hkeys]
  unfold KeyValueTags.Map
  rw [lookupKey_map_value (fun v : Option String => v.getD ""),
    lookupKey_map_value (fun v : Option String => v.getD "")]
  cases hn : lookupKey newTags key with
  | none =>
    cases ho : lookupKey oldTags key with
    | none => simp
    | some w => simp
  | some v =>
    by_cases ho : lookupKey oldTags key = some v
    · simp [ho]
    · simp [ho]

/-- Claim C14: for all tag maps old and new without keys prefixed `aws:`, when
`UpdateTags` returns no error the requests it has issued are the untag request
for the keys of old absent from new, if there is one, then the tag request
with the entries of new that are absent from old or carry another value, if
there is one; applied in this order to a resource carrying old they leave it
carrying new; and when old and new are the same map no request is issued. -/
theorem update_tags_reaches_new (conn : TaggingAPI) (calls : List TagRequest)
    (identifier : String) (oldTags newTags : KeyValueTags)
    (hkeys : (newTags.map Prod.fst).Nodup)
    (hold : ∀ kv ∈ oldTags, isAWSKey kv.1 = false)
    (hnew : ∀ kv ∈ newTags, isAWSKey kv.1 = false) :
    ((UpdateTags conn calls identifier oldTags newTags).1 = none →
      (UpdateTags conn calls identifier oldTags newTags).2.drop calls.length =
        (if (oldTags.Removed newTags).length > 0 then
          [TagRequest.Untag identifier (oldTags.Removed newTags).Keys] else []) ++
        (if (oldTags.Updated newTags).length > 0 then
          [TagRequest.Tag identifier (oldTags.Updated newTags).Map] else []) ∧
      ∀ key, lookupKey (applyRequests
          ((UpdateTags conn calls identifier oldTags newTags).2.drop calls.length)
          oldTags.Map) key = lookupKey newTags.Map key) ∧
    ((∀ key, lookupKey oldTags key = lookupKey newTags key) →
      UpdateTags conn calls identifier oldTags newTags = (none, calls)) := by
  constructor
  · intro h
    have hissued := UpdateTags_issued conn calls identifier oldTags newTags h
    rw [Removed_IgnoreAWS _ _ hold, Updated_IgnoreAWS _ _ hnew] at hissued
    rw [hissued, List.drop_left]
    refine ⟨rfl, fun key => ?_⟩
    unfold Tags
    rw [applyRequests_untag_tag]
    · exact lookupKey_after_update oldTags newTags hkeys key
    · intro hr
      have : oldTags.Removed newTags = [] := by
        simpa [List.length_pos] using hr
      simp [this, KeyValueTags.Keys]
    · intro hu
      have : oldTags.Updated newTags = [] := by
        simpa [List.length_pos] using hu
      simp [this, KeyValueTags.Map]
  · intro hsame
    have hr : oldTags.Removed newTags = [] := by
      unfold KeyValueTags.Removed
      rw [List.filter_eq_nil_iff]
      intro kv hkv
      have hmem : kv.1 ∈ oldTags.map Prod.fst := List.mem_map_of_mem Prod.fst hkv
      have hsome : lookupKey oldTags kv.1 ≠ none := fun hnone =>
        (lookupKey_eq_none_iff oldTags kv.1).mp hnone hmem
      rw [hsame] at hsome
      simpa using hsome
    have hu : oldTags.Updated newTags = [] := by
      unfold KeyValueTags.Updated
      rw [List.filter_eq_nil_iff]
      intro kv hkv
      simp [hsame, lookupKey_of_mem newTags hkeys kv hkv]
    simp [UpdateTags, hr, hu]

/-- Witness of C14: the table loses `owner`, changes `env`, gains `cost` and keeps
`team`: one untag request and one tag request are issued, after which every
key reads as in the new tags. -/
theorem update_tags_reaches_new_witness :
    (UpdateTags exampleTagging [] "arn:aws:dynamodb:table/example" oldExampleTags
        newExampleTags).2.drop 0 =
      [TagRequest.Untag "arn:aws:dynamodb:table/example" ["owner"],
        TagRequest.Tag "arn:aws:dynamodb:table/example" [("cost", "42"), ("env", "prod")]] ∧
    ∀ key, lookupKey (applyRequests
        ((UpdateTags exampleTagging [] "arn:aws:dynamodb:table/example" oldExampleTags
          newExampleTags).2.drop 0) oldExampleTags.Map) key =
      lookupKey newExampleTags.Map key :=
  (update_tags_reaches_new exampleTagging [] "arn:aws:dynamodb:table/example" oldExampleTags
    newExampleTags (by decide) (by decide) (by decide)).1 rfl

/-! ## C21–C23: the pagers -/

theorem listPages_error {I O : Type} (call : List I → I → Except GoError O)
    (nextToken : O → Option String)
    (setNextToken : I → Option String → I) (fn : PageFn O) (fuel : Nat) (calls : List I)
    (pages : List (O × Bool)) (input : I) (err : GoError)
    (hcall : call calls input = .error err) :
    listPages call nextToken setNextToken fn (fuel + 1) calls pages input =
      ⟨some (some err), [input], []⟩ := by
  simp [listPages, hcall]

theorem listPages_stop {I O : Type} (call : List I → I → Except GoError O)
    (nextToken : O → Option String)
    (setNextToken : I → Option String → I) (fn : PageFn O) (fuel : Nat) (calls : List I)
    (pages : List (O × Bool)) (input : I) (output : O)
    (hcall : call calls input = .ok output)
    (hstop : (!fn pages output (decide ((nextToken output).getD "" = ""))
      || decide ((nextToken output).getD "" = "")) = true) :
    listPages call nextToken setNextToken fn (fuel + 1) calls pages input =
      ⟨some none, [input], [(output, decide ((nextToken output).getD "" = ""))]⟩ := by
  simp only [listPages, hcall]
  rw [if_pos hstop]

theorem listPages_continue {I O : Type} (call : List I → I → Except GoError O)
    (nextToken : O → Option String) (setNextToken : I → Option String → I) (fn : PageFn O)
    (fuel : Nat) (calls : List I) (pages : List (O × Bool)) (input : I) (output : O)
    (hcall : call calls input = .ok output)
    (hmore : (!fn pages output (decide ((nextToken output).getD "" = ""))
      || decide ((nextToken output).getD "" = "")) = false) :
    listPages call nextToken setNextToken fn (fuel + 1) calls pages input =
      ⟨(listPages call nextToken setNextToken fn fuel (calls ++ [input])
          (pages ++ [(output, false)]) (setNextToken input (nextToken output))).returned,
        input :: (listPages call nextToken setNextToken fn fuel (calls ++ [input])
          (pages ++ [(output, false)]) (setNextToken input (nextToken output))).calls,
        (output, false) :: (listPages call nextToken setNextToken fn fuel (calls ++ [input])
          (pages ++ [(output, false)]) (setNextToken input (nextToken output))).invoked⟩ := by
  have hlast : decide ((nextToken output).getD "" = "") = false := by
    cases h : decide ((nextToken output).getD "" = "") with
    | false => rfl
    | true => simp [h] at hmore
  simp only [listPages, hcall]
  rw [if_neg (by simp [hmore])]
  simp only [hlast]

/-- A pager that starts after earlier calls and invocations is the pager of the
service and the callback that have seen them. -/
theorem listPages_shift {I O : Type} (call : List I → I → Except GoError O)
    (nextToken : O → Option String)
    (setNextToken : I → Option String → I) (fn : PageFn O) (before : List I)
    (seen : List (O × Bool)) (fuel : Nat) (calls : List I) (pages : List (O × Bool))
    (input : I) :
    listPages call nextToken setNextToken fn fuel (before ++ calls) (seen ++ pages) input =
      listPages (fun h => call (before ++ h)) nextToken setNextToken
        (fun p => fn (seen ++ p)) fuel calls pages input := by
  induction fuel generalizing calls pages input with
  | zero => rfl
  | succ fuel ih =>
    cases hcall : call (before ++ calls) input with
    | error err => simp [listPages, hcall]
    | ok output =>
      simp only [listPages, hcall]
      rw [List.append_assoc, List.append_assoc, ih]

theorem listPages_calls_nil {I O : Type} (call : List I → I → Except GoError O)
    (nextToken : O → Option String) (setNextToken : I → Option String → I) (fn : PageFn O)
    (fuel : Nat) (calls : List I) (pages : List (O × Bool)) (input : I)
    (h : (listPages call nextToken setNextToken fn fuel calls pages input).calls = []) :
    fuel = 0 := by
  cases fuel with
  | zero => rfl
  | succ fuel =>
    exfalso
    revert h
    cases hcall : call calls input with
    | error err => simp [listPages, hcall]
    | ok output =>
      simp only [listPages, hcall]
      split <;> simp

theorem listPages_cons {I O : Type} (call : List I → I → Except GoError O)
    (nextToken : O → Option String)
    (setNextToken : I → Option String → I) (fn : PageFn O) (fuel : Nat) (input : I)
    (output : O) (hcall : call [] input = .ok output)
    (hmore : (!fn [] output (decide ((nextToken output).getD "" = ""))
      || decide ((nextToken output).getD "" = "")) = false) :
    listPages call nextToken setNextToken fn (fuel + 1) [] [] input =
      ⟨(listPages (fun h => call (input :: h)) nextToken setNextToken
          (fun p => fn ((output, false) :: p)) fuel [] []
          (setNextToken input (nextToken output))).returned,
        input :: (listPages (fun h => call (input :: h)) nextToken setNextToken
          (fun p => fn ((output, false) :: p)) fuel [] []
          (setNextToken input (nextToken output))).calls,
        (output, false) :: (listPages (fun h => call (input :: h)) nextToken setNextToken
          (fun p => fn ((output, false) :: p)) fuel [] []
          (setNextToken input (nextToken output))).invoked⟩ := by
  rw [listPages_continue call nextToken setNextToken fn fuel [] [] input output hcall hmore]
  have hshift := listPages_shift call nextToken setNextToken fn [input] [(output, false)] fuel
    [] [] (setNextToken input (nextToken output))
  simp only [List.append_nil, List.nil_append, List.singleton_append] at hshift ⊢
  rw [hshift]

theorem getD_eq_empty_iff (token : Option String) :
    token.getD "" = "" ↔ (token = none ∨ token = some "") := by
  cases token with
  | none => simp
  | some t => simp

theorem listPages_delivers {I O : Type} (call : List I → I → Except GoError O)
    (nextToken : O → Option String) (setNextToken : I → Option String → I) (fn : PageFn O)
    (fuel : Nat) (input : I) :
    DeliversTokenChain call nextToken setNextToken fn fuel input
      (listPages call nextToken setNextToken fn fuel [] [] input) := by
  induction fuel generalizing call fn input with
  | zero =>
    intro _
    simp [listPages]
  | succ fuel ih =>
    intro hall
    cases hcall : call [] input with
    | error err =>
      rw [listPages_error _ _ _ _ _ _ _ _ err hcall] at hall
      obtain ⟨output, hok⟩ := hall 0 input rfl
      simp [hcall] at hok
    | ok output =>
      cases hstop : (!fn [] output (decide ((nextToken output).getD "" = ""))
          || decide ((nextToken output).getD "" = "")) with
      | true =>
        rw [listPages_stop _ _ _ _ _ _ _ _ output hcall hstop]
        refine ⟨rfl, ?_, ?_, Or.inl rfl⟩
        · intro first h
          simpa using h.symm
        · intro k i page hi hpage
          cases k with
          | succ k => simp at hi
          | zero =>
            simp only [List.getElem?_cons_zero, Option.some.injEq] at hi hpage
            subst hi
            subst hpage
            refine ⟨by simpa using hcall, ?_, ?_, ?_, ?_⟩
            · simp [getD_eq_empty_iff]
            · intro next h
              simp at h
            · intro h
              simp at h
            · intro _
              simpa using hstop
      | false =>
        rw [listPages_cons _ _ _ _ _ _ output hcall hstop] at hall ⊢
        have hlast : decide ((nextToken output).getD "" = "") = false := by
          cases h : decide ((nextToken output).getD "" = "") with
          | false => rfl
          | true => simp [h] at hstop
        have hfn : fn [] output false = true := by
          simpa [hlast] using hstop
        have hrest := ih (fun h => call (input :: h)) (fun p => fn ((output, false) :: p))
          (setNextToken input (nextToken output))
        have hall' : PagerRun.allSucceeded (fun h => call (input :: h))
            (listPages (fun h => call (input :: h)) nextToken setNextToken
              (fun p => fn ((output, false) :: p)) fuel [] []
              (setNextToken input (nextToken output))) := by
          intro k i hi
          have := hall (k + 1) i (by simpa using hi)
          simpa using this
        obtain ⟨hlen, hfirst, hpages, hret⟩ := hrest hall'
        refine ⟨by simp [hlen], ?_, ?_, ?_⟩
        · intro first h
          simpa using h.symm
        · intro k i page hi hpage
          cases k with
          | zero =>
            simp only [List.getElem?_cons_zero, Option.some.injEq] at hi hpage
            subst hi
            subst hpage
            refine ⟨by simpa using hcall, ?_, ?_, ?_, ?_⟩
            · have := getD_eq_empty_iff (nextToken output)
              simp only [decide_eq_false_iff_not] at hlast
              simp [← this, hlast]
            · intro next h
              exact hfirst next (by simpa using h)
            · intro _
              exact ⟨by simpa using hfn, rfl⟩
            · intro h
              have hnil : (listPages (fun h => call (input :: h)) nextToken setNextToken
                  (fun p => fn ((output, false) :: p)) fuel [] []
                  (setNextToken input (nextToken output))).calls = [] := by
                simpa using h.symm
              have hfuel := listPages_calls_nil _ _ _ _ _ _ _ _ hnil
              subst hfuel
              simp [listPages, hfn]
          | succ k =>
            simp only [List.getElem?_cons_succ] at hi hpage
            obtain ⟨h1, h2, h3, h4, h5⟩ := hpages k i page hi hpage
            refine ⟨by simpa using h1, h2, ?_, ?_, ?_⟩
            · intro next h
              exact h3 next (by simpa using h)
            · intro h
              simpa using h4 (by simpa using h)
            · intro h
              simpa using h5 (by simpa using h)
        · rcases hret with h | ⟨h, hfuel⟩
          · exact Or.inl h
          · exact Or.inr ⟨h, by simp [hfuel]⟩

theorem listPages_propagates {I O : Type} (call : List I → I → Except GoError O)
    (nextToken : O → Option String) (setNextToken : I → Option String → I) (fn : PageFn O)
    (fuel : Nat) (input : I) :
    PropagatesError call fn (listPages call nextToken setNextToken fn fuel [] [] input) := by
  induction fuel generalizing call fn input with
  | zero =>
    intro k i err hi
    simp [listPages] at hi
  | succ fuel ih =>
    cases hcall : call [] input with
    | error e =>
      rw [listPages_error _ _ _ _ _ _ _ _ e hcall]
      intro k i err hi herr
      cases k with
      | succ k => simp at hi
      | zero =>
        simp only [List.getElem?_cons_zero, Option.some.injEq] at hi
        subst hi
        simp only [List.take_zero, hcall, Except.error.injEq] at herr
        subst herr
        exact ⟨rfl, rfl, rfl, fun j page h => by simp at h⟩
    | ok output =>
      cases hstop : (!fn [] output (decide ((nextToken output).getD "" = ""))
          || decide ((nextToken output).getD "" = "")) with
      | true =>
        rw [listPages_stop _ _ _ _ _ _ _ _ output hcall hstop]
        intro k i err hi herr
        cases k with
        | succ k => simp at hi
        | zero =>
          simp only [List.getElem?_cons_zero, Option.some.injEq] at hi
          subst hi
          simp [hcall] at herr
      | false =>
        rw [listPages_cons _ _ _ _ _ _ output hcall hstop]
        have hlast : decide ((nextToken output).getD "" = "") = false := by
          cases h : decide ((nextToken output).getD "" = "") with
          | false => rfl
          | true => simp [h] at hstop
        have hfn : fn [] output false = true := by
          simpa [hlast] using hstop
        intro k i err hi herr
        cases k with
        | zero =>
          simp only [List.getElem?_cons_zero, Option.some.injEq] at hi
          subst hi
          simp [hcall] at herr
        | succ k =>
          simp only [List.getElem?_cons_succ, List.take_succ_cons] at hi herr
          obtain ⟨hret, hcalls, hinv, hpages⟩ :=
            ih (fun h => call (input :: h)) (fun p => fn ((output, false) :: p))
              (setNextToken input (nextToken output)) k i err hi herr
          refine ⟨hret, by simp [hcalls], by simp [hinv], ?_⟩
          intro j page hpage
          cases j with
          | zero =>
            simp only [List.getElem?_cons_zero, Option.some.injEq] at hpage
            subst hpage
            exact ⟨⟨input, by simp, by simpa using hcall⟩, by simpa using hfn, rfl⟩
          | succ j =>
            simp only [List.getElem?_cons_succ] at hpage
            obtain ⟨⟨earlier, h1, h2⟩, h3, h4⟩ := hpages j page hpage
            exact ⟨⟨earlier, by simpa using h1, by simpa using h2⟩, by simpa using h3, h4⟩

theorem listPages_calls_le {I O : Type} (call : List I → I → Except GoError O)
    (nextToken : O → Option String) (setNextToken : I → Option String → I) (fn : PageFn O)
    (fuel : Nat) (calls : List I) (pages : List (O × Bool)) (input : I) :
    (listPages call nextToken setNextToken fn fuel calls pages input).calls.length ≤ fuel := by
  induction fuel generalizing calls pages input with
  | zero => simp [listPages]
  | succ fuel ih =>
    cases hcall : call calls input with
    | error e => simp [listPages, hcall]
    | ok output =>
      simp only [listPages, hcall]
      split
      · simp
      · simpa using ih _ _ _

theorem listPages_terminates {I O : Type} (call : List I → I → Except GoError O)
    (nextToken : O → Option String) (setNextToken : I → Option String → I) (fn : PageFn O)
    (n : Nat) (calls : List I) (pages : List (O × Bool)) (input : I)
    (hends : tokenChainEnds call nextToken setNextToken n calls input = true) (fuel : Nat)
    (hfuel : n ≤ fuel) :
    (listPages call nextToken setNextToken fn fuel calls pages input).calls.length ≤ n ∧
    (listPages call nextToken setNextToken fn fuel calls pages input).returned.isSome = true := by
  induction n generalizing calls pages input fuel with
  | zero => simp [tokenChainEnds] at hends
  | succ n ih =>
    cases fuel with
    | zero => omega
    | succ fuel =>
      cases hcall : call calls input with
      | error e => simp [listPages, hcall]
      | ok output =>
        simp only [tokenChainEnds, hcall] at hends
        simp only [listPages, hcall]
        by_cases hlast : (nextToken output).getD "" = ""
        · simp [hlast]
        · simp only [hlast, if_false] at hends
          split
          · simp
          · have := ih (calls ++ [input])
              (pages ++ [(output, decide ((nextToken output).getD "" = ""))])
              (setNextToken input (nextToken output)) hends fuel (by omega)
            exact ⟨by simpa using this.1, this.2⟩

theorem listPages_never_returns {I O : Type} (call : List I → I → Except GoError O)
    (nextToken : O → Option String) (setNextToken : I → Option String → I)
    (hmore : alwaysMore call nextToken) (fuel : Nat) (calls : List I)
    (pages : List (O × Bool)) (input : I) :
    (listPages call nextToken setNextToken (keepGoing O) fuel calls pages input).returned
      = none ∧
    (listPages call nextToken setNextToken (keepGoing O) fuel calls pages input).calls.length
      = fuel := by
  induction fuel generalizing calls pages input with
  | zero => simp [listPages]
  | succ fuel ih =>
    obtain ⟨output, hcall, htoken⟩ := hmore calls input
    simp only [listPages, hcall, keepGoing, htoken, decide_False, Bool.not_true, Bool.or_self,
      Bool.false_eq_true, if_false]
    exact ⟨(ih _ _ _).1, by simp [(ih _ _ _).2]⟩

/-- A pager that has not returned an error has had every API call succeed. -/
theorem listPages_allSucceeded {I O : Type} (call : List I → I → Except GoError O)
    (nextToken : O → Option String) (setNextToken : I → Option String → I) (fn : PageFn O)
    (fuel : Nat) (input : I)
    (h : ∀ err, (listPages call nextToken setNextToken fn fuel [] [] input).returned
      ≠ some (some err)) :
    (listPages call nextToken setNextToken fn fuel [] [] input).allSucceeded call := by
  induction fuel generalizing call fn input with
  | zero =>
    intro k i hi
    simp [listPages] at hi
  | succ fuel ih =>
    cases hcall : call [] input with
    | error e =>
      rw [listPages_error _ _ _ _ _ _ _ _ e hcall] at h
      exact absurd rfl (h e)
    | ok output =>
      cases hstop : (!fn [] output (decide ((nextToken output).getD "" = ""))
          || decide ((nextToken output).getD "" = "")) with
      | true =>
        rw [listPages_stop _ _ _ _ _ _ _ _ output hcall hstop]
        intro k i hi
        cases k with
        | succ k => simp at hi
        | zero =>
          simp only [List.getElem?_cons_zero, Option.some.injEq] at hi
          subst hi
          exact ⟨output, by simpa using hcall⟩
      | false =>
        rw [listPages_cons _ _ _ _ _ _ output hcall hstop] at h ⊢
        intro k i hi
        cases k with
        | zero =>
          simp only [List.getElem?_cons_zero, Option.some.injEq] at hi
          subst hi
          exact ⟨output, by simpa using hcall⟩
        | succ k =>
          simp only [List.getElem?_cons_succ] at hi
          obtain ⟨page, hpage⟩ := ih (fun h => call (input :: h))
            (fun p => fn ((output, false) :: p)) (setNextToken input (nextToken output)) h k i hi
          exact ⟨page, by simpa using hpage⟩

/-- Claim C21: each of `describeCapacityProvidersPages`, `describeQueryDefinitionsPages`
and `describeResourcePoliciesPages` delivers the token chain in order: when
every API call succeeds, `fn` is invoked once per API call, in call order, on
the page that answers the call; the first call has the initial input and each
later call the input of the call before it with `NextToken` set to the token of
its page; `lastPage` is true exactly when the page has a nil or empty
`NextToken`; the loop goes on only after `fn` returned true on a page that was
not the last, and after the first page on which `fn` returned false or
`lastPage` was true the pager has returned nil. -/
theorem pagers_deliver_token_chain (ecs : ECS) (logs : CloudWatchLogsAPI) (fuel : Nat)
    (capacityProviders : DescribeCapacityProvidersInput)
    (queryDefinitions : DescribeQueryDefinitionsInput)
    (resourcePolicies : DescribeResourcePoliciesInput)
    (fn1 : PageFn DescribeCapacityProvidersOutput) (fn2 : PageFn DescribeQueryDefinitionsOutput)
    (fn3 : PageFn DescribeResourcePoliciesOutput) :
    DeliversTokenChain ecs.DescribeCapacityProvidersWithContext (fun output => output.NextToken)
      (fun input token => { input with NextToken := token }) fn1 fuel capacityProviders
      (describeCapacityProvidersPages ecs fuel capacityProviders fn1) ∧
    DeliversTokenChain logs.DescribeQueryDefinitionsWithContext (fun output => output.NextToken)
      (fun input token => { input with NextToken := token }) fn2 fuel queryDefinitions
      (describeQueryDefinitionsPages logs fuel queryDefinitions fn2) ∧
    DeliversTokenChain logs.DescribeResourcePoliciesWithContext (fun output => output.NextToken)
      (fun input token => { input with NextToken := token }) fn3 fuel resourcePolicies
      (describeResourcePoliciesPages logs fuel resourcePolicies fn3) :=
  ⟨listPages_delivers _ _ _ _ _ _, listPages_delivers _ _ _ _ _ _,
    listPages_delivers _ _ _ _ _ _⟩

/-- Witness of C21: over the three pages of `pagedECS` every call succeeds, `fn` is
invoked once per call and the pager has returned nil. -/
theorem pagers_deliver_token_chain_witness :
    (describeCapacityProvidersPages pagedECS 5 firstCapacityProviders
      (keepGoing DescribeCapacityProvidersOutput)).allSucceeded
        pagedECS.DescribeCapacityProvidersWithContext ∧
    (describeCapacityProvidersPages pagedECS 5 firstCapacityProviders
      (keepGoing DescribeCapacityProvidersOutput)).calls.length = 3 ∧
    (describeCapacityProvidersPages pagedECS 5 firstCapacityProviders
      (keepGoing DescribeCapacityProvidersOutput)).invoked.length =
      (describeCapacityProvidersPages pagedECS 5 firstCapacityProviders
        (keepGoing DescribeCapacityProvidersOutput)).calls.length ∧
    (describeCapacityProvidersPages pagedECS 5 firstCapacityProviders
      (keepGoing DescribeCapacityProvidersOutput)).returned = some none := by
  have hall : (describeCapacityProvidersPages pagedECS 5 firstCapacityProviders
      (keepGoing DescribeCapacityProvidersOutput)).allSucceeded
        pagedECS.DescribeCapacityProvidersWithContext :=
    listPages_allSucceeded _ _ _ _ _ _ fun err h => by
      have hret : (describeCapacityProvidersPages pagedECS 5 firstCapacityProviders
          (keepGoing DescribeCapacityProvidersOutput)).returned = some none := by decide
      have := hret.symm.trans h
      simp at this
  exact ⟨hall, by decide,
    ((pagers_deliver_token_chain pagedECS pagedLogs 5 firstCapacityProviders
      firstQueryDefinitions firstResourcePolicies (keepGoing _) (keepGoing _)
      (keepGoing _)).1 hall).1, by decide⟩

/-- Claim C22: in each of the three pagers, when a call of the run returned an error
it is the last call of the run, the pager has returned exactly that error, and
`fn` was invoked once for each earlier call and not for the failing one: on the
page of that call, returning true on a page that was not the last. -/
theorem pagers_propagate_error (ecs : ECS) (logs : CloudWatchLogsAPI) (fuel : Nat)
    (capacityProviders : DescribeCapacityProvidersInput)
    (queryDefinitions : DescribeQueryDefinitionsInput)
    (resourcePolicies : DescribeResourcePoliciesInput)
    (fn1 : PageFn DescribeCapacityProvidersOutput) (fn2 : PageFn DescribeQueryDefinitionsOutput)
    (fn3 : PageFn DescribeResourcePoliciesOutput) :
    PropagatesError ecs.DescribeCapacityProvidersWithContext fn1
      (describeCapacityProvidersPages ecs fuel capacityProviders fn1) ∧
    PropagatesError logs.DescribeQueryDefinitionsWithContext fn2
      (describeQueryDefinitionsPages logs fuel queryDefinitions fn2) ∧
    PropagatesError logs.DescribeResourcePoliciesWithContext fn3
      (describeResourcePoliciesPages logs fuel resourcePolicies fn3) :=
  ⟨listPages_propagates _ _ _ _ _ _, listPages_propagates _ _ _ _ _ _,
    listPages_propagates _ _ _ _ _ _⟩

/-- Witness of C22: the second call to `brokenECS` fails; the pager has returned that
error after two calls and one invocation of `fn`. -/
theorem pagers_propagate_error_witness :
    (describeCapacityProvidersPages brokenECS 5 firstCapacityProviders
      (keepGoing DescribeCapacityProvidersOutput)).returned =
      some (some (.awserr "ServerException" "internal failure")) ∧
    (describeCapacityProvidersPages brokenECS 5 firstCapacityProviders
      (keepGoing DescribeCapacityProvidersOutput)).calls.length = 1 + 1 ∧
    (describeCapacityProvidersPages brokenECS 5 firstCapacityProviders
      (keepGoing DescribeCapacityProvidersOutput)).invoked.length = 1 :=
  have h := (pagers_propagate_error brokenECS brokenLogs 5 firstCapacityProviders
    firstQueryDefinitions firstResourcePolicies (keepGoing _) (keepGoing _) (keepGoing _)).1
    1 { firstCapacityProviders with NextToken := some "t1" }
    (.awserr "ServerException" "internal failure") (by decide) rfl
  ⟨h.1, h.2.1, h.2.2.1⟩

/-- Claim C23: for each of the three pagers, when the token chain from the initial
input reaches within `n` calls a response that is an error or has a nil or
empty `NextToken`, the pager makes at most `n` API calls and has returned
after `n` iterations, whatever `fn` returns; and against a service that always
answers with a non-empty `NextToken`, such as `endlessECS` and `endlessLogs`,
with an `fn` that always returns true the pager never returns. -/
theorem pagers_terminate (ecs : ECS) (logs : CloudWatchLogsAPI)
    (capacityProviders : DescribeCapacityProvidersInput)
    (queryDefinitions : DescribeQueryDefinitionsInput)
    (resourcePolicies : DescribeResourcePoliciesInput) :
    (TerminatesWithin ecs.DescribeCapacityProvidersWithContext (fun output => output.NextToken)
        (fun input token => { input with NextToken := token }) capacityProviders
        (fun fuel fn => describeCapacityProvidersPages ecs fuel capacityProviders fn) ∧
      TerminatesWithin logs.DescribeQueryDefinitionsWithContext (fun output => output.NextToken)
        (fun input token => { input with NextToken := token }) queryDefinitions
        (fun fuel fn => describeQueryDefinitionsPages logs fuel queryDefinitions fn) ∧
      TerminatesWithin logs.DescribeResourcePoliciesWithContext (fun output => output.NextToken)
        (fun input token => { input with NextToken := token }) resourcePolicies
        (fun fuel fn => describeResourcePoliciesPages logs fuel resourcePolicies fn)) ∧
    ((alwaysMore ecs.DescribeCapacityProvidersWithContext (fun output => output.NextToken) →
        NeverReturns fun fuel =>
          describeCapacityProvidersPages ecs fuel capacityProviders (keepGoing _)) ∧
      (alwaysMore logs.DescribeQueryDefinitionsWithContext (fun output => output.NextToken) →
        NeverReturns fun fuel =>
          describeQueryDefinitionsPages logs fuel queryDefinitions (keepGoing _)) ∧
      (alwaysMore logs.DescribeResourcePoliciesWithContext (fun output => output.NextToken) →
        NeverReturns fun fuel =>
          describeResourcePoliciesPages logs fuel resourcePolicies (keepGoing _))) ∧
    (alwaysMore endlessECS.DescribeCapacityProvidersWithContext (fun output => output.NextToken) ∧
      alwaysMore endlessLogs.DescribeQueryDefinitionsWithContext (fun output => output.NextToken) ∧
      alwaysMore endlessLogs.DescribeResourcePoliciesWithContext
        (fun output => output.NextToken)) := by
  refine ⟨⟨?_, ?_, ?_⟩, ⟨?_, ?_, ?_⟩, ⟨?_, ?_, ?_⟩⟩
  · intro n hends fn fuel
    refine ⟨?_, fun hfuel => (listPages_terminates _ _ _ fn n [] [] _ hends fuel hfuel).2⟩
    by_cases hfuel : n ≤ fuel
    · exact (listPages_terminates _ _ _ fn n [] [] _ hends fuel hfuel).1
    · exact Nat.le_trans (listPages_calls_le _ _ _ fn fuel [] [] _) (by omega)
  · intro n hends fn fuel
    refine ⟨?_, fun hfuel => (listPages_terminates _ _ _ fn n [] [] _ hends fuel hfuel).2⟩
    by_cases hfuel : n ≤ fuel
    · exact (listPages_terminates _ _ _ fn n [] [] _ hends fuel hfuel).1
    · exact Nat.le_trans (listPages_calls_le _ _ _ fn fuel [] [] _) (by omega)
  · intro n hends fn fuel
    refine ⟨?_, fun hfuel => (listPages_terminates _ _ _ fn n [] [] _ hends fuel hfuel).2⟩
    by_cases hfuel : n ≤ fuel
    · exact (listPages_terminates _ _ _ fn n [] [] _ hends fuel hfuel).1
    · exact Nat.le_trans (listPages_calls_le _ _ _ fn fuel [] [] _) (by omega)
  · exact fun hmore fuel => listPages_never_returns _ _ _ hmore fuel [] [] _
  · exact fun hmore fuel => listPages_never_returns _ _ _ hmore fuel [] [] _
  · exact fun hmore fuel => listPages_never_returns _ _ _ hmore fuel [] [] _
  · exact fun _ _ => ⟨_, rfl, by decide⟩
  · exact fun _ _ => ⟨_, rfl, by decide⟩
  · exact fun _ _ => ⟨_, rfl, by decide⟩

/-- Witness of C23: the chain of `pagedECS` ends within three calls, so a pager whose
`fn` stops at the second page has returned, after at most three calls; against
`endlessECS` the pager is still running after 100 iterations, each with its
call. -/
theorem pagers_terminate_witness :
    ((describeCapacityProvidersPages pagedECS 7 firstCapacityProviders
        (stopAtSecond _)).calls.length ≤ 3 ∧
      (describeCapacityProvidersPages pagedECS 7 firstCapacityProviders
        (stopAtSecond _)).returned.isSome = true) ∧
    ((describeCapacityProvidersPages endlessECS 100 firstCapacityProviders
        (keepGoing _)).returned = none ∧
      (describeCapacityProvidersPages endlessECS 100 firstCapacityProviders
        (keepGoing _)).calls.length = 100) :=
  have h := pagers_terminate pagedECS pagedLogs firstCapacityProviders firstQueryDefinitions
    firstResourcePolicies
  have h' := pagers_terminate endlessECS endlessLogs firstCapacityProviders
    firstQueryDefinitions firstResourcePolicies
  ⟨⟨(h.1.1 3 (by decide) (stopAtSecond _) 7).1,
      (h.1.1 3 (by decide) (stopAtSecond _) 7).2 (by decide)⟩,
    h'.2.1.1 h'.2.2.1 100⟩

/-! ## C24: the delete handler waits for the deletion -/

theorem pollHistory_succ (calls : List ApiCall) (bucket expectedBucketOwner : String)
    (j : Nat) :
    pollHistory calls bucket expectedBucketOwner (j + 1) =
      pollHistory calls bucket expectedBucketOwner j ++ [ApiCall.GetBucketWebsite
        { Bucket := some bucket
          ExpectedBucketOwner :=
            if expectedBucketOwner ≠ "" then some expectedBucketOwner else none }] := by
  simp [pollHistory, List.replicate_succ']

/-- The polling loop over `findBucketWebsite`, started at the `start`-th poll: it
returns nil exactly when some poll within its budget ends in a not-found error
after polls that all found the website configuration. -/
theorem RetryUntilNotFound_findBucketWebsite (conn : S3Client) (notFound : GoError → Bool)
    (calls : List ApiCall) (bucket expectedBucketOwner : String) (polls start : Nat) :
    (RetryUntilNotFound notFound polls (findBucketWebsiteLookup conn bucket expectedBucketOwner)
        (pollHistory calls bucket expectedBucketOwner start)).1 = none ↔
      ∃ k, k < polls ∧
        (∀ j, j < k → pollError conn calls bucket expectedBucketOwner (start + j) = none) ∧
        ∃ err, pollError conn calls bucket expectedBucketOwner (start + k) = some err ∧
          notFound err = true := by
  induction polls generalizing start with
  | zero => simp [RetryUntilNotFound]
  | succ polls ih =>
    cases hpoll : pollError conn calls bucket expectedBucketOwner start with
    | some err =>
      have hstep : (RetryUntilNotFound notFound (polls + 1)
          (findBucketWebsiteLookup conn bucket expectedBucketOwner)
          (pollHistory calls bucket expectedBucketOwner start)).1 =
            if notFound err = true then none else some err := by
        unfold pollError at hpoll
        unfold RetryUntilNotFound findBucketWebsiteLookup
        rcases hfind : findBucketWebsite conn (pollHistory calls bucket expectedBucketOwner start)
            bucket expectedBucketOwner with ⟨output, e⟩
        rw [hfind] at hpoll
        simp only at hpoll
        subst hpoll
        simp only
        split <;> rfl
      rw [hstep]
      by_cases hnf : notFound err = true
      · rw [if_pos hnf]
        refine ⟨fun _ => ?_, fun _ => rfl⟩
        exact ⟨0, Nat.succ_pos _, fun j hj => absurd hj (Nat.not_lt_zero j), err, hpoll, hnf⟩
      · rw [if_neg hnf]
        refine ⟨fun h => Option.noConfusion h, ?_⟩
        rintro ⟨k, _, hfound, err', herr', hnf'⟩
        exfalso
        cases k with
        | zero =>
          rw [Nat.add_zero, hpoll] at herr'
          cases herr'
          exact hnf hnf'
        | succ k =>
          have := hfound 0 (Nat.succ_pos _)
          rw [Nat.add_zero, hpoll] at this
          cases this
    | none =>
      have hstep : (RetryUntilNotFound notFound (polls + 1)
          (findBucketWebsiteLookup conn bucket expectedBucketOwner)
          (pollHistory calls bucket expectedBucketOwner start)).1 =
            (RetryUntilNotFound notFound polls
              (findBucketWebsiteLookup conn bucket expectedBucketOwner)
              (pollHistory calls bucket expectedBucketOwner (start + 1))).1 := by
        unfold pollError at hpoll
        rw [pollHistory_succ]
        conv_lhs => unfold RetryUntilNotFound findBucketWebsiteLookup
        rcases hfind : findBucketWebsite conn (pollHistory calls bucket expectedBucketOwner start)
            bucket expectedBucketOwner with ⟨output, e⟩
        rw [hfind] at hpoll
        simp only at hpoll
        subst hpoll
        rfl
      rw [hstep, ih (start + 1)]
      constructor
      · rintro ⟨k, hk, hfound, err, herr, hnf⟩
        refine ⟨k + 1, Nat.succ_lt_succ hk, ?_, err, ?_, hnf⟩
        · intro j hj
          cases j with
          | zero => simpa using hpoll
          | succ j =>
            have := hfound j (Nat.lt_of_succ_lt_succ hj)
            rwa [Nat.add_assoc, Nat.add_comm 1 j] at this
        · rwa [Nat.add_assoc, Nat.add_comm 1 k] at herr
      · rintro ⟨k, hk, hfound, err, herr, hnf⟩
        cases k with
        | zero =>
          rw [Nat.add_zero, hpoll] at herr
          cases herr
        | succ k =>
          refine ⟨k, Nat.lt_of_succ_lt_succ hk, ?_, err, ?_, hnf⟩
          · intro j hj
            have := hfound (j + 1) (Nat.succ_lt_succ hj)
            rwa [Nat.add_assoc, Nat.add_comm 1 j]
          · rwa [Nat.add_assoc, Nat.add_comm 1 k]

/-- After a successful `DeleteBucketWebsite` the diagnostics of the delete handler
are decided by the error that `RetryUntilNotFound` returns for the polling of
`findBucketWebsite` with the same bucket and expected bucket owner. -/
theorem resourceBucketWebsiteConfigurationDelete_waited (client : AWSClient)
    (d : ResourceData) (calls : List ApiCall) (bucket expectedBucketOwner : String)
    (hid : client.ParseResourceID d.Id = .ok (bucket, expectedBucketOwner))
    (hdelete : client.S3Client.DeleteBucketWebsite calls
      (deleteBucketWebsiteInput bucket expectedBucketOwner) = none) :
    (resourceBucketWebsiteConfigurationDelete client d calls).diags =
      match (client.RetryUntilNotFound
        (findBucketWebsiteLookup client.S3Client bucket expectedBucketOwner)
        (pollHistory calls bucket expectedBucketOwner 0)).1 with
      | some err =>
        Errorf ("waiting for S3 Bucket Accelerate Configuration (" ++ d.Id ++ ") delete: "
          ++ err.Error)
      | none => [] := by
  have hhist : pollHistory calls bucket expectedBucketOwner 0 =
      calls ++ [ApiCall.DeleteBucketWebsite
        (deleteBucketWebsiteInput bucket expectedBucketOwner)] := by
    simp [pollHistory]
  rw [hhist]
  rcases hretry : client.RetryUntilNotFound
      (findBucketWebsiteLookup client.S3Client bucket expectedBucketOwner)
      (calls ++ [ApiCall.DeleteBucketWebsite
        (deleteBucketWebsiteInput bucket expectedBucketOwner)]) with ⟨_ | err, after⟩
  · simp [resourceBucketWebsiteConfigurationDelete, hid, hdelete, ErrCodeEquals, hretry]
  · simp [resourceBucketWebsiteConfigurationDelete, hid, hdelete, ErrCodeEquals, hretry]

/-- Claim C24: whenever `DeleteBucketWebsite` succeeds,
`resourceBucketWebsiteConfigurationDelete` returns no diagnostics exactly when
`RetryUntilNotFound`, polling `findBucketWebsite` with the same bucket and
expected bucket owner, returns nil, and an error diagnostic otherwise; with
`RetryUntilNotFound` the polling loop of `polls` polls, it returns no
diagnostics exactly when a poll within the budget ended in a not-found error
after polls that all found the configuration, and an error diagnostic when a
poll ended in another error or when every poll of the budget found the
configuration. -/
theorem delete_waits_for_not_found (client : AWSClient) (d : ResourceData)
    (calls : List ApiCall) (bucket expectedBucketOwner : String)
    (hid : client.ParseResourceID d.Id = .ok (bucket, expectedBucketOwner))
    (hdelete : client.S3Client.DeleteBucketWebsite calls
      (deleteBucketWebsiteInput bucket expectedBucketOwner) = none) :
    ((resourceBucketWebsiteConfigurationDelete client d calls).diags = [] ↔
      (client.RetryUntilNotFound
        (findBucketWebsiteLookup client.S3Client bucket expectedBucketOwner)
        (pollHistory calls bucket expectedBucketOwner 0)).1 = none) ∧
    ((resourceBucketWebsiteConfigurationDelete client d calls).diags = [] ∨
      (resourceBucketWebsiteConfigurationDelete client d calls).diags.HasError = true) ∧
    ∀ polls, client.RetryUntilNotFound = RetryUntilNotFound client.NotFound polls →
      ((resourceBucketWebsiteConfigurationDelete client d calls).diags = [] ↔
        ∃ k, k < polls ∧
          (∀ j, j < k → pollError client.S3Client calls bucket expectedBucketOwner j = none) ∧
          ∃ err, pollError client.S3Client calls bucket expectedBucketOwner k = some err ∧
            client.NotFound err = true) ∧
      (∀ k err, k < polls →
        (∀ j, j < k → pollError client.S3Client calls bucket expectedBucketOwner j = none) →
        pollError client.S3Client calls bucket expectedBucketOwner k = some err →
        client.NotFound err = false →
        (resourceBucketWebsiteConfigurationDelete client d calls).diags.HasError = true) ∧
      ((∀ j, j < polls →
          pollError client.S3Client calls bucket expectedBucketOwner j = none) →
        (resourceBucketWebsiteConfigurationDelete client d calls).diags.HasError = true) := by
  have hdiags := resourceBucketWebsiteConfigurationDelete_waited client d calls bucket
    expectedBucketOwner hid hdelete
  have hiff : (resourceBucketWebsiteConfigurationDelete client d calls).diags = [] ↔
      (client.RetryUntilNotFound
        (findBucketWebsiteLookup client.S3Client bucket expectedBucketOwner)
        (pollHistory calls bucket expectedBucketOwner 0)).1 = none := by
    rw [hdiags]
    cases (client.RetryUntilNotFound
      (findBucketWebsiteLookup client.S3Client bucket expectedBucketOwner)
      (pollHistory calls bucket expectedBucketOwner 0)).1 with
    | none => simp
    | some err => simp [Errorf]
  have hor : (resourceBucketWebsiteConfigurationDelete client d calls).diags = [] ∨
      (resourceBucketWebsiteConfigurationDelete client d calls).diags.HasError = true := by
    rw [hdiags]
    cases (client.RetryUntilNotFound
      (findBucketWebsiteLookup client.S3Client bucket expectedBucketOwner)
      (pollHistory calls bucket expectedBucketOwner 0)).1 with
    | none => exact Or.inl rfl
    | some err => exact Or.inr (Errorf_HasError _)
  refine ⟨hiff, hor, fun polls hretry => ?_⟩
  have hpolls : (resourceBucketWebsiteConfigurationDelete client d calls).diags = [] ↔
      ∃ k, k < polls ∧
        (∀ j, j < k → pollError client.S3Client calls bucket expectedBucketOwner j = none) ∧
        ∃ err, pollError client.S3Client calls bucket expectedBucketOwner k = some err ∧
          client.NotFound err = true := by
    rw [hiff, hretry, RetryUntilNotFound_findBucketWebsite]
    simp only [Nat.zero_add]
  refine ⟨hpolls, ?_, ?_⟩
  · intro k err hk hfound herr hnf
    rcases hor with hnil | herror
    · exfalso
      obtain ⟨k', _, hfound', err', herr', hnf'⟩ := hpolls.mp hnil
      rcases Nat.lt_trichotomy k k' with hlt | heq | hgt
      · rw [hfound' k hlt] at herr
        cases herr
      · subst heq
        rw [herr] at herr'
        cases herr'
        rw [hnf] at hnf'
        cases hnf'
      · rw [hfound k' hgt] at herr'
        cases herr'
    · exact herror
  · intro hfound
    rcases hor with hnil | herror
    · exfalso
      obtain ⟨k', hk', _, err', herr', _⟩ := hpolls.mp hnil
      rw [hfound k' hk'] at herr'
      cases herr'
    · exact herror

/-- Witness of C24: the deleted configuration of the bucket `site` is still read by
two polls and gone at the third, within the five polls of `waitingClient`: the
handler returns no diagnostics; with `staleClient` every one of the three
polls reads it and the handler returns an error diagnostic. -/
theorem delete_waits_for_not_found_witness :
    (resourceBucketWebsiteConfigurationDelete waitingClient existingWebsite []).diags = [] ∧
    (resourceBucketWebsiteConfigurationDelete staleClient existingWebsite []).diags.HasError
      = true :=
  ⟨(((delete_waits_for_not_found waitingClient existingWebsite [] "site" "" rfl rfl).2.2 5
      rfl).1).mpr ⟨2, by decide, fun j hj => by
        have : j = 0 ∨ j = 1 := by omega
        rcases this with h | h <;> subst h <;> rfl,
        .notFound (.awserr "NoSuchWebsiteConfiguration" "no website configuration"), rfl, rfl⟩,
    ((delete_waits_for_not_found staleClient existingWebsite [] "site" "" rfl rfl).2.2 3
      rfl).2.2 fun j _ => rfl⟩

end TerraformAWS
